import Mathlib

/-!
# QLC+ cue-list controller: MIDI step decoder and rate limiter

Shallow embedding of `qmlui/virtualconsole/midistepcontroller.cpp`, of the
parts of `qmlui/virtualconsole/vccuelist.cpp` that the decoder, the navigation
entry points, the side fader and the progress reporter use, and of the
interval setting of `engine/src/autosavemanager.cpp`.

Conventions of the embedding:

* C++ `int` values are `Int`; no computation of the modelled code leaves the
  32-bit range on the inputs it can receive (velocities are 8-bit, times are
  milliseconds of a day).
* `uchar` arguments are `Nat`; theorems bound them where the bound matters.
* `QTime::currentTime()` is the field `Env.now`, in milliseconds on a clock
  that does not wrap; `msecsTo` is the difference of two readings and an
  invalid `QTime` is `none`.
* The sequence engine is an external collaborator. What the controller reads
  from it is the snapshot `Env.doc`; what the controller sends to it is the
  returned list of `Command`s, in program order.
* Signals consumed by the display layer (`emit ...Changed()`), debug output,
  captions and the QML list model are not modelled.
* Intensities (`qreal`) are rational numbers and their division by `100.0` is
  exact. Where the controller turns a floating-point value into a step index
  (the Steps mode of the side fader) the rounding of every `float` and
  `qreal` operation is a parameter, `FloatArith`; the theorems about that
  computation hold for every rounding that is monotone and leaves the
  numbers of the format unchanged, exact arithmetic included.
-/

namespace QLC

/-! ## Engine-side declarations used by the controller -/

/-- Playback direction of a function (`Function::Direction`). -/
inductive Direction where
  | Forward
  | Backward
  deriving DecidableEq, Repr

/-- Fade-control modes of the chaser that the controller selects from. -/
inductive FadeControlMode where
  | FromFunction
  | Blended
  | BlendedCrossfade
  deriving DecidableEq, Repr

/-- Kinds of `ChaserAction` the controller creates. -/
inductive ChaserActionType where
  | ChaserStopStep
  | ChaserNextStep
  | ChaserPreviousStep
  | ChaserSetStepIndex
  deriving DecidableEq, Repr

/-- A `ChaserAction` value. The C++ struct has no initialisers, so a field the
caller did not assign is `none`. -/
structure ChaserAction where
  action : ChaserActionType
  stepIndex : Option Int := none
  masterIntensity : Option ℚ := none
  stepIntensity : Option ℚ := none
  fadeMode : Option FadeControlMode := none
  deriving DecidableEq

/-- The running step as `Chaser::currentRunningStep()` reports it: whether its
`m_function` is set, and its fade-in time, elapsed time and duration in
milliseconds. -/
structure ChaserRunnerStep where
  hasFunction : Bool := false
  fadeIn : Nat := 0
  elapsed : Nat := 0
  duration : Nat := 0
  deriving DecidableEq

/-- The observable part of a function registered in the document: what
`Doc::function(id)` returns and the controller then queries. `isChaser` tells
whether `qobject_cast<Chaser*>` succeeds; `stopped`, `currentStepIndex`,
`runningStepsNumber` and `currentRunningStep` are the values of the methods of
these names. -/
structure DocFunction where
  id : Nat
  isChaser : Bool := true
  running : Bool := false
  paused : Bool := false
  stepsCount : Nat := 0
  direction : Direction := Direction.Forward
  stopped : Bool := true
  currentStepIndex : Int := -1
  runningStepsNumber : Nat := 0
  currentRunningStep : ChaserRunnerStep := {}
  deriving DecidableEq

/-- Modelled from the spec: `Function::invalidId()`, the "empty" sequence
identifier; its declaration is not among the sources. -/
def invalidId : Nat := 4294967295

/-- The rounding of floating-point results: `toFloat` gives the `float` and
`toDouble` the `qreal` (double) nearest to a real number, in the sense of the
platform. -/
structure FloatArith where
  toFloat : ℚ → ℚ
  toDouble : ℚ → ℚ

/-- Exact arithmetic: nothing is rounded. -/
def exactArith : FloatArith := { toFloat := fun q => q, toDouble := fun q => q }

/-- A finite number of a binary floating-point format: an integer significand
of at most `p` bits times a power of two whose exponent lies between `emin`
and `emax`. The `float` format is `p = 24`, `emin = -149`, `emax = 104`; the
`qreal` (double) format is `p = 53`, `emin = -1074`, `emax = 971`. -/
def Representable (p : Nat) (emin emax : Int) (q : ℚ) : Prop :=
  ∃ k e : Int, |k| < 2 ^ p ∧ emin ≤ e ∧ e ≤ emax ∧ q = (k : ℚ) * (2 : ℚ) ^ e

/-- What the theorems need of a rounding: it is monotone and it leaves the
finite numbers of the format unchanged. IEEE 754 rounding has both properties
in every rounding mode. -/
structure FloatArith.Sound (ar : FloatArith) : Prop where
  float_mono : ∀ a b : ℚ, a ≤ b → ar.toFloat a ≤ ar.toFloat b
  float_exact : ∀ q : ℚ, Representable 24 (-149) 104 q → ar.toFloat q = q
  double_mono : ∀ a b : ℚ, a ≤ b → ar.toDouble a ≤ ar.toDouble b
  double_exact : ∀ q : ℚ, Representable 53 (-1074) 971 q → ar.toDouble q = q

/-- What one call of an entry point reads from outside the controller: the
clock, the document, the constant `MIN_CHANGE_INTERVAL_MS` whose declaration
(vccuelist.h) is not among the sources, whether the caller runs on the thread
that owns the controller, the engine's `Chaser::computeNextStep` (by
function identifier and step index), the floating-point rounding, and the
engine's constants `Function::infiniteSpeed()` and `Function::defaultSpeed()`,
whose declarations are not among the sources either. -/
structure Env where
  now : Int
  doc : List DocFunction
  minChangeIntervalMs : Int := 0
  owningThread : Bool := true
  computeNextStep : Nat → Int → Int := fun _ _ => -1
  arith : FloatArith := exactArith
  infiniteSpeed : Nat := 4294967294
  defaultSpeed : Nat := 4294967295

/-- The document lookup `m_doc->function(id)`. -/
def Env.function (env : Env) (fid : Nat) : Option DocFunction :=
  env.doc.find? (fun f => f.id == fid)

/-- A call made by the controller on the sequence engine (or, for the two
intensity calls, on the `VCWidget` base class that forwards to the engine).
The first argument is the identifier of the function the call is made on.
`adjustStepIntensity` is `Chaser::adjustStepIntensity(fraction, stepIndex,
fadeControl)`; `sendFeedback` is `VCWidget::sendFeedback(value, id)`, which
goes to the input devices and not to the sequence engine. -/
inductive Command where
  | setAction (fid : Nat) (action : ChaserAction)
  | start (fid : Nat)
  | stop (fid : Nat)
  | setPause (fid : Nat) (enable : Bool)
  | adjustFunctionIntensity (fid : Nat) (value : ℚ)
  | resetIntensityOverrideAttribute
  | adjustStepIntensity (fid : Nat) (fraction : ℚ) (stepIndex : Int)
      (fadeControl : FadeControlMode)
  | sendFeedback (value : Int) (id : Nat)
  deriving DecidableEq

/-! ## Single-shot timers -/

/-- A `QTimer` in single-shot mode: its interval property and, while it is
active, the time at which it is due. -/
structure QTimer where
  interval : Int := 0
  deadline : Option Int := none
  deriving DecidableEq

/-- `QTimer::isActive()`. -/
def QTimer.isActive (t : QTimer) : Bool := t.deadline.isSome

/-- `QTimer::stop()`. -/
def QTimer.stop (t : QTimer) : QTimer := { t with deadline := none }

/-- `QTimer::start(msec)`: sets the interval and (re)starts the timer. -/
def QTimer.start (_t : QTimer) (now msec : Int) : QTimer :=
  { interval := msec, deadline := some (now + msec) }

/-- `QTimer::setInterval(msec)`: an active timer is restarted with the new
interval, an inactive one only stores it. -/
def QTimer.setInterval (t : QTimer) (now msec : Int) : QTimer :=
  { interval := msec, deadline := if t.isActive then some (now + msec) else none }

/-! ## State of the decoder and of the cue list -/

/-- Member variables of `MidiStepController` (the parent pointer `m_cueList`
is passed to every method as an argument instead). -/
structure MidiStepController where
  enabled : Bool
  twoNoteMode : Bool
  timeout : Int
  debounceInterval : Int
  changeTimer : QTimer
  lastChangeTime : Option Int
  pendingStep : Int
  hasPendingChange : Bool
  twoNoteTimer : QTimer
  firstNoteValue : Int
  waitingForSecondNote : Bool
  deriving DecidableEq

def DEFAULT_DEBOUNCE_INTERVAL_MS : Int := 100

def MIN_DEBOUNCE_INTERVAL_MS : Int := 10

def MAX_DEBOUNCE_INTERVAL_MS : Int := 1000

def DEFAULT_TIMEOUT_MS : Int := 500

/-- The constructor `MidiStepController::MidiStepController`. -/
def MidiStepController.init : MidiStepController :=
  { enabled := false
    twoNoteMode := false
    timeout := DEFAULT_TIMEOUT_MS
    debounceInterval := DEFAULT_DEBOUNCE_INTERVAL_MS
    changeTimer := { interval := DEFAULT_DEBOUNCE_INTERVAL_MS, deadline := none }
    lastChangeTime := none
    pendingStep := -1
    hasPendingChange := false
    twoNoteTimer := { interval := 0, deadline := none }
    firstNoteValue := -1
    waitingForSecondNote := false }

/-- `VCCueList::NextPrevBehavior`. -/
inductive NextPrevBehavior where
  | DefaultRunFirst
  | RunNext
  | Select
  | Nothing
  deriving DecidableEq, Repr

/-- `VCCueList::PlaybackLayout`. -/
inductive PlaybackLayout where
  | PlayPauseStop
  | PlayStopPause
  deriving DecidableEq, Repr

/-- `VCCueList::FaderMode`. -/
inductive FaderMode where
  | None
  | Crossfade
  | Steps
  deriving DecidableEq, Repr

/-- Member variables of `VCCueList` that the playback code uses. `intensity`
is the value of `VCWidget::intensity()`. `midiStepController` is the decoder
object the constructor allocates; the pointer is never reset. -/
structure VCCueList where
  nextPrevBehavior : NextPrevBehavior
  playbackLayout : PlaybackLayout
  slidersMode : FaderMode
  sideFaderLevel : Int
  nextStepIndex : Int
  primaryTop : Bool
  chaserID : Nat
  playbackIndex : Int
  lastChangeTime : Option Int
  intensity : ℚ
  midiStepController : MidiStepController
  deriving DecidableEq

/-- The constructor `VCCueList::VCCueList`. The intensity is set by the
constructor of the base class `VCWidget`, which is not among the sources, and
is a parameter here. -/
def VCCueList.init (intensity : ℚ) : VCCueList :=
  { nextPrevBehavior := NextPrevBehavior.DefaultRunFirst
    playbackLayout := PlaybackLayout.PlayPauseStop
    slidersMode := FaderMode.None
    sideFaderLevel := 100
    nextStepIndex := -1
    primaryTop := true
    chaserID := invalidId
    playbackIndex := -1
    lastChangeTime := none
    intensity := intensity
    midiStepController := MidiStepController.init }

/-! ## `VCCueList` methods the decoder calls -/

/-- `VCCueList::sideFaderMode`. -/
def VCCueList.sideFaderMode (cl : VCCueList) : FaderMode := cl.slidersMode

/-- `VCCueList::getPrimaryIntensity`. -/
def VCCueList.getPrimaryIntensity (cl : VCCueList) : ℚ :=
  if cl.sideFaderMode = FaderMode.None ∨ cl.sideFaderMode = FaderMode.Steps then 1
  else if cl.primaryTop then (cl.sideFaderLevel : ℚ) / 100
  else ((100 - cl.sideFaderLevel : Int) : ℚ) / 100

/-- `VCCueList::getFadeMode`. -/
def VCCueList.getFadeMode (cl : VCCueList) : FadeControlMode :=
  if cl.sideFaderMode = FaderMode.Steps then FadeControlMode.FromFunction
  else if cl.sideFaderLevel ≠ 0 ∧ cl.sideFaderLevel ≠ 100 then FadeControlMode.BlendedCrossfade
  else FadeControlMode.Blended

/-- `VCCueList::chaser`: the attached sequence, if the identifier is set, the
document still has the function and it is a chaser. -/
def VCCueList.chaser (cl : VCCueList) (env : Env) : Option DocFunction :=
  if cl.chaserID = invalidId then none
  else
    match env.function cl.chaserID with
    | none => none
    | some f => if f.isChaser then some f else none

/-- `VCCueList::startChaser`. -/
def VCCueList.startChaser (cl : VCCueList) (env : Env) (startIndex : Int) : List Command :=
  match cl.chaser env with
  | none => []
  | some ch =>
    [ Command.adjustFunctionIntensity ch.id cl.intensity,
      Command.setAction ch.id
        { action := ChaserActionType.ChaserSetStepIndex
          stepIndex := some startIndex
          masterIntensity := some cl.intensity
          stepIntensity := some cl.getPrimaryIntensity
          fadeMode := some cl.getFadeMode },
      Command.start ch.id ]

/-! ## `MidiStepController` methods -/

/-- `MidiStepController::setEnabled`. -/
def MidiStepController.setEnabled (m : MidiStepController) (enabled : Bool) :
    MidiStepController :=
  if m.enabled = enabled then m
  else if enabled = false then
    { m with
      enabled := enabled
      changeTimer := m.changeTimer.stop
      twoNoteTimer := m.twoNoteTimer.stop
      hasPendingChange := false
      waitingForSecondNote := false
      firstNoteValue := -1
      pendingStep := -1 }
  else { m with enabled := enabled }

/-- `MidiStepController::setTwoNoteMode`. -/
def MidiStepController.setTwoNoteMode (m : MidiStepController) (enabled : Bool) :
    MidiStepController :=
  if m.twoNoteMode = enabled then m
  else
    { m with
      twoNoteMode := enabled
      twoNoteTimer := m.twoNoteTimer.stop
      waitingForSecondNote := false
      firstNoteValue := -1 }

/-- `MidiStepController::setTimeout`. -/
def MidiStepController.setTimeout (m : MidiStepController) (now timeout : Int) :
    MidiStepController :=
  { m with
    timeout := max 100 timeout
    twoNoteTimer := m.twoNoteTimer.setInterval now (max 100 timeout) }

/-- Qt's `qBound(min, val, max)`, that is `qMax(min, qMin(max, val))`. -/
def qBound (lo val hi : Int) : Int := max lo (min hi val)

/-- `MidiStepController::setDebounceInterval`. -/
def MidiStepController.setDebounceInterval (m : MidiStepController) (now interval : Int) :
    MidiStepController :=
  { m with
    debounceInterval := qBound MIN_DEBOUNCE_INTERVAL_MS interval MAX_DEBOUNCE_INTERVAL_MS
    changeTimer := m.changeTimer.setInterval now
      (qBound MIN_DEBOUNCE_INTERVAL_MS interval MAX_DEBOUNCE_INTERVAL_MS) }

/-- `MidiStepController::getChaser`; `cueList` is the pointer `m_cueList`. -/
def getChaser (cueList : Option VCCueList) (env : Env) : Option DocFunction :=
  match cueList with
  | none => none
  | some cl => cl.chaser env

/-- `MidiStepController::isValidStep`. -/
def isValidStep (cueList : Option VCCueList) (env : Env) (stepIndex : Int) : Bool :=
  if stepIndex < 0 then false
  else
    match getChaser cueList env with
    | none => false
    | some ch => decide (stepIndex < (ch.stepsCount : Int))

/-- `MidiStepController::executeStepChange`. -/
def executeStepChange (env : Env) (cueList : Option VCCueList) (m : MidiStepController) :
    MidiStepController × List Command :=
  match cueList with
  | none => (m, [])
  | some cl =>
    if m.enabled = false ∨ m.hasPendingChange = false then (m, [])
    else
      let stepIndex := m.pendingStep
      let m1 := { m with hasPendingChange := false, pendingStep := -1 }
      if isValidStep cueList env stepIndex = false then (m1, [])
      else
        match getChaser cueList env with
        | none => (m1, [])
        | some ch =>
          let cmds :=
            if ch.running then
              [ Command.setAction ch.id
                  { action := ChaserActionType.ChaserSetStepIndex
                    stepIndex := some stepIndex
                    masterIntensity := some cl.intensity
                    stepIntensity := some cl.getPrimaryIntensity
                    fadeMode := some FadeControlMode.FromFunction } ]
            else cl.startChaser env stepIndex
          ({ m1 with lastChangeTime := some env.now }, cmds)

/-- The test `m_lastChangeTime.isValid() && m_lastChangeTime.msecsTo(currentTime) <
m_debounceInterval` of `queueStepChange`. -/
def rateLimited (env : Env) (m : MidiStepController) : Bool :=
  match m.lastChangeTime with
  | none => false
  | some t => decide (env.now - t < m.debounceInterval)

/-- `MidiStepController::queueStepChange`. -/
def queueStepChange (env : Env) (cueList : Option VCCueList) (m : MidiStepController)
    (stepIndex : Int) : MidiStepController × List Command :=
  match cueList with
  | none => (m, [])
  | some _ =>
    if m.enabled = false then (m, [])
    else if isValidStep cueList env stepIndex = false then (m, [])
    else
      match m.lastChangeTime with
      | some t =>
        if env.now - t < m.debounceInterval then
          let m1 := { m with pendingStep := stepIndex, hasPendingChange := true }
          if m1.changeTimer.isActive = false then
            ({ m1 with
               changeTimer :=
                 m1.changeTimer.start env.now (max 10 (m.debounceInterval - (env.now - t))) },
             [])
          else (m1, [])
        else
          executeStepChange env cueList
            { m with pendingStep := stepIndex, hasPendingChange := true }
      | none =>
        executeStepChange env cueList
          { m with pendingStep := stepIndex, hasPendingChange := true }

/-- `MidiStepController::handleFirstNote`. -/
def handleFirstNote (env : Env) (cueList : Option VCCueList) (m : MidiStepController)
    (velocity : Nat) : MidiStepController × List Command :=
  match cueList with
  | none => (m, [])
  | some _ =>
    if m.enabled = false then (m, [])
    else if m.twoNoteMode then
      ({ m with
         firstNoteValue := (velocity : Int)
         waitingForSecondNote := true
         twoNoteTimer := m.twoNoteTimer.start env.now m.timeout },
       [])
    else if velocity = 0 then (m, [])
    else queueStepChange env cueList m ((velocity : Int) - 1)

/-- `MidiStepController::handleSecondNote`. -/
def handleSecondNote (env : Env) (cueList : Option VCCueList) (m : MidiStepController)
    (velocity : Nat) : MidiStepController × List Command :=
  match cueList with
  | none => (m, [])
  | some _ =>
    if m.enabled = false ∨ m.twoNoteMode = false ∨ m.waitingForSecondNote = false then (m, [])
    else
      let midiValue : Int := m.firstNoteValue * 128 + (velocity : Int)
      let targetStep : Int := if midiValue = 0 then -1 else midiValue - 1
      let m1 :=
        { m with
          twoNoteTimer := m.twoNoteTimer.stop
          waitingForSecondNote := false
          firstNoteValue := -1 }
      if targetStep < 0 then (m1, [])
      else queueStepChange env cueList m1 targetStep

/-- `MidiStepController::handleTwoNoteTimeout`. -/
def handleTwoNoteTimeout (env : Env) (cueList : Option VCCueList) (m : MidiStepController) :
    MidiStepController × List Command :=
  if m.waitingForSecondNote = false then (m, [])
  else if m.firstNoteValue = 0 then
    ({ m with waitingForSecondNote := false, firstNoteValue := -1 }, [])
  else
    queueStepChange env cueList
      { m with waitingForSecondNote := false, firstNoteValue := -1 }
      (m.firstNoteValue - 1)

/-! ## Decoder entry points and timer expiries as events -/

/-- The public entry points of the decoder and the expiries of its two timers.
A timer expiry runs the slot connected to the timer. -/
inductive MidiEvent where
  | setEnabled (enabled : Bool)
  | setTwoNoteMode (enabled : Bool)
  | setTimeout (timeout : Int)
  | setDebounceInterval (interval : Int)
  | firstNote (velocity : Nat)
  | secondNote (velocity : Nat)
  | changeTimerTimeout
  | twoNoteTimerTimeout
  deriving DecidableEq

/-- One event applied to the decoder. A single-shot timer fires only while it
is active and due, and is inactive when its slot runs. -/
def MidiStepController.handle (env : Env) (cueList : Option VCCueList)
    (m : MidiStepController) : MidiEvent → MidiStepController × List Command
  | MidiEvent.setEnabled enabled => (m.setEnabled enabled, [])
  | MidiEvent.setTwoNoteMode enabled => (m.setTwoNoteMode enabled, [])
  | MidiEvent.setTimeout timeout => (m.setTimeout env.now timeout, [])
  | MidiEvent.setDebounceInterval interval => (m.setDebounceInterval env.now interval, [])
  | MidiEvent.firstNote velocity => handleFirstNote env cueList m velocity
  | MidiEvent.secondNote velocity => handleSecondNote env cueList m velocity
  | MidiEvent.changeTimerTimeout =>
    match m.changeTimer.deadline with
    | none => (m, [])
    | some d =>
      if d ≤ env.now then
        executeStepChange env cueList { m with changeTimer := m.changeTimer.stop }
      else (m, [])
  | MidiEvent.twoNoteTimerTimeout =>
    match m.twoNoteTimer.deadline with
    | none => (m, [])
    | some d =>
      if d ≤ env.now then
        handleTwoNoteTimeout env cueList { m with twoNoteTimer := m.twoNoteTimer.stop }
      else (m, [])

/-- An event together with what the decoder sees when it happens. -/
structure Occurrence where
  env : Env
  cueList : Option VCCueList
  event : MidiEvent

/-- A run of the decoder: the events are applied in order; every command is
logged with the time of the event that issued it. -/
def runDecoder (m : MidiStepController) :
    List Occurrence → MidiStepController × List (Int × Command)
  | [] => (m, [])
  | o :: os =>
    let r := m.handle o.env o.cueList o.event
    let rest := runDecoder r.1 os
    (rest.1, r.2.map (fun c => (o.env.now, c)) ++ rest.2)

/-- The target index carried by a command, when the command is a
`ChaserSetStepIndex` action. Starting the sequence at an index sends such an
action right before `start`. -/
def Command.stepIndex? : Command → Option Int
  | Command.setAction _ a =>
    if a.action = ChaserActionType.ChaserSetStepIndex then a.stepIndex else none
  | _ => none

/-- The step indices forwarded to the sequence by a list of commands. -/
def stepIndices (cmds : List Command) : List Int :=
  cmds.filterMap Command.stepIndex?

/-- The step changes of a timed log: time and target index of each. -/
def dispatches (log : List (Int × Command)) : List (Int × Int) :=
  log.filterMap (fun p => (p.2.stepIndex?).map (fun i => (p.1, i)))

/-- Every step index forwarded by `cmds` goes, as a `ChaserSetStepIndex`
action, to the sequence attached to `cl` and lies within its step count. -/
def ForwardsInRange (env : Env) (cl : VCCueList) (cmds : List Command) : Prop :=
  ∀ c ∈ cmds, ∀ i, c.stepIndex? = some i →
    ∃ ch a, cl.chaser env = some ch ∧ c = Command.setAction ch.id a ∧
      0 ≤ i ∧ i < (ch.stepsCount : Int)

/-- States of the decoder reachable from the constructor through its entry
points and timer expiries, under any clock, document and parent pointer. -/
inductive Reachable : MidiStepController → Prop where
  | init : Reachable MidiStepController.init
  | step (m : MidiStepController) (env : Env) (cueList : Option VCCueList) (e : MidiEvent) :
      Reachable m → Reachable (m.handle env cueList e).1

/-- The decoder holds no buffered note, no queued step and no armed timer. -/
def MidiStepController.idle (m : MidiStepController) : Prop :=
  m.hasPendingChange = false ∧ m.waitingForSecondNote = false ∧
    m.changeTimer.deadline = none ∧ m.twoNoteTimer.deadline = none

/-- A run in which no first note arrives while the decoder is enabled. -/
def noNewNote (m : MidiStepController) : List Occurrence → Bool
  | [] => true
  | o :: os =>
    (match o.event with
      | MidiEvent.firstNote _ => !m.enabled
      | _ => true) &&
      noNewNote (m.handle o.env o.cueList o.event).1 os

/-- `VCCueList::setChaserID`. -/
def VCCueList.setChaserID (cl : VCCueList) (env : Env) (fid : Nat) : VCCueList × List Command :=
  if cl.chaserID = fid then (cl, [])
  else
    let current := env.function cl.chaserID
    let function := env.function fid
    let running : Bool :=
      match current with
      | none => false
      | some c => c.running
    let stopCmds : List Command :=
      match current with
      | none => []
      | some c => if c.running then [Command.stop c.id] else []
    match function with
    | some f =>
      ({ cl with chaserID := fid },
       stopCmds ++ (if running then [Command.start f.id] else []))
    | none => ({ cl with chaserID := invalidId }, stopCmds)

/-- `VCCueList::slotFunctionRemoved`. -/
def VCCueList.slotFunctionRemoved (cl : VCCueList) (fid : Nat) : VCCueList × List Command :=
  if fid = cl.chaserID then
    ({ cl with chaserID := invalidId }, [Command.resetIntensityOverrideAttribute])
  else (cl, [])

/-- `VCCueList::setMidiStepSelectionEnabled`. -/
def VCCueList.setMidiStepSelectionEnabled (cl : VCCueList) (enabled : Bool) : VCCueList :=
  if cl.midiStepController.enabled = enabled then cl
  else { cl with midiStepController := cl.midiStepController.setEnabled enabled }

/-- A decoder event inside the cue list: the decoder runs with its parent
pointer set to the cue list that owns it. This is how the MIDI inputs of
`slotInputValueChanged` and the decoder's timers reach the decoder. -/
def VCCueList.decoderEvent (cl : VCCueList) (env : Env) (e : MidiEvent) :
    VCCueList × List Command :=
  let r := cl.midiStepController.handle env (some cl) e
  ({ cl with midiStepController := r.1 }, r.2)

/-- `VCCueList::setNextPrevBehavior`. -/
def VCCueList.setNextPrevBehavior (cl : VCCueList) (nextPrev : NextPrevBehavior) : VCCueList :=
  if cl.nextPrevBehavior = nextPrev then cl else { cl with nextPrevBehavior := nextPrev }

/-- `VCCueList::setPlaybackLayout`. -/
def VCCueList.setPlaybackLayout (cl : VCCueList) (layout : PlaybackLayout) : VCCueList :=
  if layout = cl.playbackLayout then cl else { cl with playbackLayout := layout }

/-- `VCCueList::getNextIndex`. -/
def VCCueList.getNextIndex (cl : VCCueList) (env : Env) : Int :=
  match cl.chaser env with
  | none => -1
  | some ch =>
    if ch.direction = Direction.Forward then
      (if cl.playbackIndex + 1 = (ch.stepsCount : Int) then 0 else cl.playbackIndex + 1)
    else (if cl.playbackIndex = 0 then (ch.stepsCount : Int) - 1 else cl.playbackIndex - 1)

/-- `VCCueList::getPrevIndex`. -/
def VCCueList.getPrevIndex (cl : VCCueList) (env : Env) : Int :=
  match cl.chaser env with
  | none => -1
  | some ch =>
    if ch.direction = Direction.Forward then
      (if cl.playbackIndex = 0 then (ch.stepsCount : Int) - 1 else cl.playbackIndex - 1)
    else (if cl.playbackIndex + 1 = (ch.stepsCount : Int) then 0 else cl.playbackIndex + 1)

/-- `VCCueList::getFirstIndex`. -/
def VCCueList.getFirstIndex (cl : VCCueList) (env : Env) : Int :=
  match cl.chaser env with
  | none => -1
  | some ch => if ch.direction = Direction.Forward then 0 else (ch.stepsCount : Int) - 1

/-- `VCCueList::getLastIndex`. -/
def VCCueList.getLastIndex (cl : VCCueList) (env : Env) : Int :=
  match cl.chaser env with
  | none => -1
  | some ch => if ch.direction = Direction.Forward then (ch.stepsCount : Int) - 1 else 0

/-- `VCCueList::setPlaybackIndex`. A call from another thread is queued for
the owning thread and changes nothing by itself. -/
def VCCueList.setPlaybackIndex (cl : VCCueList) (env : Env) (playbackIndex : Int) : VCCueList :=
  if env.owningThread = false then cl
  else
    let limited : Bool :=
      match cl.lastChangeTime with
      | none => false
      | some t => decide (env.now - t < env.minChangeIntervalMs)
    if limited then cl
    else
      let cl1 := { cl with lastChangeTime := some env.now }
      if cl1.playbackIndex = playbackIndex then cl1
      else
        let cl2 := { cl1 with playbackIndex := playbackIndex }
        match cl2.chaser env with
        | none => cl2
        | some ch =>
          { cl2 with
            nextStepIndex :=
              if playbackIndex ≥ 0 then env.computeNextStep ch.id playbackIndex else -1 }

/-- `VCCueList::stopChaser`. -/
def VCCueList.stopChaser (cl : VCCueList) (env : Env) : List Command :=
  match cl.chaser env with
  | none => []
  | some ch => [Command.stop ch.id, Command.resetIntensityOverrideAttribute]

/-- `VCCueList::playClicked`. -/
def VCCueList.playClicked (cl : VCCueList) (env : Env) : VCCueList × List Command :=
  match cl.chaser env with
  | none => (cl, [])
  | some ch =>
    if ch.running then
      match cl.playbackLayout with
      | PlaybackLayout.PlayPauseStop =>
        (cl,
         [ Command.setAction ch.id
             { action := ChaserActionType.ChaserSetStepIndex
               stepIndex := some cl.playbackIndex
               masterIntensity := some cl.intensity
               stepIntensity := some cl.getPrimaryIntensity
               fadeMode := some cl.getFadeMode },
           Command.setPause ch.id (!ch.paused) ])
      | PlaybackLayout.PlayStopPause => (cl, cl.stopChaser env)
    else (cl, cl.startChaser env (if cl.playbackIndex = -1 then 0 else cl.playbackIndex))

/-- `VCCueList::stopClicked`. -/
def VCCueList.stopClicked (cl : VCCueList) (env : Env) : VCCueList × List Command :=
  match cl.chaser env with
  | none => (cl, [])
  | some ch =>
    if ch.running then
      match cl.playbackLayout with
      | PlaybackLayout.PlayPauseStop => (cl, cl.stopChaser env)
      | PlaybackLayout.PlayStopPause => (cl, [Command.setPause ch.id (!ch.paused)])
    else (cl, [])

/-- `VCCueList::previousClicked`. -/
def VCCueList.previousClicked (cl : VCCueList) (env : Env) : VCCueList × List Command :=
  match cl.chaser env with
  | none => (cl, [])
  | some ch =>
    if ch.running then
      if ch.paused then (cl.setPlaybackIndex env (cl.getPrevIndex env), [])
      else
        (cl,
         [ Command.setAction ch.id
             { action := ChaserActionType.ChaserPreviousStep
               masterIntensity := some cl.intensity
               stepIntensity := some cl.getPrimaryIntensity
               fadeMode := some cl.getFadeMode } ])
    else
      match cl.nextPrevBehavior with
      | NextPrevBehavior.DefaultRunFirst => (cl, cl.startChaser env (cl.getLastIndex env))
      | NextPrevBehavior.RunNext => (cl, cl.startChaser env (cl.getPrevIndex env))
      | NextPrevBehavior.Select => (cl.setPlaybackIndex env (cl.getPrevIndex env), [])
      | NextPrevBehavior.Nothing => (cl, [])

/-- `VCCueList::nextClicked`. -/
def VCCueList.nextClicked (cl : VCCueList) (env : Env) : VCCueList × List Command :=
  match cl.chaser env with
  | none => (cl, [])
  | some ch =>
    if ch.running then
      if ch.paused then (cl.setPlaybackIndex env (cl.getNextIndex env), [])
      else
        (cl,
         [ Command.setAction ch.id
             { action := ChaserActionType.ChaserNextStep
               masterIntensity := some cl.intensity
               stepIntensity := some cl.getPrimaryIntensity
               fadeMode := some cl.getFadeMode } ])
    else
      match cl.nextPrevBehavior with
      | NextPrevBehavior.DefaultRunFirst => (cl, cl.startChaser env (cl.getFirstIndex env))
      | NextPrevBehavior.RunNext => (cl, cl.startChaser env (cl.getNextIndex env))
      | NextPrevBehavior.Select => (cl.setPlaybackIndex env (cl.getNextIndex env), [])
      | NextPrevBehavior.Nothing => (cl, [])

/-! ## `VCCueList`: side fader and external inputs -/

def INPUT_NEXT_STEP_ID : Nat := 0

def INPUT_PREVIOUS_STEP_ID : Nat := 1

def INPUT_PLAY_PAUSE_ID : Nat := 2

def INPUT_STOP_PAUSE_ID : Nat := 3

def INPUT_SIDE_FADER_ID : Nat := 4

def INPUT_STEP_SELECT_FIRST_ID : Nat := 5

def INPUT_STEP_SELECT_SECOND_ID : Nat := 6

/-- The target step of the Steps mode of `VCCueList::setSideFaderLevel` for the
inverted level `level` (lines 294 to 302): `stepSize` is a `float`, the
comparison is made in `float`, the quotient in `qreal`. With no step at all
`stepSize` is infinite, the comparison holds and the target is
`stepsCount - 1 = -1`. -/
def stepsTarget (ar : FloatArith) (stepsCount : Nat) (level : Int) : Int :=
  if stepsCount < 256 then
    if stepsCount = 0 then -1
    else
      let stepSize : ℚ := ar.toFloat (255 / (stepsCount : ℚ))
      if ar.toFloat (255 - stepSize) ≤ ar.toFloat (level : ℚ) then (stepsCount : Int) - 1
      else ⌊ar.toDouble ((level : ℚ) / stepSize)⌋
  else level

/-- The Steps-mode target in the words of the specification, in exact
arithmetic: `stepCount - 1` if `level ≥ 255 - 255 / stepCount`, else
`floor (level / (255 / stepCount))`, when `stepCount < 256`; `level` itself
otherwise. -/
def stepsTargetExact (stepCount : Nat) (level : Int) : Int :=
  if stepCount < 256 then
    if (255 : ℚ) - 255 / (stepCount : ℚ) ≤ (level : ℚ) then (stepCount : Int) - 1
    else ⌊(level : ℚ) / (255 / (stepCount : ℚ))⌋
  else level

/-- `VCCueList::stopStepIfNeeded`. -/
def VCCueList.stopStepIfNeeded (cl : VCCueList) (ch : DocFunction) : VCCueList × List Command :=
  if ch.runningStepsNumber ≠ 2 then (cl, [])
  else
    let primaryValue : Int := if cl.primaryTop then cl.sideFaderLevel else 100 - cl.sideFaderLevel
    let secondaryValue : Int :=
      if cl.primaryTop then 100 - cl.sideFaderLevel else cl.sideFaderLevel
    if primaryValue = 0 then
      ({ cl with primaryTop := !cl.primaryTop },
       [ Command.setAction ch.id
           { action := ChaserActionType.ChaserStopStep, stepIndex := some cl.playbackIndex } ])
    else if secondaryValue = 0 then
      (cl,
       [ Command.setAction ch.id
           { action := ChaserActionType.ChaserStopStep, stepIndex := some cl.nextStepIndex } ])
    else (cl, [])

/-- `VCCueList::setSideFaderLevel`. -/
def VCCueList.setSideFaderLevel (cl : VCCueList) (env : Env) (level : Int) :
    VCCueList × List Command :=
  if level = cl.sideFaderLevel then (cl, [])
  else
    let cl1 := { cl with sideFaderLevel := level }
    if cl1.sideFaderMode = FaderMode.Steps then
      match cl1.chaser env with
      | none => (cl1, [])
      | some ch =>
        if ch.stopped then (cl1, [])
        else
          let newStep := stepsTarget env.arith ch.stepsCount (255 - level)
          let action : ChaserAction :=
            { action := ChaserActionType.ChaserSetStepIndex, stepIndex := some newStep }
          if newStep = ch.currentStepIndex then (cl1, [Command.setAction ch.id action])
          else
            (cl1,
             [ Command.setAction ch.id action,
               Command.sendFeedback cl1.sideFaderLevel INPUT_SIDE_FADER_ID ])
    else
      match cl1.chaser env with
      | none => (cl1, [Command.sendFeedback cl1.sideFaderLevel INPUT_SIDE_FADER_ID])
      | some ch =>
        if ch.stopped then (cl1, [Command.sendFeedback cl1.sideFaderLevel INPUT_SIDE_FADER_ID])
        else
          let r := cl1.stopStepIfNeeded ch
          (r.1,
           [ Command.adjustStepIntensity ch.id ((level : ℚ) / 100)
               (if cl1.primaryTop then cl1.playbackIndex else cl1.nextStepIndex) cl1.getFadeMode,
             Command.adjustStepIntensity ch.id (((100 - level : Int) : ℚ) / 100)
               (if cl1.primaryTop then cl1.nextStepIndex else cl1.playbackIndex)
               cl1.getFadeMode ] ++
             r.2 ++ [Command.sendFeedback r.1.sideFaderLevel INPUT_SIDE_FADER_ID])

/-- `VCCueList::setSideFaderMode`. -/
def VCCueList.setSideFaderMode (cl : VCCueList) (env : Env) (mode : FaderMode) :
    VCCueList × List Command :=
  if mode = cl.slidersMode then (cl, [])
  else
    match mode with
    | FaderMode.Steps => { cl with slidersMode := mode }.setSideFaderLevel env 255
    | FaderMode.Crossfade => { cl with slidersMode := mode }.setSideFaderLevel env 100
    | FaderMode.None => ({ cl with slidersMode := mode }, [])

/-- Modelled from the spec: the macro `SCALE` (qlcmacros.h) is not among the
sources. The specification gives the fader the positions 0 to 100 or 0 to
255: the 8-bit input value is rescaled linearly from 0..255 onto 0..`top` and
the conversion to `int` drops the fraction. -/
def scaleFader (value : Nat) (top : Int) : Int := (value : Int) * top / 255

/-- `VCCueList::slotInputValueChanged`. -/
def VCCueList.slotInputValueChanged (cl : VCCueList) (env : Env) (id value : Nat) :
    VCCueList × List Command :=
  if id = INPUT_NEXT_STEP_ID then
    (if value ≠ 255 then (cl, []) else cl.nextClicked env)
  else if id = INPUT_PREVIOUS_STEP_ID then
    (if value ≠ 255 then (cl, []) else cl.previousClicked env)
  else if id = INPUT_PLAY_PAUSE_ID then
    (if value ≠ 255 then (cl, []) else cl.playClicked env)
  else if id = INPUT_STOP_PAUSE_ID then
    (if value ≠ 255 then (cl, []) else cl.stopClicked env)
  else if id = INPUT_SIDE_FADER_ID then
    cl.setSideFaderLevel env
      (scaleFader value (if cl.sideFaderMode = FaderMode.Crossfade then 100 else 255))
  else if id = INPUT_STEP_SELECT_FIRST_ID then cl.decoderEvent env (MidiEvent.firstNote value)
  else if id = INPUT_STEP_SELECT_SECOND_ID then cl.decoderEvent env (MidiEvent.secondNote value)
  else (cl, [])

/-- The fade-control mode carried by a command, when the command is a
`ChaserAction`. -/
def Command.fadeMode? : Command → Option FadeControlMode
  | Command.setAction _ a => a.fadeMode
  | _ => none

/-- The action carries the master intensity of the cue list, the primary
step intensity and the fade-control mode of `getFadeMode`. -/
def ChaserAction.Populated (cl : VCCueList) (a : ChaserAction) : Prop :=
  a.masterIntensity = some cl.intensity ∧ a.stepIntensity = some cl.getPrimaryIntensity ∧
    a.fadeMode = some cl.getFadeMode

/-- The `ChaserAction` a command hands to the sequence engine, if it is a
`Chaser::setAction` call. -/
def Command.action? : Command → Option ChaserAction
  | Command.setAction _ a => some a
  | _ => none

/-- The `ChaserAction` values a list of commands sends, in order. -/
def chaserActions (cmds : List Command) : List ChaserAction :=
  cmds.filterMap Command.action?

/-- The step index and the intensity of a `Chaser::adjustStepIntensity` call. -/
def Command.stepIntensity? : Command → Option (Int × ℚ)
  | Command.adjustStepIntensity _ q i _ => some (i, q)
  | _ => none

/-- The step intensities a list of commands assigns, in order: step index and
intensity of each `adjustStepIntensity` call. -/
def stepIntensities (cmds : List Command) : List (Int × ℚ) :=
  cmds.filterMap Command.stepIntensity?

/-- Every `ChaserAction` of `cmds` carries the master intensity, the primary
step intensity and the fade-control mode of `cl`. -/
def AllPopulated (cl : VCCueList) (cmds : List Command) : Prop :=
  ∀ a ∈ chaserActions cmds, a.Populated cl

/-- Every `ChaserAction` of `cmds` carries the master intensity and the primary
step intensity of `cl`; its fade-control mode is `FromFunction` when the
attached sequence is running and that of `getFadeMode` when it is not. -/
def DecoderPopulated (env : Env) (cl : VCCueList) (cmds : List Command) : Prop :=
  ∀ a ∈ chaserActions cmds,
    a.masterIntensity = some cl.intensity ∧ a.stepIntensity = some cl.getPrimaryIntensity ∧
      ∃ ch, cl.chaser env = some ch ∧
        a.fadeMode = some (if ch.running then FadeControlMode.FromFunction else cl.getFadeMode)

/-! ## `VCCueList`: engine notifications and the controller as a whole -/

/-- `VCCueList::jumpToStep`. -/
def VCCueList.jumpToStep (cl : VCCueList) (env : Env) (stepIndex : Int) :
    VCCueList × List Command :=
  match cl.chaser env with
  | none => (cl, [])
  | some ch =>
    if stepIndex < 0 ∨ stepIndex ≥ (ch.stepsCount : Int) then (cl, [])
    else
      (cl.setPlaybackIndex env stepIndex,
       if ch.running then
         [ Command.setAction ch.id
             { action := ChaserActionType.ChaserSetStepIndex
               stepIndex := some stepIndex
               masterIntensity := some cl.intensity
               stepIntensity := some cl.getPrimaryIntensity
               fadeMode := some cl.getFadeMode } ]
       else cl.startChaser env stepIndex)

/-- `VCCueList::playCurrentStep`. -/
def VCCueList.playCurrentStep (cl : VCCueList) (env : Env) : VCCueList × List Command :=
  match cl.chaser env with
  | none => (cl, [])
  | some ch =>
    if ch.running then
      (cl,
       [ Command.setAction ch.id
           { action := ChaserActionType.ChaserSetStepIndex
             stepIndex := some cl.playbackIndex
             masterIntensity := some cl.intensity
             stepIntensity := some cl.getPrimaryIntensity
             fadeMode := some cl.getFadeMode } ])
    else (cl, cl.startChaser env (if cl.playbackIndex = -1 then 0 else cl.playbackIndex))

/-- `VCCueList::slotFunctionRunning`. -/
def VCCueList.slotFunctionRunning (cl : VCCueList) (fid : Nat) : VCCueList × List Command :=
  if fid = cl.chaserID then (cl, [Command.sendFeedback 255 INPUT_PLAY_PAUSE_ID]) else (cl, [])

/-- `VCCueList::slotFunctionStopped`. -/
def VCCueList.slotFunctionStopped (cl : VCCueList) (env : Env) (fid : Nat) :
    VCCueList × List Command :=
  if fid = cl.chaserID then
    (cl.setPlaybackIndex env (-1), [Command.sendFeedback 0 INPUT_PLAY_PAUSE_ID])
  else (cl, [])

/-- `VCCueList::slotCurrentStepChanged`. -/
def VCCueList.slotCurrentStepChanged (cl : VCCueList) (env : Env) (stepNumber : Int) :
    VCCueList :=
  cl.setPlaybackIndex env stepNumber

/-- `VCCueList::setMidiTwoNoteMode`. -/
def VCCueList.setMidiTwoNoteMode (cl : VCCueList) (enabled : Bool) : VCCueList :=
  if cl.midiStepController.twoNoteMode = enabled then cl
  else { cl with midiStepController := cl.midiStepController.setTwoNoteMode enabled }

/-- `VCCueList::setMidiTimeout`. -/
def VCCueList.setMidiTimeout (cl : VCCueList) (env : Env) (timeoutMs : Int) : VCCueList :=
  if cl.midiStepController.timeout = timeoutMs then cl
  else { cl with midiStepController := cl.midiStepController.setTimeout env.now timeoutMs }

/-- `VCCueList::setMidiDebounceInterval`. -/
def VCCueList.setMidiDebounceInterval (cl : VCCueList) (env : Env) (intervalMs : Int) :
    VCCueList :=
  if cl.midiStepController.debounceInterval = intervalMs then cl
  else
    { cl with
      midiStepController := cl.midiStepController.setDebounceInterval env.now intervalMs }

/-- What can happen to a cue list: calls of its methods and slots, and the
events of its decoder (`decoder`: the decoder's entry points and the expiries
of its timers). -/
inductive CueEvent where
  | setChaserID (fid : Nat)
  | functionRemoved (fid : Nat)
  | functionRunning (fid : Nat)
  | functionStopped (fid : Nat)
  | currentStepChanged (stepNumber : Int)
  | setPlaybackIndex (playbackIndex : Int)
  | setNextPrevBehavior (nextPrev : NextPrevBehavior)
  | setPlaybackLayout (layout : PlaybackLayout)
  | setSideFaderMode (mode : FaderMode)
  | setSideFaderLevel (level : Int)
  | inputValueChanged (id value : Nat)
  | playClicked
  | stopClicked
  | previousClicked
  | nextClicked
  | playCurrentStep
  | jumpToStep (stepIndex : Int)
  | setMidiStepSelectionEnabled (enabled : Bool)
  | setMidiTwoNoteMode (enabled : Bool)
  | setMidiTimeout (timeoutMs : Int)
  | setMidiDebounceInterval (intervalMs : Int)
  | decoder (e : MidiEvent)

/-- One event applied to the cue list. -/
def VCCueList.step (cl : VCCueList) (env : Env) : CueEvent → VCCueList × List Command
  | CueEvent.setChaserID fid => cl.setChaserID env fid
  | CueEvent.functionRemoved fid => cl.slotFunctionRemoved fid
  | CueEvent.functionRunning fid => cl.slotFunctionRunning fid
  | CueEvent.functionStopped fid => cl.slotFunctionStopped env fid
  | CueEvent.currentStepChanged stepNumber => (cl.slotCurrentStepChanged env stepNumber, [])
  | CueEvent.setPlaybackIndex playbackIndex => (cl.setPlaybackIndex env playbackIndex, [])
  | CueEvent.setNextPrevBehavior nextPrev => (cl.setNextPrevBehavior nextPrev, [])
  | CueEvent.setPlaybackLayout layout => (cl.setPlaybackLayout layout, [])
  | CueEvent.setSideFaderMode mode => cl.setSideFaderMode env mode
  | CueEvent.setSideFaderLevel level => cl.setSideFaderLevel env level
  | CueEvent.inputValueChanged id value => cl.slotInputValueChanged env id value
  | CueEvent.playClicked => cl.playClicked env
  | CueEvent.stopClicked => cl.stopClicked env
  | CueEvent.previousClicked => cl.previousClicked env
  | CueEvent.nextClicked => cl.nextClicked env
  | CueEvent.playCurrentStep => cl.playCurrentStep env
  | CueEvent.jumpToStep stepIndex => cl.jumpToStep env stepIndex
  | CueEvent.setMidiStepSelectionEnabled enabled => (cl.setMidiStepSelectionEnabled enabled, [])
  | CueEvent.setMidiTwoNoteMode enabled => (cl.setMidiTwoNoteMode enabled, [])
  | CueEvent.setMidiTimeout timeoutMs => (cl.setMidiTimeout env timeoutMs, [])
  | CueEvent.setMidiDebounceInterval intervalMs => (cl.setMidiDebounceInterval env intervalMs, [])
  | CueEvent.decoder e => cl.decoderEvent env e

/-- States of the cue list reachable from the constructor through its events,
under any clock and document. -/
inductive CueReachable : VCCueList → Prop where
  | init (intensity : ℚ) : CueReachable (VCCueList.init intensity)
  | step (cl : VCCueList) (env : Env) (e : CueEvent) :
      CueReachable cl → CueReachable (cl.step env e).1

/-- A run of the cue list: the final state and the times of the events that
changed the playback index. -/
def runCue (cl : VCCueList) : List (Env × CueEvent) → VCCueList × List Int
  | [] => (cl, [])
  | x :: xs =>
    let cl1 := (cl.step x.1 x.2).1
    let rest := runCue cl1 xs
    (rest.1, (if cl1.playbackIndex = cl.playbackIndex then [] else [x.1.now]) ++ rest.2)

/-- The clock readings of a run never go back and are not before `start`. -/
def clockMonotone (start : Int) : List (Env × CueEvent) → Prop
  | [] => True
  | x :: xs => start ≤ x.1.now ∧ clockMonotone x.1.now xs

/-- Successive entries of `times` are at least `gap` apart. -/
def spacedBy (gap : Int) : List Int → Prop
  | [] => True
  | [_] => True
  | a :: b :: rest => a + gap ≤ b ∧ spacedBy gap (b :: rest)

/-- The input value of a decoder event is at most `top`. -/
def MidiEvent.valueAtMost (top : Nat) : MidiEvent → Prop
  | MidiEvent.firstNote velocity => velocity ≤ top
  | MidiEvent.secondNote velocity => velocity ≤ top
  | _ => True

/-- States of the decoder reachable from the constructor through its entry
points and timer expiries when every input value is at most `top`. -/
inductive ReachableAtMost (top : Nat) : MidiStepController → Prop where
  | init : ReachableAtMost top MidiStepController.init
  | step (m : MidiStepController) (env : Env) (cueList : Option VCCueList) (e : MidiEvent) :
      e.valueAtMost top → ReachableAtMost top m →
      ReachableAtMost top (m.handle env cueList e).1

/-- The transient state of the decoder is reset: no buffered first note, no
queued step, both timers stopped. -/
def MidiStepController.isReset (m : MidiStepController) : Prop :=
  m.waitingForSecondNote = false ∧ m.firstNoteValue = -1 ∧ m.hasPendingChange = false ∧
    m.pendingStep = -1 ∧ m.changeTimer.deadline = none ∧ m.twoNoteTimer.deadline = none

/-- The target step computed by `handleSecondNote` (lines 154 and 155) from
the buffered first value and the second value. -/
def twoNoteTarget (firstNoteValue velocity : Int) : Int :=
  if firstNoteValue * 128 + velocity = 0 then -1 else firstNoteValue * 128 + velocity - 1

/-! ## `VCCueList`: progress reporter -/

/-- `VCCueList::ProgressStatus`. -/
inductive ProgressStatus where
  | ProgressIdle
  | ProgressFadeIn
  | ProgressHold
  | ProgressInfinite
  deriving DecidableEq, Repr

/-- A property the progress reporter writes on its QML item. The text is
empty (`none`) or a minus sign followed by the remaining time in milliseconds
as `Function::speedToString` prints it. -/
inductive ItemProperty where
  | progressStatus (status : ProgressStatus)
  | progressValue (value : ℚ)
  | progressText (remaining : Option Int)
  deriving DecidableEq

/-- `VCCueList::slotProgressTimeout`; `hasItem` tells whether the QML item
`m_item` exists. The quotients are `double` divisions of the code, taken as
exact; a zero divisor, for which the code yields NaN or an infinity, is left to
the caller of the theorems. -/
def VCCueList.slotProgressTimeout (cl : VCCueList) (env : Env) (hasItem : Bool) :
    List ItemProperty :=
  match cl.chaser env with
  | none => []
  | some ch =>
    if ch.running = false ∨ hasItem = false then []
    else
      let step := ch.currentRunningStep
      if step.hasFunction then
        let status : ProgressStatus :=
          if step.fadeIn = env.infiniteSpeed then ProgressStatus.ProgressInfinite
          else if step.elapsed ≤ step.fadeIn then ProgressStatus.ProgressFadeIn
          else ProgressStatus.ProgressHold
        ItemProperty.progressStatus status ::
          (if step.duration = env.infiniteSpeed then
            if status = ProgressStatus.ProgressFadeIn ∧ step.fadeIn ≠ env.defaultSpeed then
              [ ItemProperty.progressValue ((step.elapsed : ℚ) / (step.fadeIn : ℚ)),
                ItemProperty.progressText (some ((step.fadeIn : Int) - (step.elapsed : Int))) ]
            else [ItemProperty.progressValue 100, ItemProperty.progressText none]
          else
            [ ItemProperty.progressValue ((step.elapsed : ℚ) / (step.duration : ℚ)),
              ItemProperty.progressText (some ((step.duration : Int) - (step.elapsed : Int))) ])
      else [ItemProperty.progressValue 0]

/-- The progress values a list of property writes publishes. -/
def progressValues (props : List ItemProperty) : List ℚ :=
  props.filterMap (fun p =>
    match p with
    | ItemProperty.progressValue v => some v
    | _ => none)

/-! ## `AutoSaveManager` -/

/-- Member variables of `AutoSaveManager` that its settings use; the timer
`m_autosaveTimer` is its interval in milliseconds and whether it is active. -/
structure AutoSaveManager where
  enabled : Bool
  intervalMinutes : Int
  useBackupFiles : Bool
  maxBackupFiles : Int
  documentModified : Bool
  timerInterval : Int
  timerActive : Bool
  deriving DecidableEq

def DEFAULT_AUTOSAVE_ENABLED : Bool := false

def DEFAULT_AUTOSAVE_INTERVAL : Int := 5

def DEFAULT_AUTOSAVE_USE_BACKUP : Bool := true

def DEFAULT_AUTOSAVE_MAX_BACKUPS : Int := 3

/-- `AutoSaveManager::start`. -/
def AutoSaveManager.start (a : AutoSaveManager) : AutoSaveManager :=
  if a.enabled = true ∧ a.timerActive = false then { a with timerActive := true } else a

/-- `AutoSaveManager::updateTimerInterval`. -/
def AutoSaveManager.updateTimerInterval (a : AutoSaveManager) : AutoSaveManager :=
  let a1 := { a with timerInterval := a.intervalMinutes * 60 * 1000 }
  if a1.enabled = true ∧ a1.timerActive = false then a1.start else a1

/-- The constructor `AutoSaveManager::AutoSaveManager` when no setting is
stored: `loadSettings` then yields the defaults. -/
def AutoSaveManager.init : AutoSaveManager :=
  AutoSaveManager.updateTimerInterval
    { enabled := DEFAULT_AUTOSAVE_ENABLED
      intervalMinutes := DEFAULT_AUTOSAVE_INTERVAL
      useBackupFiles := DEFAULT_AUTOSAVE_USE_BACKUP
      maxBackupFiles := DEFAULT_AUTOSAVE_MAX_BACKUPS
      documentModified := false
      timerInterval := 0
      timerActive := false }

/-- `AutoSaveManager::setIntervalMinutes`. -/
def AutoSaveManager.setIntervalMinutes (a : AutoSaveManager) (minutes : Int) :
    AutoSaveManager :=
  let minutes1 : Int := if minutes < 1 then 1 else minutes
  if a.intervalMinutes ≠ minutes1 then
    AutoSaveManager.updateTimerInterval { a with intervalMinutes := minutes1 }
  else a

/-! ## Concrete inputs used by the witnesses -/

/-- A document holding one idle five-step sequence with identifier 1. -/
def docFive : List DocFunction := [{ id := 1, stepsCount := 5 }]

/-- A document holding one idle sequence of 300 steps with identifier 1. -/
def docLong : List DocFunction := [{ id := 1, stepsCount := 300 }]

/-- A cue list of intensity 1 attached to the sequence with identifier 1. -/
def cueOne : VCCueList := { VCCueList.init 1 with chaserID := 1 }

/-- The decoder right after it was enabled. -/
def midiOn : MidiStepController := { MidiStepController.init with enabled := true }

/-- The decoder enabled in two-note mode. -/
def midiTwo : MidiStepController := { midiOn with twoNoteMode := true }

/-- The decoder one dispatch after being enabled: the last step change was
sent at time 0. -/
def midiDispatched : MidiStepController := { midiOn with lastChangeTime := some 0 }

/-- The document holding the five-step sequence 1 once it is running. -/
def docFiveRunning : List DocFunction := [{ id := 1, stepsCount := 5, running := true }]

/-- A run with debounce 100 ms: velocities 1, 2, 3, 4 at 0, 95, 100 and 102 ms,
then the expiry, at 105 ms, of the delayed-dispatch timer armed at 95 ms. -/
def staleTimerRun : List Occurrence :=
  [ { env := { now := 0, doc := docFive }, cueList := some cueOne,
      event := MidiEvent.firstNote 1 },
    { env := { now := 95, doc := docFiveRunning }, cueList := some cueOne,
      event := MidiEvent.firstNote 2 },
    { env := { now := 100, doc := docFiveRunning }, cueList := some cueOne,
      event := MidiEvent.firstNote 3 },
    { env := { now := 102, doc := docFiveRunning }, cueList := some cueOne,
      event := MidiEvent.firstNote 4 },
    { env := { now := 105, doc := docFiveRunning }, cueList := some cueOne,
      event := MidiEvent.changeTimerTimeout } ]

/-- The cue list after attaching sequence 1 and selecting the `RunNext`
policy; nothing has been played yet. -/
def cueRunNext : VCCueList :=
  (((VCCueList.init 1).setChaserID { now := 0, doc := docFive } 1).1).setNextPrevBehavior
    NextPrevBehavior.RunNext

/-- The `RunNext` cue list with the last step of the sequence selected. -/
def cueAtLast : VCCueList := { cueRunNext with playbackIndex := 4 }

/-- The two-note decoder with the first value 2 buffered at time 0. -/
def midiWaiting : MidiStepController :=
  (handleFirstNote { now := 0, doc := docLong } (some cueOne) midiTwo 2).1

/-- A run that leaves the decoder with a queued step, a buffered first note
and both timers armed. -/
def busyRun : List Occurrence :=
  [ { env := { now := 0, doc := docFive }, cueList := some cueOne,
      event := MidiEvent.setEnabled true },
    { env := { now := 0, doc := docFive }, cueList := some cueOne,
      event := MidiEvent.firstNote 1 },
    { env := { now := 10, doc := docFiveRunning }, cueList := some cueOne,
      event := MidiEvent.firstNote 2 },
    { env := { now := 20, doc := docFiveRunning }, cueList := some cueOne,
      event := MidiEvent.setTwoNoteMode true },
    { env := { now := 30, doc := docFiveRunning }, cueList := some cueOne,
      event := MidiEvent.firstNote 5 } ]

/-- The decoder state at the end of `busyRun`. -/
def midiBusy : MidiStepController := (runDecoder MidiStepController.init busyRun).1

/-- Timer expiries and notes after the decoder was disabled, then the decoder
is enabled again and the timers and a second note follow. -/
def quietRun : List Occurrence :=
  [ { env := { now := 110, doc := docFiveRunning }, cueList := some cueOne,
      event := MidiEvent.changeTimerTimeout },
    { env := { now := 530, doc := docFiveRunning }, cueList := some cueOne,
      event := MidiEvent.twoNoteTimerTimeout },
    { env := { now := 540, doc := docFiveRunning }, cueList := some cueOne,
      event := MidiEvent.secondNote 3 },
    { env := { now := 550, doc := docFiveRunning }, cueList := some cueOne,
      event := MidiEvent.firstNote 4 },
    { env := { now := 600, doc := docFiveRunning }, cueList := some cueOne,
      event := MidiEvent.setEnabled true },
    { env := { now := 700, doc := docFiveRunning }, cueList := some cueOne,
      event := MidiEvent.changeTimerTimeout },
    { env := { now := 800, doc := docFiveRunning }, cueList := some cueOne,
      event := MidiEvent.twoNoteTimerTimeout },
    { env := { now := 900, doc := docFiveRunning }, cueList := some cueOne,
      event := MidiEvent.secondNote 7 } ]

/-- Two sequences: 1 with five steps and 2 with eight, both idle. -/
def docTwo : List DocFunction := [{ id := 1, stepsCount := 5 }, { id := 2, stepsCount := 8 }]

/-- The document `docTwo` while sequence 1 is running. -/
def docTwoFirst : List DocFunction :=
  [{ id := 1, stepsCount := 5, running := true }, { id := 2, stepsCount := 8 }]

/-- The document `docTwo` while sequence 2 is running. -/
def docTwoSecond : List DocFunction :=
  [{ id := 1, stepsCount := 5 }, { id := 2, stepsCount := 8, running := true }]

/-- A cue list attached to sequence 1 whose enabled decoder dispatched
velocity 3 at time 0 and queued velocity 4 at 50 ms. -/
def cueQueued : VCCueList :=
  (((((VCCueList.init 1).setChaserID { now := 0, doc := docTwo } 1).1.setMidiStepSelectionEnabled
    true).decoderEvent { now := 0, doc := docTwo } (MidiEvent.firstNote 3)).1.decoderEvent
    { now := 50, doc := docTwoFirst } (MidiEvent.firstNote 4)).1

/-- The cue list `cueQueued` after sequence 2 was attached in place of
sequence 1 at 60 ms. -/
def cueSwapped : VCCueList := (cueQueued.setChaserID { now := 60, doc := docTwoFirst } 2).1

/-- The cue list `cueQueued` after its sequence was removed from the document
at 60 ms. -/
def cueRemoved : VCCueList := (cueQueued.slotFunctionRemoved 1).1

/-- A document holding one idle four-step sequence with identifier 1. -/
def docFour : List DocFunction := [{ id := 1, stepsCount := 4 }]

/-- The four-step sequence 1 while it plays its first step and a second step
is still running beside it. -/
def fourRunning : DocFunction :=
  { id := 1, stepsCount := 4, running := true, stopped := false, currentStepIndex := 0,
    runningStepsNumber := 2 }

/-- A document holding the running four-step sequence. -/
def docFourRunning : List DocFunction := [fourRunning]

/-- The clock at 0 with the idle four-step sequence. -/
def envFour : Env := { now := 0, doc := docFour }

/-- The clock at 0 with the running four-step sequence; the engine names the
following step as the next one. -/
def envFourRunning : Env :=
  { now := 0, doc := docFourRunning, computeNextStep := fun _ i => i + 1 }

/-- The cue list `cueOne` after the Steps mode was selected while its sequence
was idle: the fader is at 255. -/
def cueSteps : VCCueList := (cueOne.setSideFaderMode envFour FaderMode.Steps).1

/-- The cue list `cueSteps` after the fader mode was switched off again. -/
def cueStepsOff : VCCueList := (cueSteps.setSideFaderMode envFour FaderMode.None).1

/-- The cue list `cueOne`, fader mode `None`, following the running sequence at
step 0 with step 1 next. -/
def cuePlaying : VCCueList := cueOne.setPlaybackIndex envFourRunning 0

/-- The cue list `cuePlaying` after the Crossfade mode was selected: the fader
stays at 100. -/
def cueCrossfade : VCCueList := (cuePlaying.setSideFaderMode envFour FaderMode.Crossfade).1

/-- The cue list `cueOne` with its MIDI decoder enabled. -/
def cueMidi : VCCueList := cueOne.setMidiStepSelectionEnabled true

/-- The five-step sequence 1, idle, playing forward. -/
def fiveIdle : DocFunction := { id := 1, stepsCount := 5 }

/-- The five-step sequence 1, idle, playing backward. -/
def fiveBackward : DocFunction := { id := 1, stepsCount := 5, direction := Direction.Backward }

/-- The five-step sequence 1, running. -/
def fiveRunning : DocFunction := { id := 1, stepsCount := 5, running := true }

/-- The five-step sequence 1, running and paused. -/
def fivePaused : DocFunction := { id := 1, stepsCount := 5, running := true, paused := true }

/-- The clock at `now` with the single function `f` in the document, the
throttle of the playback index at 50 ms, and an engine that names the
following step as the next one. -/
def envOf (now : Int) (f : DocFunction) : Env :=
  { now := now, doc := [f], minChangeIntervalMs := 50, computeNextStep := fun _ i => i + 1 }

/-- The cue list `cuePlaying` after its sequence was removed from the
document. -/
def cueDetached : VCCueList := (cuePlaying.slotFunctionRemoved 1).1

/-- The decoder enabled in two-note mode with the first value 200 buffered. -/
def midiWide : MidiStepController :=
  (midiTwo.handle { now := 0, doc := docFive } (some cueOne) (MidiEvent.firstNote 200)).1

/-- The decoder after the first three events of `busyRun`: single-note mode,
step 1 is queued behind the delayed-dispatch timer armed for 100 ms. -/
def midiQueued : MidiStepController := (runDecoder MidiStepController.init (busyRun.take 3)).1

/-- A cue list of intensity 1 with no sequence attached whose decoder is
enabled in two-note mode. -/
def cueAlone : VCCueList :=
  ((VCCueList.init 1).setMidiStepSelectionEnabled true).setMidiTwoNoteMode true

/-- The running four-step sequence 1 holding a step of infinite duration
whose fade-in of 1000 ms is over: 2000 ms have elapsed. -/
def fourHolding : DocFunction :=
  { fourRunning with
    currentRunningStep :=
      { hasFunction := true, fadeIn := 1000, elapsed := 2000, duration := 4294967294 } }

/-- The running four-step sequence 1 half way through a step of 2000 ms. -/
def fourHalfway : DocFunction :=
  { fourRunning with
    currentRunningStep :=
      { hasFunction := true, fadeIn := 500, elapsed := 1000, duration := 2000 } }

/-- The decoder enabled in two-note mode with the first value 1 buffered. -/
def midiFirstOne : MidiStepController :=
  (midiTwo.handle { now := 0, doc := docLong } (some cueOne) (MidiEvent.firstNote 1)).1

/-- The decoder enabled in two-note mode with the first value 0 buffered. -/
def midiFirstZero : MidiStepController :=
  (midiTwo.handle { now := 0, doc := docLong } (some cueOne) (MidiEvent.firstNote 0)).1

/-! ## Unfolding lemmas for the rate limiter -/

theorem isValidStep_iff (cl : VCCueList) (env : Env) (i : Int) :
    isValidStep (some cl) env i = true ↔
      ∃ ch, cl.chaser env = some ch ∧ 0 ≤ i ∧ i < (ch.stepsCount : Int) := by
  by_cases h : i < 0
  · simp only [isValidStep, getChaser, h, if_true]
    constructor
    · intro hf
      cases hf
    · rintro ⟨ch, _, h0, _⟩
      omega
  · cases hc : cl.chaser env with
    | none => simp [isValidStep, getChaser, h, hc]
    | some ch =>
      simp only [isValidStep, getChaser, h, hc, if_false, decide_eq_true_eq]
      constructor
      · intro hlt
        exact ⟨ch, rfl, by omega, hlt⟩
      · rintro ⟨ch2, he, _, hlt⟩
        cases he
        exact hlt

theorem executeStepChange_skip (env : Env) (cl : VCCueList) (m : MidiStepController)
    (h : m.enabled = false ∨ m.hasPendingChange = false) :
    executeStepChange env (some cl) m = (m, []) := by
  simp [executeStepChange, h]

theorem executeStepChange_invalid (env : Env) (cl : VCCueList) (m : MidiStepController)
    (h1 : m.enabled = true) (h2 : m.hasPendingChange = true)
    (h3 : isValidStep (some cl) env m.pendingStep = false) :
    executeStepChange env (some cl) m =
      ({ m with hasPendingChange := false, pendingStep := -1 }, []) := by
  simp [executeStepChange, h1, h2, h3]

theorem executeStepChange_dispatch (env : Env) (cl : VCCueList) (m : MidiStepController)
    (ch : DocFunction) (h1 : m.enabled = true) (h2 : m.hasPendingChange = true)
    (h3 : isValidStep (some cl) env m.pendingStep = true) (h4 : cl.chaser env = some ch) :
    executeStepChange env (some cl) m =
      ({ m with hasPendingChange := false, pendingStep := -1, lastChangeTime := some env.now },
       if ch.running then
         [ Command.setAction ch.id
             { action := ChaserActionType.ChaserSetStepIndex
               stepIndex := some m.pendingStep
               masterIntensity := some cl.intensity
               stepIntensity := some cl.getPrimaryIntensity
               fadeMode := some FadeControlMode.FromFunction } ]
       else cl.startChaser env m.pendingStep) := by
  have h5 : getChaser (some cl) env = some ch := h4
  simp [executeStepChange, h1, h2, h3, h5]

theorem stepIndices_startChaser (env : Env) (cl : VCCueList) (ch : DocFunction) (i : Int)
    (h : cl.chaser env = some ch) : stepIndices (cl.startChaser env i) = [i] := by
  simp [VCCueList.startChaser, h, stepIndices, Command.stepIndex?]

theorem executeStepChange_stepIndices (env : Env) (cl : VCCueList) (m : MidiStepController)
    (ch : DocFunction) (h1 : m.enabled = true) (h2 : m.hasPendingChange = true)
    (h3 : isValidStep (some cl) env m.pendingStep = true) (h4 : cl.chaser env = some ch) :
    stepIndices (executeStepChange env (some cl) m).2 = [m.pendingStep] ∧
    (executeStepChange env (some cl) m).1 =
      { m with hasPendingChange := false, pendingStep := -1, lastChangeTime := some env.now } := by
  rw [executeStepChange_dispatch env cl m ch h1 h2 h3 h4]
  refine ⟨?_, rfl⟩
  by_cases hr : ch.running = true
  · simp [hr, stepIndices, Command.stepIndex?]
  · simp only [hr]
    exact stepIndices_startChaser env cl ch _ h4

theorem queueStepChange_drop (env : Env) (cueList : Option VCCueList) (m : MidiStepController)
    (i : Int) (h : m.enabled = false ∨ isValidStep cueList env i = false) :
    queueStepChange env cueList m i = (m, []) := by
  cases cueList with
  | none => rfl
  | some cl =>
    rcases h with h | h
    · simp [queueStepChange, h]
    · simp [queueStepChange, h]

theorem queueStepChange_limited (env : Env) (cl : VCCueList) (m : MidiStepController)
    (i t : Int) (h1 : m.enabled = true) (h2 : isValidStep (some cl) env i = true)
    (h3 : m.lastChangeTime = some t) (h4 : env.now - t < m.debounceInterval) :
    queueStepChange env (some cl) m i =
      ({ m with
         pendingStep := i
         hasPendingChange := true
         changeTimer :=
           if m.changeTimer.isActive = false then
             m.changeTimer.start env.now (max 10 (m.debounceInterval - (env.now - t)))
           else m.changeTimer },
       []) := by
  by_cases h5 : m.changeTimer.isActive = false
  · simp [queueStepChange, h1, h2, h3, h4, h5]
  · simp [queueStepChange, h1, h2, h3, h4, h5]

theorem queueStepChange_immediate (env : Env) (cl : VCCueList) (m : MidiStepController)
    (i : Int) (h1 : m.enabled = true) (h2 : isValidStep (some cl) env i = true)
    (h3 : rateLimited env m = false) :
    queueStepChange env (some cl) m i =
      executeStepChange env (some cl) { m with pendingStep := i, hasPendingChange := true } := by
  cases h : m.lastChangeTime with
  | none => simp [queueStepChange, h1, h2, h]
  | some t =>
    have h4 : ¬ (env.now - t < m.debounceInterval) := by
      simpa [rateLimited, h] using h3
    simp [queueStepChange, h1, h2, h, h4]

theorem rateLimited_iff (env : Env) (m : MidiStepController) :
    rateLimited env m = true ↔
      ∃ t, m.lastChangeTime = some t ∧ env.now - t < m.debounceInterval := by
  cases h : m.lastChangeTime with
  | none => simp [rateLimited, h]
  | some t => simp [rateLimited, h]

theorem queueStepChange_immediate_result (env : Env) (cl : VCCueList)
    (m : MidiStepController) (i : Int) (h1 : m.enabled = true)
    (h2 : isValidStep (some cl) env i = true) (h3 : rateLimited env m = false) :
    stepIndices (queueStepChange env (some cl) m i).2 = [i] ∧
    (queueStepChange env (some cl) m i).1 =
      { m with hasPendingChange := false, pendingStep := -1, lastChangeTime := some env.now } := by
  obtain ⟨ch, hch, _, _⟩ := (isValidStep_iff cl env i).1 h2
  rw [queueStepChange_immediate env cl m i h1 h2 h3]
  exact executeStepChange_stepIndices env cl
    { m with pendingStep := i, hasPendingChange := true } ch h1 rfl h2 hch

theorem executeStepChange_frame (env : Env) (cueList : Option VCCueList)
    (m : MidiStepController) :
    (executeStepChange env cueList m).1.enabled = m.enabled ∧
    (executeStepChange env cueList m).1.twoNoteMode = m.twoNoteMode ∧
    (executeStepChange env cueList m).1.timeout = m.timeout ∧
    (executeStepChange env cueList m).1.debounceInterval = m.debounceInterval ∧
    (executeStepChange env cueList m).1.twoNoteTimer = m.twoNoteTimer ∧
    (executeStepChange env cueList m).1.firstNoteValue = m.firstNoteValue ∧
    (executeStepChange env cueList m).1.waitingForSecondNote = m.waitingForSecondNote ∧
    (executeStepChange env cueList m).1.changeTimer = m.changeTimer := by
  cases cueList with
  | none => exact ⟨rfl, rfl, rfl, rfl, rfl, rfl, rfl, rfl⟩
  | some cl =>
    cases h1 : m.enabled with
    | false =>
      rw [executeStepChange_skip env cl m (Or.inl h1), h1]
      exact ⟨rfl, rfl, rfl, rfl, rfl, rfl, rfl, rfl⟩
    | true =>
      cases h2 : m.hasPendingChange with
      | false =>
        rw [executeStepChange_skip env cl m (Or.inr h2), h1]
        exact ⟨rfl, rfl, rfl, rfl, rfl, rfl, rfl, rfl⟩
      | true =>
        cases h3 : isValidStep (some cl) env m.pendingStep with
        | false =>
          rw [executeStepChange_invalid env cl m h1 h2 h3]
          exact ⟨h1, rfl, rfl, rfl, rfl, rfl, rfl, rfl⟩
        | true =>
          obtain ⟨ch, hch, _, _⟩ := (isValidStep_iff cl env _).1 h3
          rw [executeStepChange_dispatch env cl m ch h1 h2 h3 hch]
          exact ⟨h1, rfl, rfl, rfl, rfl, rfl, rfl, rfl⟩

theorem queueStepChange_frame (env : Env) (cueList : Option VCCueList)
    (m : MidiStepController) (stepIndex : Int) :
    (queueStepChange env cueList m stepIndex).1.enabled = m.enabled ∧
    (queueStepChange env cueList m stepIndex).1.twoNoteMode = m.twoNoteMode ∧
    (queueStepChange env cueList m stepIndex).1.timeout = m.timeout ∧
    (queueStepChange env cueList m stepIndex).1.debounceInterval = m.debounceInterval ∧
    (queueStepChange env cueList m stepIndex).1.twoNoteTimer = m.twoNoteTimer ∧
    (queueStepChange env cueList m stepIndex).1.firstNoteValue = m.firstNoteValue ∧
    (queueStepChange env cueList m stepIndex).1.waitingForSecondNote = m.waitingForSecondNote := by
  cases cueList with
  | none => exact ⟨rfl, rfl, rfl, rfl, rfl, rfl, rfl⟩
  | some cl =>
    cases h1 : m.enabled with
    | false =>
      rw [queueStepChange_drop env (some cl) m stepIndex (Or.inl h1), h1]
      exact ⟨rfl, rfl, rfl, rfl, rfl, rfl, rfl⟩
    | true =>
      cases h2 : isValidStep (some cl) env stepIndex with
      | false =>
        rw [queueStepChange_drop env (some cl) m stepIndex (Or.inr h2), h1]
        exact ⟨rfl, rfl, rfl, rfl, rfl, rfl, rfl⟩
      | true =>
        cases h3 : rateLimited env m with
        | false =>
          rw [queueStepChange_immediate env cl m stepIndex h1 h2 h3]
          obtain ⟨a, b, c, d, e, f, g, _⟩ := executeStepChange_frame env (some cl)
            { m with pendingStep := stepIndex, hasPendingChange := true }
          exact ⟨a.trans h1, b, c, d, e, f, g⟩
        | true =>
          obtain ⟨t, ht, hlt⟩ := (rateLimited_iff env m).1 h3
          rw [queueStepChange_limited env cl m stepIndex t h1 h2 ht hlt]
          exact ⟨h1, rfl, rfl, rfl, rfl, rfl, rfl⟩

/-! ## The rate limiter on bursts, index ranges, idle states -/

theorem handle_changeTimerTimeout_due (env : Env) (cueList : Option VCCueList)
    (m : MidiStepController) (d : Int) (hd : m.changeTimer.deadline = some d)
    (hle : d ≤ env.now) :
    m.handle env cueList MidiEvent.changeTimerTimeout =
      executeStepChange env cueList { m with changeTimer := m.changeTimer.stop } := by
  simp [MidiStepController.handle, hd, hle]

theorem forwardsInRange_nil (env : Env) (cl : VCCueList) : ForwardsInRange env cl [] := by
  intro c hc
  cases hc

theorem forwardsInRange_startChaser (env : Env) (cl : VCCueList) (ch : DocFunction) (i : Int)
    (hch : cl.chaser env = some ch) (h0 : 0 ≤ i) (h1 : i < (ch.stepsCount : Int)) :
    ForwardsInRange env cl (cl.startChaser env i) := by
  intro c hc j hj
  simp only [VCCueList.startChaser, hch, List.mem_cons, List.mem_singleton,
    List.not_mem_nil, or_false] at hc
  rcases hc with rfl | rfl | rfl
  · simp [Command.stepIndex?] at hj
  · simp only [Command.stepIndex?, if_true, Option.some.injEq] at hj
    subst hj
    exact ⟨ch, _, hch, rfl, h0, h1⟩
  · simp [Command.stepIndex?] at hj

theorem executeStepChange_inRange (env : Env) (cl : VCCueList) (m : MidiStepController) :
    ForwardsInRange env cl (executeStepChange env (some cl) m).2 := by
  cases h1 : m.enabled with
  | false =>
    rw [executeStepChange_skip env cl m (Or.inl h1)]
    exact forwardsInRange_nil env cl
  | true =>
    cases h2 : m.hasPendingChange with
    | false =>
      rw [executeStepChange_skip env cl m (Or.inr h2)]
      exact forwardsInRange_nil env cl
    | true =>
      cases h3 : isValidStep (some cl) env m.pendingStep with
      | false =>
        rw [executeStepChange_invalid env cl m h1 h2 h3]
        exact forwardsInRange_nil env cl
      | true =>
        obtain ⟨ch, hch, h0, hlt⟩ := (isValidStep_iff cl env _).1 h3
        rw [executeStepChange_dispatch env cl m ch h1 h2 h3 hch]
        cases hr : ch.running with
        | false =>
          simp only [Bool.false_eq_true, if_false]
          exact forwardsInRange_startChaser env cl ch _ hch h0 hlt
        | true =>
          simp only [if_true]
          intro c hc j hj
          simp only [List.mem_singleton] at hc
          subst hc
          simp only [Command.stepIndex?, if_true, Option.some.injEq] at hj
          subst hj
          exact ⟨ch, _, hch, rfl, h0, hlt⟩

theorem queueStepChange_inRange (env : Env) (cl : VCCueList) (m : MidiStepController)
    (i : Int) : ForwardsInRange env cl (queueStepChange env (some cl) m i).2 := by
  cases h1 : m.enabled with
  | false =>
    rw [queueStepChange_drop env (some cl) m i (Or.inl h1)]
    exact forwardsInRange_nil env cl
  | true =>
    cases h2 : isValidStep (some cl) env i with
    | false =>
      rw [queueStepChange_drop env (some cl) m i (Or.inr h2)]
      exact forwardsInRange_nil env cl
    | true =>
      cases h3 : rateLimited env m with
      | false =>
        rw [queueStepChange_immediate env cl m i h1 h2 h3]
        exact executeStepChange_inRange env cl _
      | true =>
        obtain ⟨t, ht, hlt⟩ := (rateLimited_iff env m).1 h3
        rw [queueStepChange_limited env cl m i t h1 h2 ht hlt]
        exact forwardsInRange_nil env cl

theorem handleFirstNote_cases (env : Env) (cueList : Option VCCueList)
    (m : MidiStepController) (v : Nat) :
    (handleFirstNote env cueList m v).2 = [] ∨
      ∃ i, handleFirstNote env cueList m v = queueStepChange env cueList m i := by
  cases cueList with
  | none => exact Or.inl rfl
  | some cl =>
    by_cases h1 : m.enabled = false
    · left; simp [handleFirstNote, h1]
    · by_cases h2 : m.twoNoteMode = true
      · left; simp [handleFirstNote, h1, h2]
      · by_cases h3 : v = 0
        · left; simp [handleFirstNote, h1, h2, h3]
        · right
          exact ⟨(v : Int) - 1, by simp [handleFirstNote, h1, h2, h3]⟩

theorem handleSecondNote_cases (env : Env) (cueList : Option VCCueList)
    (m : MidiStepController) (v : Nat) :
    (handleSecondNote env cueList m v).2 = [] ∨
      ∃ i, handleSecondNote env cueList m v =
        queueStepChange env cueList
          { m with
            twoNoteTimer := m.twoNoteTimer.stop
            waitingForSecondNote := false
            firstNoteValue := -1 } i := by
  cases cueList with
  | none => exact Or.inl rfl
  | some cl =>
    by_cases h1 : m.enabled = false ∨ m.twoNoteMode = false ∨ m.waitingForSecondNote = false
    · left; simp [handleSecondNote, h1]
    · by_cases h2 : (if m.firstNoteValue * 128 + (v : Int) = 0 then (-1 : Int)
          else m.firstNoteValue * 128 + (v : Int) - 1) < 0
      · left; simp only [handleSecondNote, h1, h2, if_true, if_false]
      · right
        exact ⟨(if m.firstNoteValue * 128 + (v : Int) = 0 then (-1 : Int)
          else m.firstNoteValue * 128 + (v : Int) - 1),
          by simp only [handleSecondNote, h1, h2, if_false]⟩

theorem handleTwoNoteTimeout_cases (env : Env) (cueList : Option VCCueList)
    (m : MidiStepController) :
    (handleTwoNoteTimeout env cueList m).2 = [] ∨
      ∃ i, handleTwoNoteTimeout env cueList m =
        queueStepChange env cueList
          { m with waitingForSecondNote := false, firstNoteValue := -1 } i := by
  by_cases h1 : m.waitingForSecondNote = false
  · left; simp [handleTwoNoteTimeout, h1]
  · by_cases h2 : m.firstNoteValue = 0
    · left; simp [handleTwoNoteTimeout, h1, h2]
    · right
      exact ⟨m.firstNoteValue - 1, by simp [handleTwoNoteTimeout, h1, h2]⟩

theorem handle_inRange (env : Env) (cl : VCCueList) (m : MidiStepController) (e : MidiEvent) :
    ForwardsInRange env cl (m.handle env (some cl) e).2 := by
  cases e with
  | setEnabled b => exact forwardsInRange_nil env cl
  | setTwoNoteMode b => exact forwardsInRange_nil env cl
  | setTimeout t => exact forwardsInRange_nil env cl
  | setDebounceInterval i => exact forwardsInRange_nil env cl
  | firstNote v =>
    rcases handleFirstNote_cases env (some cl) m v with h | ⟨i, h⟩
    · simp only [MidiStepController.handle, h]
      exact forwardsInRange_nil env cl
    · simp only [MidiStepController.handle, h]
      exact queueStepChange_inRange env cl _ i
  | secondNote v =>
    rcases handleSecondNote_cases env (some cl) m v with h | ⟨i, h⟩
    · simp only [MidiStepController.handle, h]
      exact forwardsInRange_nil env cl
    · simp only [MidiStepController.handle, h]
      exact queueStepChange_inRange env cl _ i
  | changeTimerTimeout =>
    cases hd : m.changeTimer.deadline with
    | none =>
      simp only [MidiStepController.handle, hd]
      exact forwardsInRange_nil env cl
    | some d =>
      by_cases hle : d ≤ env.now
      · rw [handle_changeTimerTimeout_due env (some cl) m d hd hle]
        exact executeStepChange_inRange env cl _
      · simp only [MidiStepController.handle, hd, hle, if_false]
        exact forwardsInRange_nil env cl
  | twoNoteTimerTimeout =>
    cases hd : m.twoNoteTimer.deadline with
    | none =>
      simp only [MidiStepController.handle, hd]
      exact forwardsInRange_nil env cl
    | some d =>
      by_cases hle : d ≤ env.now
      · simp only [MidiStepController.handle, hd, hle, if_true]
        rcases handleTwoNoteTimeout_cases env (some cl)
          { m with twoNoteTimer := m.twoNoteTimer.stop } with h | ⟨i, h⟩
        · rw [h]
          exact forwardsInRange_nil env cl
        · rw [h]
          exact queueStepChange_inRange env cl _ i
      · simp only [MidiStepController.handle, hd, hle, if_false]
        exact forwardsInRange_nil env cl

theorem forwardsInRange_setStep (env : Env) (cl : VCCueList) (ch : DocFunction)
    (a : ChaserAction) (rest : List Command) (i : Int)
    (hch : cl.chaser env = some ch) (hi : a.stepIndex = some i)
    (h0 : 0 ≤ i) (h1 : i < (ch.stepsCount : Int))
    (hrest : ∀ c ∈ rest, c.stepIndex? = none) :
    ForwardsInRange env cl (Command.setAction ch.id a :: rest) := by
  intro c hc j hj
  rcases List.mem_cons.1 hc with rfl | hc
  · refine ⟨ch, a, hch, rfl, ?_⟩
    by_cases ha : a.action = ChaserActionType.ChaserSetStepIndex
    · simp only [Command.stepIndex?, ha, if_true] at hj
      rw [hi] at hj
      cases hj
      exact ⟨h0, h1⟩
    · simp only [Command.stepIndex?, ha, if_false] at hj
      cases hj
  · rw [hrest c hc] at hj
    cases hj

theorem forwardsInRange_none (env : Env) (cl : VCCueList) (cmds : List Command)
    (h : ∀ c ∈ cmds, c.stepIndex? = none) : ForwardsInRange env cl cmds := by
  intro c hc j hj
  rw [h c hc] at hj
  cases hj

theorem stopChaser_noIndex (env : Env) (cl : VCCueList) :
    ∀ c ∈ cl.stopChaser env, c.stepIndex? = none := by
  intro c hc
  unfold VCCueList.stopChaser at hc
  cases h : cl.chaser env with
  | none => simp [h] at hc
  | some ch =>
    simp only [h, List.mem_cons, List.mem_singleton, List.not_mem_nil, or_false] at hc
    rcases hc with rfl | rfl <;> rfl

theorem nextIndex_inRange (env : Env) (cl : VCCueList) (ch : DocFunction)
    (hch : cl.chaser env = some ch)
    (hp : 0 ≤ cl.playbackIndex ∧ cl.playbackIndex < (ch.stepsCount : Int)) :
    (0 ≤ cl.getNextIndex env ∧ cl.getNextIndex env < (ch.stepsCount : Int)) ∧
    (0 ≤ cl.getPrevIndex env ∧ cl.getPrevIndex env < (ch.stepsCount : Int)) := by
  unfold VCCueList.getNextIndex VCCueList.getPrevIndex
  rw [hch]
  simp only
  constructor <;> split <;> split <;> omega

theorem firstIndex_inRange (env : Env) (cl : VCCueList) (ch : DocFunction)
    (hch : cl.chaser env = some ch) (hn : 1 ≤ ch.stepsCount) :
    (0 ≤ cl.getFirstIndex env ∧ cl.getFirstIndex env < (ch.stepsCount : Int)) ∧
    (0 ≤ cl.getLastIndex env ∧ cl.getLastIndex env < (ch.stepsCount : Int)) := by
  unfold VCCueList.getFirstIndex VCCueList.getLastIndex
  rw [hch]
  simp only
  constructor <;> split <;> omega

theorem relative_noIndex (fid : Nat) (a : ChaserAction)
    (ha : a.action ≠ ChaserActionType.ChaserSetStepIndex) :
    ∀ c ∈ [Command.setAction fid a], c.stepIndex? = none := by
  intro c hc
  rw [List.mem_singleton.1 hc]
  simp [Command.stepIndex?, ha]

theorem nextClicked_inRange (env : Env) (cl : VCCueList) (ch : DocFunction)
    (hch : cl.chaser env = some ch) (hn : 1 ≤ ch.stepsCount)
    (hp : (0 ≤ cl.playbackIndex ∧ cl.playbackIndex < (ch.stepsCount : Int)) ∨
      (cl.playbackIndex = -1 ∧ ch.running = false ∧
        cl.nextPrevBehavior ≠ NextPrevBehavior.RunNext)) :
    ForwardsInRange env cl (cl.nextClicked env).2 := by
  unfold VCCueList.nextClicked
  rw [hch]
  dsimp only
  cases hr : ch.running with
  | true =>
    cases hpa : ch.paused with
    | true => exact forwardsInRange_nil env cl
    | false => exact forwardsInRange_none env cl _ (relative_noIndex _ _ (by simp))
  | false =>
    simp only [Bool.false_eq_true, if_false]
    cases hb : cl.nextPrevBehavior with
    | DefaultRunFirst =>
      obtain ⟨⟨a, b⟩, _⟩ := firstIndex_inRange env cl ch hch hn
      exact forwardsInRange_startChaser env cl ch _ hch a b
    | RunNext =>
      rcases hp with hp | ⟨_, _, hne⟩
      · obtain ⟨⟨a, b⟩, _⟩ := nextIndex_inRange env cl ch hch hp
        exact forwardsInRange_startChaser env cl ch _ hch a b
      · exact absurd hb hne
    | Select => exact forwardsInRange_nil env cl
    | Nothing => exact forwardsInRange_nil env cl

theorem previousClicked_inRange (env : Env) (cl : VCCueList) (ch : DocFunction)
    (hch : cl.chaser env = some ch) (hn : 1 ≤ ch.stepsCount)
    (hp : (0 ≤ cl.playbackIndex ∧ cl.playbackIndex < (ch.stepsCount : Int)) ∨
      (cl.playbackIndex = -1 ∧ ch.running = false ∧
        cl.nextPrevBehavior ≠ NextPrevBehavior.RunNext)) :
    ForwardsInRange env cl (cl.previousClicked env).2 := by
  unfold VCCueList.previousClicked
  rw [hch]
  dsimp only
  cases hr : ch.running with
  | true =>
    cases hpa : ch.paused with
    | true => exact forwardsInRange_nil env cl
    | false => exact forwardsInRange_none env cl _ (relative_noIndex _ _ (by simp))
  | false =>
    simp only [Bool.false_eq_true, if_false]
    cases hb : cl.nextPrevBehavior with
    | DefaultRunFirst =>
      obtain ⟨_, ⟨a, b⟩⟩ := firstIndex_inRange env cl ch hch hn
      exact forwardsInRange_startChaser env cl ch _ hch a b
    | RunNext =>
      rcases hp with hp | ⟨_, _, hne⟩
      · obtain ⟨_, ⟨a, b⟩⟩ := nextIndex_inRange env cl ch hch hp
        exact forwardsInRange_startChaser env cl ch _ hch a b
      · exact absurd hb hne
    | Select => exact forwardsInRange_nil env cl
    | Nothing => exact forwardsInRange_nil env cl

theorem playClicked_inRange (env : Env) (cl : VCCueList) (ch : DocFunction)
    (hch : cl.chaser env = some ch) (hn : 1 ≤ ch.stepsCount)
    (hp : (0 ≤ cl.playbackIndex ∧ cl.playbackIndex < (ch.stepsCount : Int)) ∨
      (cl.playbackIndex = -1 ∧ ch.running = false ∧
        cl.nextPrevBehavior ≠ NextPrevBehavior.RunNext)) :
    ForwardsInRange env cl (cl.playClicked env).2 := by
  unfold VCCueList.playClicked
  rw [hch]
  dsimp only
  cases hr : ch.running with
  | true =>
    simp only [if_true]
    cases hl : cl.playbackLayout with
    | PlayPauseStop =>
      rcases hp with hp | ⟨_, hf, _⟩
      · refine forwardsInRange_setStep env cl ch _ _ cl.playbackIndex hch rfl hp.1 hp.2 ?_
        intro c hc
        rw [List.mem_singleton.1 hc]
        rfl
      · rw [hr] at hf
        cases hf
    | PlayStopPause => exact forwardsInRange_none env cl _ (stopChaser_noIndex env cl)
  | false =>
    simp only [Bool.false_eq_true, if_false]
    have hidx : 0 ≤ (if cl.playbackIndex = -1 then 0 else cl.playbackIndex) ∧
        (if cl.playbackIndex = -1 then 0 else cl.playbackIndex) < (ch.stepsCount : Int) := by
      split <;> omega
    exact forwardsInRange_startChaser env cl ch _ hch hidx.1 hidx.2

theorem stopClicked_inRange (env : Env) (cl : VCCueList) :
    ForwardsInRange env cl (cl.stopClicked env).2 := by
  unfold VCCueList.stopClicked
  cases hch : cl.chaser env with
  | none => exact forwardsInRange_nil env cl
  | some ch =>
    dsimp only
    cases hr : ch.running with
    | true =>
      simp only [if_true]
      cases hl : cl.playbackLayout with
      | PlayPauseStop =>
        refine forwardsInRange_none env cl _ ?_
        have h := stopChaser_noIndex env cl
        exact h
      | PlayStopPause =>
        refine forwardsInRange_none env cl _ ?_
        intro c hc
        rw [List.mem_singleton.1 hc]
        rfl
    | false => exact forwardsInRange_nil env cl

theorem handleSecondNote_notWaiting (env : Env) (cueList : Option VCCueList)
    (m : MidiStepController) (v : Nat) (h : m.waitingForSecondNote = false) :
    handleSecondNote env cueList m v = (m, []) := by
  cases cueList with
  | none => rfl
  | some cl => simp [handleSecondNote, h]

theorem handleTwoNoteTimeout_notWaiting (env : Env) (cueList : Option VCCueList)
    (m : MidiStepController) (h : m.waitingForSecondNote = false) :
    handleTwoNoteTimeout env cueList m = (m, []) := by
  simp [handleTwoNoteTimeout, h]

theorem handle_twoNoteTimer_inactive (env : Env) (cueList : Option VCCueList)
    (m : MidiStepController) (h : m.twoNoteTimer.deadline = none) :
    m.handle env cueList MidiEvent.twoNoteTimerTimeout = (m, []) := by
  simp [MidiStepController.handle, h]

theorem handle_changeTimer_inactive (env : Env) (cueList : Option VCCueList)
    (m : MidiStepController) (h : m.changeTimer.deadline = none) :
    m.handle env cueList MidiEvent.changeTimerTimeout = (m, []) := by
  simp [MidiStepController.handle, h]

theorem handleFirstNote_disabled (env : Env) (cueList : Option VCCueList)
    (m : MidiStepController) (v : Nat) (h : m.enabled = false) :
    handleFirstNote env cueList m v = (m, []) := by
  cases cueList with
  | none => rfl
  | some cl => simp [handleFirstNote, h]

theorem idle_init : MidiStepController.init.idle := ⟨rfl, rfl, rfl, rfl⟩

theorem setEnabled_false_idle (m : MidiStepController) (h : m.enabled = true) :
    (m.setEnabled false).idle := by
  simp [MidiStepController.setEnabled, MidiStepController.idle, h, QTimer.stop]

theorem setEnabled_idle (m : MidiStepController) (b : Bool) (h : m.idle) :
    (m.setEnabled b).idle := by
  obtain ⟨h1, h2, h3, h4⟩ := h
  unfold MidiStepController.setEnabled
  by_cases he : m.enabled = b
  · simp only [he, if_true]
    exact ⟨h1, h2, h3, h4⟩
  · simp only [he, if_false]
    cases b with
    | false => exact ⟨rfl, rfl, rfl, rfl⟩
    | true => exact ⟨h1, h2, h3, h4⟩

theorem setTwoNoteMode_idle (m : MidiStepController) (b : Bool) (h : m.idle) :
    (m.setTwoNoteMode b).idle := by
  obtain ⟨h1, h2, h3, h4⟩ := h
  unfold MidiStepController.setTwoNoteMode
  by_cases he : m.twoNoteMode = b
  · simp only [he, if_true]
    exact ⟨h1, h2, h3, h4⟩
  · simp only [he, if_false]
    exact ⟨h1, rfl, h3, rfl⟩

theorem setTimeout_idle (m : MidiStepController) (now t : Int) (h : m.idle) :
    (m.setTimeout now t).idle := by
  obtain ⟨h1, h2, h3, h4⟩ := h
  refine ⟨h1, h2, h3, ?_⟩
  simp [MidiStepController.setTimeout, QTimer.setInterval, QTimer.isActive, h4]

theorem setDebounceInterval_idle (m : MidiStepController) (now t : Int) (h : m.idle) :
    (m.setDebounceInterval now t).idle := by
  obtain ⟨h1, h2, h3, h4⟩ := h
  refine ⟨h1, h2, ?_, h4⟩
  simp [MidiStepController.setDebounceInterval, QTimer.setInterval, QTimer.isActive, h3]

/-- An idle decoder stays idle and sends nothing under every event other than
a first note received while it is enabled. -/
theorem idle_step (env : Env) (cueList : Option VCCueList) (m : MidiStepController)
    (e : MidiEvent) (h : m.idle)
    (hn : ∀ v, e = MidiEvent.firstNote v → m.enabled = false) :
    (m.handle env cueList e).1.idle ∧ (m.handle env cueList e).2 = [] := by
  cases e with
  | setEnabled b => exact ⟨setEnabled_idle m b h, rfl⟩
  | setTwoNoteMode b => exact ⟨setTwoNoteMode_idle m b h, rfl⟩
  | setTimeout t => exact ⟨setTimeout_idle m env.now t h, rfl⟩
  | setDebounceInterval i => exact ⟨setDebounceInterval_idle m env.now i h, rfl⟩
  | firstNote v =>
    have he := hn v rfl
    simp only [MidiStepController.handle, handleFirstNote_disabled env cueList m v he]
    exact ⟨h, trivial⟩
  | secondNote v =>
    simp only [MidiStepController.handle, handleSecondNote_notWaiting env cueList m v h.2.1]
    exact ⟨h, trivial⟩
  | changeTimerTimeout =>
    rw [handle_changeTimer_inactive env cueList m h.2.2.1]
    exact ⟨h, rfl⟩
  | twoNoteTimerTimeout =>
    rw [handle_twoNoteTimer_inactive env cueList m h.2.2.2]
    exact ⟨h, rfl⟩

theorem handleFirstNote_enabled (env : Env) (cueList : Option VCCueList)
    (m : MidiStepController) (v : Nat) :
    (handleFirstNote env cueList m v).1.enabled = m.enabled := by
  cases cueList with
  | none => rfl
  | some cl =>
    by_cases h1 : m.enabled = false
    · simp [handleFirstNote, h1]
    · by_cases h2 : m.twoNoteMode = true
      · simp [handleFirstNote, h1, h2]
      · by_cases h3 : v = 0
        · simp [handleFirstNote, h1, h2, h3]
        · have h := (queueStepChange_frame env (some cl) m ((v : Int) - 1)).1
          simpa [handleFirstNote, h1, h2, h3] using h

theorem handleSecondNote_enabled (env : Env) (cueList : Option VCCueList)
    (m : MidiStepController) (v : Nat) :
    (handleSecondNote env cueList m v).1.enabled = m.enabled := by
  rcases handleSecondNote_cases env cueList m v with h | ⟨i, h⟩
  · cases cueList with
    | none => rfl
    | some cl =>
      by_cases h1 : m.enabled = false ∨ m.twoNoteMode = false ∨ m.waitingForSecondNote = false
      · simp [handleSecondNote, h1]
      · by_cases h2 : (if m.firstNoteValue * 128 + (v : Int) = 0 then (-1 : Int)
            else m.firstNoteValue * 128 + (v : Int) - 1) < 0
        · simp only [handleSecondNote, h1, h2, if_true, if_false]
        · simp only [handleSecondNote, h1, h2, if_false]
          exact (queueStepChange_frame env (some cl) _ _).1
  · rw [h]
    exact (queueStepChange_frame env cueList _ i).1

theorem handleTwoNoteTimeout_enabled (env : Env) (cueList : Option VCCueList)
    (m : MidiStepController) :
    (handleTwoNoteTimeout env cueList m).1.enabled = m.enabled := by
  by_cases h1 : m.waitingForSecondNote = false
  · simp [handleTwoNoteTimeout, h1]
  · by_cases h2 : m.firstNoteValue = 0
    · simp [handleTwoNoteTimeout, h1, h2]
    · simp only [handleTwoNoteTimeout, h1, h2, if_false]
      exact (queueStepChange_frame env cueList _ _).1

theorem handle_enabled (env : Env) (cueList : Option VCCueList) (m : MidiStepController)
    (e : MidiEvent) (hne : ∀ b, e ≠ MidiEvent.setEnabled b) :
    (m.handle env cueList e).1.enabled = m.enabled := by
  cases e with
  | setEnabled b => exact absurd rfl (hne b)
  | setTwoNoteMode b =>
    simp only [MidiStepController.handle, MidiStepController.setTwoNoteMode]
    split <;> rfl
  | setTimeout t => rfl
  | setDebounceInterval i => rfl
  | firstNote v => exact handleFirstNote_enabled env cueList m v
  | secondNote v => exact handleSecondNote_enabled env cueList m v
  | changeTimerTimeout =>
    cases hd : m.changeTimer.deadline with
    | none => rw [handle_changeTimer_inactive env cueList m hd]
    | some d =>
      by_cases hle : d ≤ env.now
      · rw [handle_changeTimerTimeout_due env cueList m d hd hle]
        exact (executeStepChange_frame env cueList _).1
      · simp [MidiStepController.handle, hd, hle]
  | twoNoteTimerTimeout =>
    cases hd : m.twoNoteTimer.deadline with
    | none => rw [handle_twoNoteTimer_inactive env cueList m hd]
    | some d =>
      by_cases hle : d ≤ env.now
      · simp only [MidiStepController.handle, hd, hle, if_true]
        exact handleTwoNoteTimeout_enabled env cueList _
      · simp [MidiStepController.handle, hd, hle]

/-- A reachable decoder that is disabled holds no buffered note, no queued
step and no armed timer. -/
theorem reachable_disabled_idle (m : MidiStepController) (hr : Reachable m) :
    m.enabled = false → m.idle := by
  induction hr with
  | init => exact fun _ => idle_init
  | step m env cueList e _ ih =>
    intro hd
    by_cases hse : ∃ b, e = MidiEvent.setEnabled b
    · obtain ⟨b, rfl⟩ := hse
      cases hm : m.enabled with
      | false => exact setEnabled_idle m b (ih hm)
      | true =>
        cases b with
        | false => exact setEnabled_false_idle m hm
        | true =>
          simp [MidiStepController.handle, MidiStepController.setEnabled, hm] at hd
    · have hne : ∀ b, e ≠ MidiEvent.setEnabled b := fun b hb => hse ⟨b, hb⟩
      have hen := handle_enabled env cueList m e hne
      rw [hen] at hd
      exact (idle_step env cueList m e (ih hd) (fun _ _ => hd)).1

theorem idle_run (os : List Occurrence) :
    ∀ m : MidiStepController, m.idle → noNewNote m os = true → (runDecoder m os).2 = [] := by
  induction os with
  | nil => intro m _ _; rfl
  | cons o os ih =>
    intro m hi hq
    simp only [noNewNote, Bool.and_eq_true] at hq
    have hn : ∀ v, o.event = MidiEvent.firstNote v → m.enabled = false := by
      intro v hv
      have h1 := hq.1
      rw [hv] at h1
      simpa using h1
    obtain ⟨s1, s2⟩ := idle_step o.env o.cueList m o.event hi hn
    simp only [runDecoder, s2, List.map_nil, List.nil_append]
    exact ih _ s1 hq.2

theorem reachable_run (os : List Occurrence) :
    ∀ m : MidiStepController, Reachable m → Reachable (runDecoder m os).1 := by
  induction os with
  | nil => intro m h; exact h
  | cons o os ih =>
    intro m h
    exact ih _ (Reachable.step m o.env o.cueList o.event h)

theorem stepIndices_of_detached (env : Env) (cl : VCCueList) (cmds : List Command)
    (h : ForwardsInRange env cl cmds) (hch : cl.chaser env = none) :
    stepIndices cmds = [] := by
  unfold stepIndices
  rw [List.filterMap_eq_nil_iff]
  intro c hc
  cases hi : c.stepIndex? with
  | none => rfl
  | some i =>
    obtain ⟨ch, _, h1, _⟩ := h c hc i hi
    rw [hch] at h1
    cases h1

/-! ## Single-note and two-note decoding -/

/-- C1: with the decoder enabled in single-note mode and a sequence attached
whose step count exceeds `v - 1`, `handleFirstNote v` for `1 ≤ v ≤ 127` is
exactly one submission of the index `v - 1` to the rate limiter, the index
passes validation, and it is either forwarded at once (as the only step
index) or becomes the pending step; `handleFirstNote 0` submits nothing and
leaves the state unchanged. -/
theorem single_note_decoding (env : Env) (cl : VCCueList) (m : MidiStepController)
    (ch : DocFunction) (v : Nat)
    (hen : m.enabled = true) (hmode : m.twoNoteMode = false)
    (hch : cl.chaser env = some ch) (hv1 : 1 ≤ v) (hv2 : v ≤ 127)
    (hcount : (v : Int) - 1 < (ch.stepsCount : Int)) :
    handleFirstNote env (some cl) m v = queueStepChange env (some cl) m ((v : Int) - 1) ∧
    isValidStep (some cl) env ((v : Int) - 1) = true ∧
    (rateLimited env m = false →
      stepIndices (handleFirstNote env (some cl) m v).2 = [(v : Int) - 1]) ∧
    (rateLimited env m = true →
      (handleFirstNote env (some cl) m v).2 = [] ∧
      (handleFirstNote env (some cl) m v).1.pendingStep = (v : Int) - 1 ∧
      (handleFirstNote env (some cl) m v).1.hasPendingChange = true) ∧
    handleFirstNote env (some cl) m 0 = (m, []) := by
  have hv0 : v ≠ 0 := by omega
  have hvalid : isValidStep (some cl) env ((v : Int) - 1) = true :=
    (isValidStep_iff cl env _).2 ⟨ch, hch, by omega, hcount⟩
  have heq : handleFirstNote env (some cl) m v =
      queueStepChange env (some cl) m ((v : Int) - 1) := by
    simp [handleFirstNote, hen, hmode, hv0]
  refine ⟨heq, hvalid, ?_, ?_, ?_⟩
  · intro hr
    rw [heq]
    exact (queueStepChange_immediate_result env cl m _ hen hvalid hr).1
  · intro hr
    obtain ⟨t, ht, hlt⟩ := (rateLimited_iff env m).1 hr
    rw [heq, queueStepChange_limited env cl m _ t hen hvalid ht hlt]
    exact ⟨rfl, rfl, rfl⟩
  · simp [handleFirstNote, hen, hmode]

/-- Witness of C1: velocity 3 on a fresh decoder attached to a five-step
sequence. -/
theorem single_note_decoding_witness :
    handleFirstNote { now := 0, doc := docFive } (some cueOne) midiOn 3 =
        queueStepChange { now := 0, doc := docFive } (some cueOne) midiOn 2 ∧
      stepIndices (handleFirstNote { now := 0, doc := docFive } (some cueOne) midiOn 3).2 = [2] :=
  have h := single_note_decoding { now := 0, doc := docFive } cueOne midiOn
    { id := 1, stepsCount := 5 } 3 (by decide) (by decide) (by decide) (by decide) (by decide)
    (by decide)
  ⟨h.1, h.2.2.1 (by decide)⟩

/-- C2: with the decoder enabled in two-note mode, `handleFirstNote a` sends
nothing, buffers `a` and arms the timeout; a following `handleSecondNote b`
(no timeout callback in between) clears the first-note state and, for
`(a, b) ≠ (0, 0)` with both values at most 127, is exactly one submission of
`a * 128 + b - 1` to the rate limiter, forwarded as the only step index when
it is valid and not rate limited; for `(0, 0)` it submits nothing. -/
theorem two_note_decoding (env1 env2 : Env) (cl1 cl2 : VCCueList) (m : MidiStepController)
    (a b : Nat) (hen : m.enabled = true) (hmode : m.twoNoteMode = true)
    (ha : a ≤ 127) (hb : b ≤ 127) :
    handleFirstNote env1 (some cl1) m a =
      ({ m with
         firstNoteValue := (a : Int)
         waitingForSecondNote := true
         twoNoteTimer := m.twoNoteTimer.start env1.now m.timeout }, []) ∧
    (handleSecondNote env2 (some cl2) (handleFirstNote env1 (some cl1) m a).1 b).1.waitingForSecondNote
      = false ∧
    (handleSecondNote env2 (some cl2) (handleFirstNote env1 (some cl1) m a).1 b).1.firstNoteValue
      = -1 ∧
    (handleSecondNote env2 (some cl2) (handleFirstNote env1 (some cl1) m a).1 b).1.twoNoteTimer.deadline
      = none ∧
    ((a, b) ≠ (0, 0) →
      handleSecondNote env2 (some cl2) (handleFirstNote env1 (some cl1) m a).1 b =
        queueStepChange env2 (some cl2)
          { m with
            firstNoteValue := -1
            waitingForSecondNote := false
            twoNoteTimer := (m.twoNoteTimer.start env1.now m.timeout).stop }
          ((a : Int) * 128 + (b : Int) - 1) ∧
      (isValidStep (some cl2) env2 ((a : Int) * 128 + (b : Int) - 1) = true →
        rateLimited env2 m = false →
        stepIndices
          (handleSecondNote env2 (some cl2) (handleFirstNote env1 (some cl1) m a).1 b).2 =
          [(a : Int) * 128 + (b : Int) - 1])) ∧
    ((a, b) = (0, 0) →
      handleSecondNote env2 (some cl2) (handleFirstNote env1 (some cl1) m a).1 b =
        ({ m with
           firstNoteValue := -1
           waitingForSecondNote := false
           twoNoteTimer := (m.twoNoteTimer.start env1.now m.timeout).stop }, [])) := by
  have h1 : handleFirstNote env1 (some cl1) m a =
      ({ m with
         firstNoteValue := (a : Int)
         waitingForSecondNote := true
         twoNoteTimer := m.twoNoteTimer.start env1.now m.timeout }, []) := by
    simp [handleFirstNote, hen, hmode]
  have hzero : (a, b) = (0, 0) →
      handleSecondNote env2 (some cl2) (handleFirstNote env1 (some cl1) m a).1 b =
        ({ m with
           firstNoteValue := -1
           waitingForSecondNote := false
           twoNoteTimer := (m.twoNoteTimer.start env1.now m.timeout).stop }, []) := by
    intro hab
    obtain ⟨rfl, rfl⟩ := Prod.mk.inj hab
    rw [h1]
    simp [handleSecondNote, hen, hmode]
  have hpos : (a, b) ≠ (0, 0) →
      handleSecondNote env2 (some cl2) (handleFirstNote env1 (some cl1) m a).1 b =
        queueStepChange env2 (some cl2)
          { m with
            firstNoteValue := -1
            waitingForSecondNote := false
            twoNoteTimer := (m.twoNoteTimer.start env1.now m.timeout).stop }
          ((a : Int) * 128 + (b : Int) - 1) := by
    intro hab
    have hne : ¬ ((a : Int) * 128 + (b : Int) = 0) := by
      intro h0
      apply hab
      have ha0 : a = 0 := by omega
      have hb0 : b = 0 := by omega
      rw [ha0, hb0]
    have hge : ¬ ((a : Int) * 128 + (b : Int) - 1 < 0) := by omega
    rw [h1]
    simp [handleSecondNote, hen, hmode, hne, hge]
  have hframe := queueStepChange_frame env2 (some cl2)
    { m with
      firstNoteValue := -1
      waitingForSecondNote := false
      twoNoteTimer := (m.twoNoteTimer.start env1.now m.timeout).stop }
    ((a : Int) * 128 + (b : Int) - 1)
  have hclear :
      (handleSecondNote env2 (some cl2) (handleFirstNote env1 (some cl1) m a).1 b).1.waitingForSecondNote
        = false ∧
      (handleSecondNote env2 (some cl2) (handleFirstNote env1 (some cl1) m a).1 b).1.firstNoteValue
        = -1 ∧
      (handleSecondNote env2 (some cl2) (handleFirstNote env1 (some cl1) m a).1 b).1.twoNoteTimer.deadline
        = none := by
    by_cases hab : (a, b) = (0, 0)
    · rw [hzero hab]
      exact ⟨rfl, rfl, rfl⟩
    · rw [hpos hab]
      obtain ⟨_, _, _, _, ht, hf, hw⟩ := hframe
      rw [ht, hf, hw]
      exact ⟨rfl, rfl, rfl⟩
  refine ⟨h1, hclear.1, hclear.2.1, hclear.2.2, ?_, hzero⟩
  intro hab
  refine ⟨hpos hab, ?_⟩
  intro hvalid hr
  rw [hpos hab]
  exact (queueStepChange_immediate_result env2 cl2
    { m with
      firstNoteValue := -1
      waitingForSecondNote := false
      twoNoteTimer := (m.twoNoteTimer.start env1.now m.timeout).stop } _ hen hvalid hr).1

/-- Witness of C2: the pair (2, 3) on a sequence of 300 steps selects 258. -/
theorem two_note_decoding_witness :
    stepIndices
      (handleSecondNote { now := 100, doc := docLong } (some cueOne)
        (handleFirstNote { now := 0, doc := docLong } (some cueOne) midiTwo 2).1 3).2 = [258] :=
  (((two_note_decoding { now := 0, doc := docLong } { now := 100, doc := docLong }
    cueOne cueOne midiTwo 2 3 (by decide) (by decide) (by decide) (by decide)).2.2.2.2.1
    (by decide)).2 (by decide) (by decide))

/-- C3: when the two-note timeout fires with a first value `a` buffered and no
second value, the first-note state is cleared; for `a ≠ 0` this is exactly one
submission of `a - 1` to the rate limiter (forwarded as the only step index
when the decoder is enabled and the index is valid and not rate limited), for
`a = 0` nothing is submitted; a timeout with no first value pending does
nothing. -/
theorem two_note_timeout (env : Env) (cl : VCCueList) (m : MidiStepController) :
    (m.waitingForSecondNote = true →
      (handleTwoNoteTimeout env (some cl) m).1.waitingForSecondNote = false ∧
      (handleTwoNoteTimeout env (some cl) m).1.firstNoteValue = -1) ∧
    (m.waitingForSecondNote = true → m.firstNoteValue ≠ 0 →
      handleTwoNoteTimeout env (some cl) m =
        queueStepChange env (some cl)
          { m with waitingForSecondNote := false, firstNoteValue := -1 }
          (m.firstNoteValue - 1) ∧
      (m.enabled = true → isValidStep (some cl) env (m.firstNoteValue - 1) = true →
        rateLimited env m = false →
        stepIndices (handleTwoNoteTimeout env (some cl) m).2 = [m.firstNoteValue - 1])) ∧
    (m.waitingForSecondNote = true → m.firstNoteValue = 0 →
      handleTwoNoteTimeout env (some cl) m =
        ({ m with waitingForSecondNote := false, firstNoteValue := -1 }, [])) ∧
    (m.waitingForSecondNote = false → handleTwoNoteTimeout env (some cl) m = (m, [])) := by
  have hzero : m.waitingForSecondNote = true → m.firstNoteValue = 0 →
      handleTwoNoteTimeout env (some cl) m =
        ({ m with waitingForSecondNote := false, firstNoteValue := -1 }, []) := by
    intro hw h0
    simp [handleTwoNoteTimeout, hw, h0]
  have hpos : m.waitingForSecondNote = true → m.firstNoteValue ≠ 0 →
      handleTwoNoteTimeout env (some cl) m =
        queueStepChange env (some cl)
          { m with waitingForSecondNote := false, firstNoteValue := -1 }
          (m.firstNoteValue - 1) := by
    intro hw h0
    simp [handleTwoNoteTimeout, hw, h0]
  refine ⟨?_, ?_, hzero, ?_⟩
  · intro hw
    by_cases h0 : m.firstNoteValue = 0
    · rw [hzero hw h0]
      exact ⟨rfl, rfl⟩
    · rw [hpos hw h0]
      obtain ⟨_, _, _, _, _, hf, hw2⟩ := queueStepChange_frame env (some cl)
        { m with waitingForSecondNote := false, firstNoteValue := -1 } (m.firstNoteValue - 1)
      rw [hf, hw2]
      exact ⟨rfl, rfl⟩
  · intro hw h0
    refine ⟨hpos hw h0, ?_⟩
    intro hen hvalid hr
    rw [hpos hw h0]
    exact (queueStepChange_immediate_result env cl
      { m with waitingForSecondNote := false, firstNoteValue := -1 } _ hen hvalid hr).1
  · intro hw
    simp [handleTwoNoteTimeout, hw]

/-- Witness of C3: the timeout fires with the first value 3 buffered. -/
theorem two_note_timeout_witness :
    stepIndices
      (handleTwoNoteTimeout { now := 500, doc := docFive } (some cueOne)
        (handleFirstNote { now := 0, doc := docFive } (some cueOne) midiTwo 3).1).2 = [2] :=
  ((two_note_timeout { now := 500, doc := docFive } cueOne
    (handleFirstNote { now := 0, doc := docFive } (some cueOne) midiTwo 3).1).2.1
    (by decide) (by decide)).2 (by decide) (by decide) (by decide)

/-! ## Rate limiting -/

/-- C5, failing input: with debounce 100 ms the decoder forwards step changes
at 100 ms and again at 105 ms. The timer armed at 95 ms (for the 10 ms
minimum) stays armed through the immediate dispatch at 100 ms and delivers
the candidate queued at 102 ms only 5 ms after that dispatch. -/
theorem min_spacing_failing_input :
    dispatches (runDecoder midiOn staleTimerRun).2 = [(0, 0), (100, 2), (105, 3)] ∧
      midiOn.debounceInterval = 100 := by
  decide

/-! ## Index validation -/

/-- C6: every step index that any decoder entry point or timer expiry
forwards (as a `ChaserSetStepIndex` action, also when it starts the sequence)
goes to the attached sequence and satisfies `0 ≤ index < stepsCount` for the
step count read at that moment; a candidate that is negative, at or beyond
the step count, or submitted with no sequence attached is dropped by
`queueStepChange` with the whole decoder state (pending step, pending flag
and last-dispatch time included) unchanged and nothing sent. -/
theorem decoder_index_validation (env : Env) (cl : VCCueList) (m : MidiStepController) :
    (∀ e, ForwardsInRange env cl (m.handle env (some cl) e).2) ∧
    (∀ i : Int,
      (i < 0 ∨ cl.chaser env = none ∨
        ∃ ch, cl.chaser env = some ch ∧ (ch.stepsCount : Int) ≤ i) →
      queueStepChange env (some cl) m i = (m, [])) := by
  refine ⟨fun e => handle_inRange env cl m e, ?_⟩
  intro i hi
  apply queueStepChange_drop
  right
  cases hv : isValidStep (some cl) env i with
  | false => rfl
  | true =>
    obtain ⟨ch, hch, h0, hlt⟩ := (isValidStep_iff cl env i).1 hv
    rcases hi with hneg | hnone | ⟨ch2, hch2, hge⟩
    · omega
    · rw [hnone] at hch
      cases hch
    · rw [hch2] at hch
      cases hch
      omega

/-- Witness of C6: candidate 7 for a five-step sequence is dropped. -/
theorem decoder_index_validation_witness :
    queueStepChange { now := 0, doc := docFive } (some cueOne) midiDispatched 7 =
      (midiDispatched, []) :=
  (decoder_index_validation { now := 0, doc := docFive } cueOne midiDispatched).2 7
    (Or.inr (Or.inr ⟨{ id := 1, stepsCount := 5 }, by decide, by decide⟩))

theorem stopClicked_noIndex (env : Env) (cl : VCCueList) :
    stepIndices (cl.stopClicked env).2 = [] := by
  unfold VCCueList.stopClicked
  cases hch : cl.chaser env with
  | none => rfl
  | some ch =>
    dsimp only
    cases hr : ch.running with
    | true =>
      simp only [if_true]
      cases hl : cl.playbackLayout with
      | PlayPauseStop =>
        dsimp only
        unfold VCCueList.stopChaser
        rw [hch]
        rfl
      | PlayStopPause => rfl
    | false => rfl

theorem nextClicked_unselected (env : Env) (cl : VCCueList) (ch : DocFunction)
    (hch : cl.chaser env = some ch) (hn : 1 ≤ ch.stepsCount) (hp : cl.playbackIndex = -1)
    (h : ch.running = true ∨ cl.nextPrevBehavior ≠ NextPrevBehavior.RunNext ∨
      ch.direction = Direction.Forward) :
    ForwardsInRange env cl (cl.nextClicked env).2 := by
  unfold VCCueList.nextClicked
  rw [hch]
  dsimp only
  cases hr : ch.running with
  | true =>
    cases hpa : ch.paused with
    | true => exact forwardsInRange_nil env cl
    | false => exact forwardsInRange_none env cl _ (relative_noIndex _ _ (by simp))
  | false =>
    simp only [Bool.false_eq_true, if_false]
    cases hb : cl.nextPrevBehavior with
    | DefaultRunFirst =>
      obtain ⟨⟨a, b⟩, _⟩ := firstIndex_inRange env cl ch hch hn
      exact forwardsInRange_startChaser env cl ch _ hch a b
    | RunNext =>
      have hd : ch.direction = Direction.Forward := by
        rcases h with h | h | h
        · rw [hr] at h
          cases h
        · exact absurd hb h
        · exact h
      have hidx : 0 ≤ cl.getNextIndex env ∧ cl.getNextIndex env < (ch.stepsCount : Int) := by
        unfold VCCueList.getNextIndex
        rw [hch]
        dsimp only
        rw [if_pos hd, hp]
        split <;> omega
      exact forwardsInRange_startChaser env cl ch _ hch hidx.1 hidx.2
    | Select => exact forwardsInRange_nil env cl
    | Nothing => exact forwardsInRange_nil env cl

theorem previousClicked_unselected (env : Env) (cl : VCCueList) (ch : DocFunction)
    (hch : cl.chaser env = some ch) (hn : 1 ≤ ch.stepsCount) (hp : cl.playbackIndex = -1)
    (h : ch.running = true ∨ cl.nextPrevBehavior ≠ NextPrevBehavior.RunNext ∨
      ch.direction ≠ Direction.Forward) :
    ForwardsInRange env cl (cl.previousClicked env).2 := by
  unfold VCCueList.previousClicked
  rw [hch]
  dsimp only
  cases hr : ch.running with
  | true =>
    cases hpa : ch.paused with
    | true => exact forwardsInRange_nil env cl
    | false => exact forwardsInRange_none env cl _ (relative_noIndex _ _ (by simp))
  | false =>
    simp only [Bool.false_eq_true, if_false]
    cases hb : cl.nextPrevBehavior with
    | DefaultRunFirst =>
      obtain ⟨_, ⟨a, b⟩⟩ := firstIndex_inRange env cl ch hch hn
      exact forwardsInRange_startChaser env cl ch _ hch a b
    | RunNext =>
      have hd : ¬ (ch.direction = Direction.Forward) := by
        rcases h with h | h | h
        · rw [hr] at h
          cases h
        · exact absurd hb h
        · exact h
      have hidx : 0 ≤ cl.getPrevIndex env ∧ cl.getPrevIndex env < (ch.stepsCount : Int) := by
        unfold VCCueList.getPrevIndex
        rw [hch]
        dsimp only
        rw [if_neg hd, hp]
        split <;> omega
      exact forwardsInRange_startChaser env cl ch _ hch hidx.1 hidx.2
    | Select => exact forwardsInRange_nil env cl
    | Nothing => exact forwardsInRange_nil env cl

theorem playClicked_unselected (env : Env) (cl : VCCueList) (ch : DocFunction)
    (hch : cl.chaser env = some ch) (hn : 1 ≤ ch.stepsCount) (hp : cl.playbackIndex = -1)
    (h : ch.running = false ∨ cl.playbackLayout = PlaybackLayout.PlayStopPause) :
    ForwardsInRange env cl (cl.playClicked env).2 := by
  unfold VCCueList.playClicked
  rw [hch]
  dsimp only
  cases hr : ch.running with
  | true =>
    simp only [if_true]
    cases hl : cl.playbackLayout with
    | PlayPauseStop =>
      rcases h with h | h
      · rw [hr] at h
        cases h
      · rw [hl] at h
        cases h
    | PlayStopPause => exact forwardsInRange_none env cl _ (stopChaser_noIndex env cl)
  | false =>
    simp only [Bool.false_eq_true, if_false]
    rw [if_pos hp]
    exact forwardsInRange_startChaser env cl ch _ hch le_rfl (by omega)

/-- C7: failing input. The cue list `cueRunNext` was just attached to an idle
five-step sequence playing forward and has the `RunNext` policy; nothing is
selected yet (cached playback index -1). Previous computes `getPrevIndex`,
which wraps only at index 0 and returns -2, and starts the sequence with the
target index -2: the index is forwarded, not dropped. In the same state the
sibling paths treat -1 as "nothing selected": `getNextIndex` returns 0, Next
starts the sequence at index 0 and so does Play. -/
theorem out_of_range_forwarded :
    cueRunNext.playbackIndex = -1 ∧
      cueRunNext.getPrevIndex { now := 0, doc := docFive } = -2 ∧
      stepIndices (cueRunNext.previousClicked { now := 0, doc := docFive }).2 = [-2] ∧
      Command.start 1 ∈ (cueRunNext.previousClicked { now := 0, doc := docFive }).2 ∧
      ¬ ForwardsInRange { now := 0, doc := docFive } cueRunNext
          (cueRunNext.previousClicked { now := 0, doc := docFive }).2 ∧
      cueRunNext.getNextIndex { now := 0, doc := docFive } = 0 ∧
      stepIndices (cueRunNext.nextClicked { now := 0, doc := docFive }).2 = [0] ∧
      stepIndices (cueRunNext.playClicked { now := 0, doc := docFive }).2 = [0] := by
  refine ⟨by decide, by decide, by decide, by decide, ?_, by decide, by decide, by decide⟩
  intro h
  have hmem : ∃ c ∈ (cueRunNext.previousClicked { now := 0, doc := docFive }).2,
      c.stepIndex? = some (-2) := by decide
  obtain ⟨c, hc, hi⟩ := hmem
  obtain ⟨_, _, _, _, h0, _⟩ := h c hc (-2) hi
  omega

/-- Where the navigation entry points stay in range. The MIDI decoder forwards
only target indices inside `[0, stepsCount)` of the attached sequence, in every
state, and Stop forwards no target index at all. Next, Previous and Play
forward the locally computed index unchecked. With a sequence of at least one
step attached it lies inside `[0, stepsCount)` whenever the cached playback
index does; with nothing selected (index -1) Play is in range unless it pauses
a running sequence, Next is in range unless it starts an idle sequence under
`RunNext` playing backward, and Previous is in range unless it starts an idle
sequence under `RunNext` playing forward. -/
theorem navigation_index_range (env : Env) (cl : VCCueList) :
    (∀ e, ForwardsInRange env cl (cl.decoderEvent env e).2) ∧
    stepIndices (cl.stopClicked env).2 = [] ∧
    ForwardsInRange env cl (cl.stopClicked env).2 ∧
    (∀ ch, cl.chaser env = some ch → 1 ≤ ch.stepsCount →
      (0 ≤ cl.playbackIndex ∧ cl.playbackIndex < (ch.stepsCount : Int) →
        ForwardsInRange env cl (cl.nextClicked env).2 ∧
        ForwardsInRange env cl (cl.previousClicked env).2 ∧
        ForwardsInRange env cl (cl.playClicked env).2) ∧
      (cl.playbackIndex = -1 →
        ((ch.running = true ∨ cl.nextPrevBehavior ≠ NextPrevBehavior.RunNext ∨
            ch.direction = Direction.Forward) →
          ForwardsInRange env cl (cl.nextClicked env).2) ∧
        ((ch.running = true ∨ cl.nextPrevBehavior ≠ NextPrevBehavior.RunNext ∨
            ch.direction ≠ Direction.Forward) →
          ForwardsInRange env cl (cl.previousClicked env).2) ∧
        ((ch.running = false ∨ cl.playbackLayout = PlaybackLayout.PlayStopPause) →
          ForwardsInRange env cl (cl.playClicked env).2))) :=
  ⟨fun e => handle_inRange env cl cl.midiStepController e, stopClicked_noIndex env cl,
    stopClicked_inRange env cl,
    fun ch hch hn =>
      ⟨fun hp =>
        ⟨nextClicked_inRange env cl ch hch hn (Or.inl hp),
          previousClicked_inRange env cl ch hch hn (Or.inl hp),
          playClicked_inRange env cl ch hch hn (Or.inl hp)⟩,
        fun hp =>
          ⟨nextClicked_unselected env cl ch hch hn hp,
            previousClicked_unselected env cl ch hch hn hp,
            playClicked_unselected env cl ch hch hn hp⟩⟩⟩

/-- The range of the navigation entry points at concrete cue lists: Next on
the last of five steps wraps to index 0, and with nothing selected Play on the
idle sequence stays in range. -/
theorem navigation_index_range_witness :
    ForwardsInRange { now := 0, doc := docFive } cueAtLast
        (cueAtLast.nextClicked { now := 0, doc := docFive }).2 ∧
      stepIndices (cueAtLast.nextClicked { now := 0, doc := docFive }).2 = [0] ∧
      ForwardsInRange { now := 0, doc := docFive } cueRunNext
        (cueRunNext.playClicked { now := 0, doc := docFive }).2 :=
  ⟨(((navigation_index_range { now := 0, doc := docFive } cueAtLast).2.2.2
      { id := 1, stepsCount := 5 } (by decide) (by decide)).1 (by decide)).1, by decide,
    (((navigation_index_range { now := 0, doc := docFive } cueRunNext).2.2.2
      { id := 1, stepsCount := 5 } (by decide) (by decide)).2 (by decide)).2.2
      (Or.inl (by decide))⟩

/-! ## Mode switches, disabling and detaching -/

/-- C8: after `setEnabled false` on an enabled decoder, and after
`setTwoNoteMode b` with `b` different from the current mode, no second note
is awaited, the first-note value is -1 and the two-note timer is stopped;
a following `handleSecondNote`, timeout callback or expiry of the two-note
timer sends nothing and changes nothing. -/
theorem mode_switch_discards_first_note (env : Env) (cueList : Option VCCueList)
    (m : MidiStepController) (b : Bool) (v : Nat) :
    (m.enabled = true →
      (m.setEnabled false).waitingForSecondNote = false ∧
      (m.setEnabled false).firstNoteValue = -1 ∧
      (m.setEnabled false).twoNoteTimer.deadline = none ∧
      handleSecondNote env cueList (m.setEnabled false) v = (m.setEnabled false, []) ∧
      handleTwoNoteTimeout env cueList (m.setEnabled false) = (m.setEnabled false, []) ∧
      (m.setEnabled false).handle env cueList MidiEvent.twoNoteTimerTimeout =
        (m.setEnabled false, [])) ∧
    (b ≠ m.twoNoteMode →
      (m.setTwoNoteMode b).twoNoteMode = b ∧
      (m.setTwoNoteMode b).waitingForSecondNote = false ∧
      (m.setTwoNoteMode b).firstNoteValue = -1 ∧
      (m.setTwoNoteMode b).twoNoteTimer.deadline = none ∧
      handleSecondNote env cueList (m.setTwoNoteMode b) v = (m.setTwoNoteMode b, []) ∧
      handleTwoNoteTimeout env cueList (m.setTwoNoteMode b) = (m.setTwoNoteMode b, []) ∧
      (m.setTwoNoteMode b).handle env cueList MidiEvent.twoNoteTimerTimeout =
        (m.setTwoNoteMode b, [])) := by
  constructor
  · intro hen
    have hw : (m.setEnabled false).waitingForSecondNote = false := by
      simp [MidiStepController.setEnabled, hen]
    have hf : (m.setEnabled false).firstNoteValue = -1 := by
      simp [MidiStepController.setEnabled, hen]
    have ht : (m.setEnabled false).twoNoteTimer.deadline = none := by
      simp [MidiStepController.setEnabled, hen, QTimer.stop]
    exact ⟨hw, hf, ht, handleSecondNote_notWaiting env cueList _ v hw,
      handleTwoNoteTimeout_notWaiting env cueList _ hw,
      handle_twoNoteTimer_inactive env cueList _ ht⟩
  · intro hb
    have hne : ¬ (m.twoNoteMode = b) := fun h => hb h.symm
    have hm : (m.setTwoNoteMode b).twoNoteMode = b := by
      simp [MidiStepController.setTwoNoteMode, hne]
    have hw : (m.setTwoNoteMode b).waitingForSecondNote = false := by
      simp [MidiStepController.setTwoNoteMode, hne]
    have hf : (m.setTwoNoteMode b).firstNoteValue = -1 := by
      simp [MidiStepController.setTwoNoteMode, hne]
    have ht : (m.setTwoNoteMode b).twoNoteTimer.deadline = none := by
      simp [MidiStepController.setTwoNoteMode, hne, QTimer.stop]
    exact ⟨hm, hw, hf, ht, handleSecondNote_notWaiting env cueList _ v hw,
      handleTwoNoteTimeout_notWaiting env cueList _ hw,
      handle_twoNoteTimer_inactive env cueList _ ht⟩

/-- Witness of C8: the decoder waits for a second note when it is switched to
single-note mode; the second note 3 then selects nothing. -/
theorem mode_switch_discards_first_note_witness :
    midiWaiting.waitingForSecondNote = true ∧
      (handleSecondNote { now := 100, doc := docLong } (some cueOne)
        (midiWaiting.setTwoNoteMode false) 3).2 = [] ∧
      (handleSecondNote { now := 100, doc := docLong } (some cueOne)
        (midiWaiting.setEnabled false) 3).2 = [] :=
  have h := mode_switch_discards_first_note { now := 100, doc := docLong } (some cueOne)
    midiWaiting false 3
  ⟨by decide, congrArg Prod.snd (h.2 (by decide)).2.2.2.2.1,
    congrArg Prod.snd (h.1 (by decide)).2.2.2.1⟩

/-- C9: after `setEnabled false` in any reachable decoder state, whatever note
was buffered, step queued or timer armed, no command at all is sent to the
sequence by any later run of timer expiries, note inputs and setting changes
(enabling the decoder again included) in which no first note arrives while
the decoder is enabled. -/
theorem disable_cancels_pending (m : MidiStepController) (hr : Reachable m)
    (os : List Occurrence) (hq : noNewNote (m.setEnabled false) os = true) :
    (runDecoder (m.setEnabled false) os).2 = [] := by
  have hidle : (m.setEnabled false).idle := by
    cases hm : m.enabled with
    | false => exact setEnabled_idle m false (reachable_disabled_idle m hr hm)
    | true => exact setEnabled_false_idle m hm
  exact idle_run os _ hidle hq

/-- Witness of C9: a decoder with a queued step, a buffered note and both
timers armed is disabled; nothing is sent afterwards. -/
theorem disable_cancels_pending_witness :
    midiBusy.hasPendingChange = true ∧ midiBusy.waitingForSecondNote = true ∧
      midiBusy.changeTimer.deadline = some 100 ∧ midiBusy.twoNoteTimer.deadline = some 530 ∧
      (runDecoder (midiBusy.setEnabled false) quietRun).2 = [] :=
  ⟨by decide, by decide, by decide, by decide,
    disable_cancels_pending midiBusy (reachable_run busyRun _ Reachable.init) quietRun
      (by decide)⟩

/-- C10 as stated fails: attaching another sequence (or removing the attached
one) leaves the queued step and its armed timer in the decoder, and the timer
then delivers the step queued for sequence 1 to sequence 2. -/
theorem detach_keeps_pending_step :
    cueSwapped.chaserID = 2 ∧
      cueSwapped.midiStepController.hasPendingChange = true ∧
      cueSwapped.midiStepController.pendingStep = 3 ∧
      cueSwapped.midiStepController.changeTimer.deadline = some 100 ∧
      (cueQueued.slotFunctionRemoved 1).1.midiStepController.hasPendingChange = true ∧
      (cueSwapped.decoderEvent { now := 100, doc := docTwoSecond }
        MidiEvent.changeTimerTimeout).2 =
        [ Command.setAction 2
            { action := ChaserActionType.ChaserSetStepIndex
              stepIndex := some 3
              masterIntensity := some 1
              stepIntensity := some 1
              fadeMode := some FadeControlMode.FromFunction } ] := by
  decide

/-- C10 (amended): `setChaserID` and `slotFunctionRemoved` leave the decoder,
its buffers and its timers exactly as they were. A change that fires later is
validated against the sequence attached at that moment: every index the
decoder forwards goes to that sequence and lies below its step count; with no
sequence attached no index is forwarded and an expiry of the
delayed-dispatch timer of the enabled decoder leaves no change pending. -/
theorem detach_keeps_decoder_state (env : Env) (cl : VCCueList) (fid : Nat) :
    (cl.setChaserID env fid).1.midiStepController = cl.midiStepController ∧
    (cl.slotFunctionRemoved fid).1.midiStepController = cl.midiStepController ∧
    (∀ e, ForwardsInRange env cl (cl.decoderEvent env e).2) ∧
    (cl.chaser env = none → ∀ e, stepIndices (cl.decoderEvent env e).2 = []) ∧
    (cl.chaser env = none → cl.midiStepController.enabled = true →
      ∀ d, cl.midiStepController.changeTimer.deadline = some d → d ≤ env.now →
        (cl.decoderEvent env
          MidiEvent.changeTimerTimeout).1.midiStepController.hasPendingChange = false) := by
  refine ⟨?_, ?_, fun e => handle_inRange env cl cl.midiStepController e, ?_, ?_⟩
  · by_cases h1 : cl.chaserID = fid
    · simp [VCCueList.setChaserID, h1]
    · cases h2 : env.function fid <;> simp [VCCueList.setChaserID, h1, h2]
  · unfold VCCueList.slotFunctionRemoved
    split <;> rfl
  · intro hch e
    exact stepIndices_of_detached env cl _ (handle_inRange env cl cl.midiStepController e) hch
  · intro hch hen d hd hle
    have hinv : ∀ i, isValidStep (some cl) env i = false := by
      intro i
      cases hv : isValidStep (some cl) env i with
      | false => rfl
      | true =>
        obtain ⟨ch, h1, _⟩ := (isValidStep_iff cl env i).1 hv
        rw [hch] at h1
        cases h1
    simp only [VCCueList.decoderEvent]
    rw [handle_changeTimerTimeout_due env (some cl) _ d hd hle]
    rcases Bool.eq_false_or_eq_true cl.midiStepController.hasPendingChange with hp | hp
    · rw [executeStepChange_invalid env cl
        { cl.midiStepController with changeTimer := cl.midiStepController.changeTimer.stop }
        hen hp (hinv _)]
    · rw [executeStepChange_skip env cl
        { cl.midiStepController with changeTimer := cl.midiStepController.changeTimer.stop }
        (Or.inr hp)]
      exact hp

/-- Witness of C10: the sequence is removed while a step is queued; the timer
expiry at 100 ms then forwards nothing and clears the queue. -/
theorem detach_keeps_decoder_state_witness :
    cueRemoved.midiStepController.hasPendingChange = true ∧
      stepIndices (cueRemoved.decoderEvent { now := 100, doc := [{ id := 2, stepsCount := 8 }] }
        MidiEvent.changeTimerTimeout).2 = [] ∧
      (cueRemoved.decoderEvent { now := 100, doc := [{ id := 2, stepsCount := 8 }] }
        MidiEvent.changeTimerTimeout).1.midiStepController.hasPendingChange = false :=
  have h := detach_keeps_decoder_state { now := 100, doc := [{ id := 2, stepsCount := 8 }] }
    cueRemoved 1
  ⟨by decide, h.2.2.2.1 (by decide) MidiEvent.changeTimerTimeout,
    h.2.2.2.2 (by decide) (by decide) 100 (by decide) (by decide)⟩

/-! ## Steps mode of the side fader -/

theorem exactArith_sound : exactArith.Sound :=
  ⟨fun _ _ h => h, fun _ _ => rfl, fun _ _ h => h, fun _ _ => rfl⟩

theorem representable_dyadic (p : Nat) (emin emax : Int) (k : Int) (j : Nat)
    (hlo : emin ≤ -(j : Int)) (hhi : 0 ≤ emax) (hk : |k| < 2 ^ p) :
    Representable p emin emax ((k : ℚ) / 2 ^ j) := by
  refine ⟨k, -(j : Int), hk, hlo, by omega, ?_⟩
  rw [zpow_neg, zpow_natCast, div_eq_mul_inv]

theorem representable_int (p : Nat) (emin emax : Int) (k : Int) (hlo : emin ≤ 0)
    (hhi : 0 ≤ emax) (hk : |k| < 2 ^ p) : Representable p emin emax (k : ℚ) := by
  have h := representable_dyadic p emin emax k 0 (by simpa using hlo) hhi hk
  simpa using h

/-- Bounds on the rounded step size `s = toFloat (255 / n)` through a number
`a` of the `float` format below `255 / n`. -/
theorem stepSize_bounds (ar : FloatArith) (hs : ar.Sound) (n : Nat) (hn1 : 1 ≤ n)
    (hn : n ≤ 255) :
    ∃ a : ℚ, 0 < a ∧ a ≤ ar.toFloat (255 / (n : ℚ)) ∧
      ar.toFloat (255 - ar.toFloat (255 / (n : ℚ))) ≤ 255 - a ∧
      255 ≤ ((n : ℚ) + 1 / 2) * a := by
  have hK1 : 65536 ≤ (255 * 65536) / n := by
    rw [Nat.le_div_iff_mul_le (by omega)]
    have : 65536 * n ≤ 65536 * 255 := Nat.mul_le_mul_left _ hn
    omega
  have hK2 : (255 * 65536) / n ≤ 255 * 65536 := Nat.div_le_self _ _
  have hK3 : (255 * 65536) / n * n ≤ 255 * 65536 := Nat.div_mul_le_self _ _
  have hK4 : 255 * 65536 < ((255 * 65536) / n + 1) * n := by
    have := Nat.lt_succ_self ((255 * 65536) / n)
    exact (Nat.div_lt_iff_lt_mul (by omega)).1 this
  generalize (255 * 65536) / n = K at hK1 hK2 hK3 hK4
  have hnq : (0 : ℚ) < (n : ℚ) := by exact_mod_cast hn1
  have hKq1 : (65536 : ℚ) ≤ (K : ℚ) := by exact_mod_cast hK1
  have hKq2 : (K : ℚ) ≤ 255 * 65536 := by exact_mod_cast hK2
  have hKq3 : (K : ℚ) * (n : ℚ) ≤ 255 * 65536 := by exact_mod_cast hK3
  have hKq4 : (255 * 65536 : ℚ) < ((K : ℚ) + 1) * (n : ℚ) := by exact_mod_cast hK4
  have hnq2 : (n : ℚ) ≤ 255 := by exact_mod_cast hn
  have hrepA : Representable 24 (-149) 104 ((K : ℚ) / 65536) := by
    have h := representable_dyadic 24 (-149) 104 (K : Int) 16 (by norm_num) (by norm_num) (by
      rw [abs_of_nonneg (by omega)]
      norm_num
      omega)
    norm_num at h
    exact h
  have hrepB : Representable 24 (-149) 104 (255 - (K : ℚ) / 65536) := by
    have h := representable_dyadic 24 (-149) 104 (255 * 65536 - (K : Int)) 16 (by norm_num) (by norm_num) (by
      rw [abs_of_nonneg (by omega)]
      norm_num
      omega)
    have e : (((255 * 65536 - (K : Int) : Int) : ℚ)) / 2 ^ 16 = 255 - (K : ℚ) / 65536 := by
      push_cast
      norm_num
      ring
    rw [e] at h
    exact h
  refine ⟨(K : ℚ) / 65536, by positivity, ?_, ?_, ?_⟩
  · have hle : (K : ℚ) / 65536 ≤ 255 / (n : ℚ) := by
      rw [div_le_div_iff₀ (by norm_num) hnq]
      linarith
    have h := hs.float_mono _ _ hle
    rw [hs.float_exact _ hrepA] at h
    exact h
  · have hle : (K : ℚ) / 65536 ≤ ar.toFloat (255 / (n : ℚ)) := by
      have hle : (K : ℚ) / 65536 ≤ 255 / (n : ℚ) := by
        rw [div_le_div_iff₀ (by norm_num) hnq]
        linarith
      have h := hs.float_mono _ _ hle
      rw [hs.float_exact _ hrepA] at h
      exact h
    have h := hs.float_mono (255 - ar.toFloat (255 / (n : ℚ))) (255 - (K : ℚ) / 65536)
      (by linarith)
    rw [hs.float_exact _ hrepB] at h
    exact h
  · have h1 : (255 * 65536 : ℚ) * 2 ≤ (2 * (n : ℚ) + 1) * (K : ℚ) := by nlinarith
    have h2 : ((n : ℚ) + 1 / 2) * ((K : ℚ) / 65536) = (2 * (n : ℚ) + 1) * (K : ℚ) / 131072 := by
      ring
    rw [h2, le_div_iff₀ (by norm_num)]
    linarith

theorem toFloat_level (ar : FloatArith) (hs : ar.Sound) (l : Int) (h0 : 0 ≤ l)
    (h255 : l ≤ 255) : ar.toFloat (l : ℚ) = (l : ℚ) := by
  apply hs.float_exact
  apply representable_int 24 (-149) 104 l (by norm_num) (by norm_num)
  rw [abs_of_nonneg h0]
  norm_num
  omega

/-- The quotient branch of the Steps-mode target stays inside the steps. -/
theorem stepsTarget_quotient_range (ar : FloatArith) (hs : ar.Sound) (n : Nat)
    (hn1 : 1 ≤ n) (hn : n ≤ 255) (l : Int) (h0 : 0 ≤ l) (h255 : l ≤ 255)
    (hlt : ¬ ar.toFloat (255 - ar.toFloat (255 / (n : ℚ))) ≤ ar.toFloat (l : ℚ)) :
    0 ≤ ⌊ar.toDouble ((l : ℚ) / ar.toFloat (255 / (n : ℚ)))⌋ ∧
      ⌊ar.toDouble ((l : ℚ) / ar.toFloat (255 / (n : ℚ)))⌋ ≤ (n : Int) - 1 := by
  obtain ⟨a, ha0, has, hthr, hkey⟩ := stepSize_bounds ar hs n hn1 hn
  rw [toFloat_level ar hs l h0 h255] at hlt
  have hl0 : (0 : ℚ) ≤ (l : ℚ) := by exact_mod_cast h0
  have hspos : 0 < ar.toFloat (255 / (n : ℚ)) := lt_of_lt_of_le ha0 has
  have hnq : (1 : ℚ) ≤ (n : ℚ) := by exact_mod_cast hn1
  have hl : (l : ℚ) < 255 - a := lt_of_lt_of_le (not_le.1 hlt) hthr
  constructor
  · apply Int.floor_nonneg.2
    have h := hs.double_mono 0 _ (div_nonneg hl0 hspos.le)
    rw [hs.double_exact 0 ⟨0, 0, by norm_num, by norm_num, by norm_num, by norm_num⟩] at h
    exact h
  · have hq : (l : ℚ) / ar.toFloat (255 / (n : ℚ)) ≤ (n : ℚ) - 1 / 2 := by
      rw [div_le_iff₀ hspos]
      have h1 : (l : ℚ) ≤ ((n : ℚ) - 1 / 2) * a := by nlinarith
      have h2 : ((n : ℚ) - 1 / 2) * a ≤ ((n : ℚ) - 1 / 2) * ar.toFloat (255 / (n : ℚ)) :=
        mul_le_mul_of_nonneg_left has (by linarith)
      linarith
    have hrep : Representable 53 (-1074) 971 ((n : ℚ) - 1 / 2) := by
      have h := representable_dyadic 53 (-1074) 971 (2 * (n : Int) - 1) 1 (by norm_num) (by norm_num) (by
        rw [abs_of_nonneg (by omega)]
        norm_num
        omega)
      have e : (((2 * (n : Int) - 1 : Int) : ℚ)) / 2 ^ 1 = (n : ℚ) - 1 / 2 := by
        push_cast
        ring
      rw [e] at h
      exact h
    have h := hs.double_mono _ _ hq
    rw [hs.double_exact _ hrep] at h
    have hlt2 : ⌊ar.toDouble ((l : ℚ) / ar.toFloat (255 / (n : ℚ)))⌋ < (n : Int) := by
      rw [Int.floor_lt]
      have : ((n : ℚ) - 1 / 2) < ((n : Int) : ℚ) := by
        push_cast
        linarith
      exact lt_of_le_of_lt h this
    omega

theorem stepsTarget_small (ar : FloatArith) (n : Nat) (hn1 : 1 ≤ n) (hn : n ≤ 255)
    (l : Int) :
    stepsTarget ar n l =
      if ar.toFloat (255 - ar.toFloat (255 / (n : ℚ))) ≤ ar.toFloat (l : ℚ) then (n : Int) - 1
      else ⌊ar.toDouble ((l : ℚ) / ar.toFloat (255 / (n : ℚ)))⌋ := by
  have h1 : n < 256 := by omega
  have h2 : n ≠ 0 := by omega
  simp only [stepsTarget, h1, h2, if_true, if_false]

theorem stepsTarget_large (ar : FloatArith) (n : Nat) (hn : 256 ≤ n) (l : Int) :
    stepsTarget ar n l = l := by
  have h1 : ¬ n < 256 := by omega
  simp only [stepsTarget, h1, if_false]

/-- The Steps-mode target of a level in 0..255 is a step of the sequence. -/
theorem stepsTarget_range (ar : FloatArith) (hs : ar.Sound) (n : Nat) (hn1 : 1 ≤ n)
    (l : Int) (h0 : 0 ≤ l) (h255 : l ≤ 255) :
    0 ≤ stepsTarget ar n l ∧ stepsTarget ar n l ≤ (n : Int) - 1 := by
  by_cases hn : n ≤ 255
  · rw [stepsTarget_small ar n hn1 hn l]
    by_cases hc : ar.toFloat (255 - ar.toFloat (255 / (n : ℚ))) ≤ ar.toFloat (l : ℚ)
    · simp only [hc, if_true]
      omega
    · simp only [hc, if_false]
      exact stepsTarget_quotient_range ar hs n hn1 hn l h0 h255 hc
  · rw [stepsTarget_large ar n (by omega) l]
    omega

/-- The Steps-mode target does not decrease when the inverted level grows. -/
theorem stepsTarget_mono (ar : FloatArith) (hs : ar.Sound) (n : Nat) (hn1 : 1 ≤ n)
    (l1 l2 : Int) (h0 : 0 ≤ l1) (h12 : l1 ≤ l2) (h255 : l2 ≤ 255) :
    stepsTarget ar n l1 ≤ stepsTarget ar n l2 := by
  by_cases hn : n ≤ 255
  · by_cases hc2 : ar.toFloat (255 - ar.toFloat (255 / (n : ℚ))) ≤ ar.toFloat (l2 : ℚ)
    · have h1 := (stepsTarget_range ar hs n hn1 l1 h0 (by omega)).2
      rw [stepsTarget_small ar n hn1 hn l2]
      simp only [hc2, if_true]
      exact h1
    · have hl : (l1 : ℚ) ≤ (l2 : ℚ) := by exact_mod_cast h12
      have hc1 : ¬ ar.toFloat (255 - ar.toFloat (255 / (n : ℚ))) ≤ ar.toFloat (l1 : ℚ) :=
        fun h => hc2 (le_trans h (hs.float_mono _ _ hl))
      obtain ⟨a, ha0, has, _, _⟩ := stepSize_bounds ar hs n hn1 hn
      rw [stepsTarget_small ar n hn1 hn l1, stepsTarget_small ar n hn1 hn l2]
      simp only [hc1, hc2, if_false]
      apply Int.floor_mono
      apply hs.double_mono
      exact div_le_div_of_nonneg_right hl (le_of_lt (lt_of_lt_of_le ha0 has))
  · rw [stepsTarget_large ar n (by omega) l1, stepsTarget_large ar n (by omega) l2]
    exact h12

theorem stepsTargetExact_eq (n : Nat) (hn1 : 1 ≤ n) (l : Int) :
    stepsTargetExact n l = stepsTarget exactArith n l := by
  have h2 : n ≠ 0 := by omega
  simp only [stepsTargetExact, stepsTarget, exactArith, h2, if_false]

/-- With four steps the Steps-mode target is 3 from the inverted level 192 on
and `4 * level / 255` (integer division) below it, whatever the rounding. -/
theorem stepsTarget_four (ar : FloatArith) (hs : ar.Sound) (l : Int) (h0 : 0 ≤ l)
    (h255 : l ≤ 255) :
    stepsTarget ar 4 l = if 192 ≤ l then 3 else 4 * l / 255 := by
  have hstep : ar.toFloat (255 / ((4 : Nat) : ℚ)) = 255 / 4 := by
    have h := hs.float_exact _ (representable_dyadic 24 (-149) 104 255 2 (by norm_num) (by norm_num) (by norm_num))
    norm_num at h ⊢
    exact h
  have hthr : ar.toFloat (255 - 255 / 4) = 765 / 4 := by
    have h := hs.float_exact _ (representable_dyadic 24 (-149) 104 765 2 (by norm_num) (by norm_num) (by norm_num))
    norm_num at h ⊢
    exact h
  rw [stepsTarget_small ar 4 (by norm_num) (by norm_num) l, hstep, hthr,
    toFloat_level ar hs l h0 h255]
  by_cases hl : 192 ≤ l
  · have hq : (765 / 4 : ℚ) ≤ (l : ℚ) := by
      have : (192 : ℚ) ≤ (l : ℚ) := by exact_mod_cast hl
      linarith
    simp only [hq, hl, if_true]
    norm_num
  · have hl2 : l ≤ 191 := by omega
    have hq : ¬ (765 / 4 : ℚ) ≤ (l : ℚ) := by
      have : (l : ℚ) ≤ 191 := by exact_mod_cast hl2
      intro h
      linarith
    simp only [hq, hl, if_false]
    rw [Int.floor_eq_iff]
    have hk0 : 0 ≤ 4 * l / 255 := by omega
    have hk2 : 4 * l / 255 ≤ 2 := by omega
    have hlow : 255 * (4 * l / 255) ≤ 4 * l := by omega
    have hup : 4 * l * 256 ≤ 255 * (256 * (4 * l / 255) + 255) := by omega
    have hlowq : ((4 * l / 255 : Int) : ℚ) ≤ (l : ℚ) / (255 / 4) := by
      rw [le_div_iff₀ (by norm_num)]
      have : ((255 * (4 * l / 255) : Int) : ℚ) ≤ ((4 * l : Int) : ℚ) := by exact_mod_cast hlow
      push_cast at this
      linarith
    have hupq : (l : ℚ) / (255 / 4) ≤ ((4 * l / 255 : Int) : ℚ) + 255 / 256 := by
      rw [div_le_iff₀ (by norm_num)]
      have : ((4 * l * 256 : Int) : ℚ) ≤ ((255 * (256 * (4 * l / 255) + 255) : Int) : ℚ) := by
        exact_mod_cast hup
      push_cast at this
      linarith
    have hrepLow : Representable 53 (-1074) 971 ((4 * l / 255 : Int) : ℚ) :=
      representable_int 53 (-1074) 971 _ (by norm_num) (by norm_num) (by
        rw [abs_of_nonneg hk0]
        norm_num
        omega)
    have hrepUp : Representable 53 (-1074) 971 (((4 * l / 255 : Int) : ℚ) + 255 / 256) := by
      have h := representable_dyadic 53 (-1074) 971 (256 * (4 * l / 255) + 255) 8 (by norm_num) (by norm_num) (by
        rw [abs_of_nonneg (by omega)]
        norm_num
        omega)
      have e : (((256 * (4 * l / 255) + 255 : Int) : ℚ)) / 2 ^ 8 =
          ((4 * l / 255 : Int) : ℚ) + 255 / 256 := by
        push_cast
        ring
      rw [e] at h
      exact h
    constructor
    · have h := hs.double_mono _ _ hlowq
      rw [hs.double_exact _ hrepLow] at h
      exact h
    · have h := hs.double_mono _ _ hupq
      rw [hs.double_exact _ hrepUp] at h
      linarith

/-! ## Unfolding lemmas for the side fader -/

theorem setSideFaderLevel_same (cl : VCCueList) (env : Env) :
    cl.setSideFaderLevel env cl.sideFaderLevel = (cl, []) := by
  simp [VCCueList.setSideFaderLevel]

theorem setSideFaderLevel_steps (cl : VCCueList) (env : Env) (ch : DocFunction) (level : Int)
    (hmode : cl.slidersMode = FaderMode.Steps) (hch : cl.chaser env = some ch)
    (hrun : ch.stopped = false) (hnew : level ≠ cl.sideFaderLevel) :
    cl.setSideFaderLevel env level =
      ({ cl with sideFaderLevel := level },
       if stepsTarget env.arith ch.stepsCount (255 - level) = ch.currentStepIndex then
         [ Command.setAction ch.id
             { action := ChaserActionType.ChaserSetStepIndex
               stepIndex := some (stepsTarget env.arith ch.stepsCount (255 - level)) } ]
       else
         [ Command.setAction ch.id
             { action := ChaserActionType.ChaserSetStepIndex
               stepIndex := some (stepsTarget env.arith ch.stepsCount (255 - level)) },
           Command.sendFeedback level INPUT_SIDE_FADER_ID ]) := by
  obtain ⟨npb, pl, mode, lev, nsi, pt, cid, pi, lct, inten, midi⟩ := cl
  simp only at hmode hnew
  subst hmode
  have hch1 : VCCueList.chaser
      ⟨npb, pl, FaderMode.Steps, level, nsi, pt, cid, pi, lct, inten, midi⟩ env = some ch := hch
  simp only [VCCueList.setSideFaderLevel, hnew, if_false, VCCueList.sideFaderMode,
    if_true, hch1, hrun, Bool.false_eq_true]
  split <;> rfl

theorem stopStepIfNeeded_frame (cl : VCCueList) (ch : DocFunction) :
    (cl.stopStepIfNeeded ch).1.sideFaderLevel = cl.sideFaderLevel ∧
      (cl.stopStepIfNeeded ch).1.playbackIndex = cl.playbackIndex ∧
      (cl.stopStepIfNeeded ch).1.nextStepIndex = cl.nextStepIndex ∧
      (cl.stopStepIfNeeded ch).1.slidersMode = cl.slidersMode ∧
      (cl.stopStepIfNeeded ch).1.chaserID = cl.chaserID := by
  unfold VCCueList.stopStepIfNeeded
  dsimp only
  split_ifs <;> exact ⟨rfl, rfl, rfl, rfl, rfl⟩

theorem setSideFaderLevel_blend (cl : VCCueList) (env : Env) (ch : DocFunction) (level : Int)
    (hmode : cl.slidersMode ≠ FaderMode.Steps) (hch : cl.chaser env = some ch)
    (hrun : ch.stopped = false) (hnew : level ≠ cl.sideFaderLevel) :
    cl.setSideFaderLevel env level =
      ((({ cl with sideFaderLevel := level } : VCCueList).stopStepIfNeeded ch).1,
       [ Command.adjustStepIntensity ch.id ((level : ℚ) / 100)
           (if cl.primaryTop then cl.playbackIndex else cl.nextStepIndex)
           ({ cl with sideFaderLevel := level } : VCCueList).getFadeMode,
         Command.adjustStepIntensity ch.id (((100 - level : Int) : ℚ) / 100)
           (if cl.primaryTop then cl.nextStepIndex else cl.playbackIndex)
           ({ cl with sideFaderLevel := level } : VCCueList).getFadeMode ] ++
         (({ cl with sideFaderLevel := level } : VCCueList).stopStepIfNeeded ch).2 ++
         [Command.sendFeedback level INPUT_SIDE_FADER_ID]) := by
  obtain ⟨npb, pl, mode, lev, nsi, pt, cid, pi, lct, inten, midi⟩ := cl
  simp only at hmode hnew
  have hch1 : VCCueList.chaser
      ⟨npb, pl, mode, level, nsi, pt, cid, pi, lct, inten, midi⟩ env = some ch := hch
  have hlev := (stopStepIfNeeded_frame
    ⟨npb, pl, mode, level, nsi, pt, cid, pi, lct, inten, midi⟩ ch).1
  simp only [VCCueList.setSideFaderLevel, hnew, if_false, VCCueList.sideFaderMode, hmode,
    hch1, hrun, Bool.false_eq_true, hlev]

theorem setSideFaderLevel_detached (cl : VCCueList) (env : Env) (level : Int)
    (hch : cl.chaser env = none) (hnew : level ≠ cl.sideFaderLevel) :
    cl.setSideFaderLevel env level =
      ({ cl with sideFaderLevel := level },
       if cl.slidersMode = FaderMode.Steps then []
       else [Command.sendFeedback level INPUT_SIDE_FADER_ID]) := by
  obtain ⟨npb, pl, mode, lev, nsi, pt, cid, pi, lct, inten, midi⟩ := cl
  simp only at hnew
  have hch1 : VCCueList.chaser
      ⟨npb, pl, mode, level, nsi, pt, cid, pi, lct, inten, midi⟩ env = none := hch
  by_cases hmode : mode = FaderMode.Steps
  · subst hmode
    simp only [VCCueList.setSideFaderLevel, hnew, if_false, VCCueList.sideFaderMode,
      if_true, hch1]
  · simp only [VCCueList.setSideFaderLevel, hnew, if_false, VCCueList.sideFaderMode, hmode,
      hch1]

/-! ## Configuration bounds of the decoder -/

theorem handleFirstNote_config (env : Env) (cueList : Option VCCueList)
    (m : MidiStepController) (v : Nat) :
    (handleFirstNote env cueList m v).1.timeout = m.timeout ∧
      (handleFirstNote env cueList m v).1.debounceInterval = m.debounceInterval := by
  cases cueList with
  | none => exact ⟨rfl, rfl⟩
  | some cl =>
    by_cases h1 : m.enabled = false
    · simp [handleFirstNote, h1]
    · by_cases h2 : m.twoNoteMode = true
      · simp [handleFirstNote, h1, h2]
      · by_cases h3 : v = 0
        · simp [handleFirstNote, h1, h2, h3]
        · have h := queueStepChange_frame env (some cl) m ((v : Int) - 1)
          have ht := h.2.2.1
          have hd := h.2.2.2.1
          constructor
          · simpa [handleFirstNote, h1, h2, h3] using ht
          · simpa [handleFirstNote, h1, h2, h3] using hd

theorem handleSecondNote_config (env : Env) (cueList : Option VCCueList)
    (m : MidiStepController) (v : Nat) :
    (handleSecondNote env cueList m v).1.timeout = m.timeout ∧
      (handleSecondNote env cueList m v).1.debounceInterval = m.debounceInterval := by
  cases cueList with
  | none => exact ⟨rfl, rfl⟩
  | some cl =>
    by_cases h1 : m.enabled = false ∨ m.twoNoteMode = false ∨ m.waitingForSecondNote = false
    · simp [handleSecondNote, h1]
    · by_cases h2 : (if m.firstNoteValue * 128 + (v : Int) = 0 then (-1 : Int)
          else m.firstNoteValue * 128 + (v : Int) - 1) < 0
      · simp only [handleSecondNote, h1, h2, if_true, if_false, and_self]
      · simp only [handleSecondNote, h1, h2, if_false]
        have h := queueStepChange_frame env (some cl)
          { m with
            twoNoteTimer := m.twoNoteTimer.stop
            waitingForSecondNote := false
            firstNoteValue := -1 }
          (if m.firstNoteValue * 128 + (v : Int) = 0 then (-1 : Int)
            else m.firstNoteValue * 128 + (v : Int) - 1)
        exact ⟨h.2.2.1, h.2.2.2.1⟩

theorem handleTwoNoteTimeout_config (env : Env) (cueList : Option VCCueList)
    (m : MidiStepController) :
    (handleTwoNoteTimeout env cueList m).1.timeout = m.timeout ∧
      (handleTwoNoteTimeout env cueList m).1.debounceInterval = m.debounceInterval := by
  by_cases h1 : m.waitingForSecondNote = false
  · simp [handleTwoNoteTimeout, h1]
  · by_cases h2 : m.firstNoteValue = 0
    · simp [handleTwoNoteTimeout, h1, h2]
    · simp only [handleTwoNoteTimeout, h1, h2, if_false]
      have h := queueStepChange_frame env cueList
        { m with waitingForSecondNote := false, firstNoteValue := -1 } (m.firstNoteValue - 1)
      exact ⟨h.2.2.1, h.2.2.2.1⟩

theorem setTimeout_value (m : MidiStepController) (now t : Int) :
    (m.setTimeout now t).timeout = max 100 t ∧
      (m.setTimeout now t).debounceInterval = m.debounceInterval :=
  ⟨rfl, rfl⟩

theorem qBound_eq (i : Int) :
    qBound MIN_DEBOUNCE_INTERVAL_MS i MAX_DEBOUNCE_INTERVAL_MS = min 1000 (max 10 i) := by
  simp only [qBound, MIN_DEBOUNCE_INTERVAL_MS, MAX_DEBOUNCE_INTERVAL_MS]
  omega

theorem setDebounceInterval_value (m : MidiStepController) (now i : Int) :
    (m.setDebounceInterval now i).debounceInterval = min 1000 (max 10 i) ∧
      (m.setDebounceInterval now i).timeout = m.timeout :=
  ⟨qBound_eq i, rfl⟩

/-- The configuration bounds are kept by every event. -/
theorem handle_bounds (env : Env) (cueList : Option VCCueList) (m : MidiStepController)
    (e : MidiEvent)
    (h : 100 ≤ m.timeout ∧ 10 ≤ m.debounceInterval ∧ m.debounceInterval ≤ 1000) :
    100 ≤ (m.handle env cueList e).1.timeout ∧
      10 ≤ (m.handle env cueList e).1.debounceInterval ∧
      (m.handle env cueList e).1.debounceInterval ≤ 1000 := by
  have keep : ∀ s : MidiStepController, s.timeout = m.timeout →
      s.debounceInterval = m.debounceInterval →
      100 ≤ s.timeout ∧ 10 ≤ s.debounceInterval ∧ s.debounceInterval ≤ 1000 := by
    intro s h1 h2
    rw [h1, h2]
    exact h
  cases e with
  | setEnabled b =>
    apply keep
    · simp only [MidiStepController.handle, MidiStepController.setEnabled]
      split
      · rfl
      · split <;> rfl
    · simp only [MidiStepController.handle, MidiStepController.setEnabled]
      split
      · rfl
      · split <;> rfl
  | setTwoNoteMode b =>
    apply keep
    · simp only [MidiStepController.handle, MidiStepController.setTwoNoteMode]
      split <;> rfl
    · simp only [MidiStepController.handle, MidiStepController.setTwoNoteMode]
      split <;> rfl
  | setTimeout t =>
    obtain ⟨h1, h2⟩ := setTimeout_value m env.now t
    simp only [MidiStepController.handle]
    rw [h1, h2]
    exact ⟨le_max_left _ _, h.2⟩
  | setDebounceInterval i =>
    obtain ⟨h1, h2⟩ := setDebounceInterval_value m env.now i
    simp only [MidiStepController.handle]
    rw [h1, h2]
    refine ⟨h.1, ?_, ?_⟩ <;> omega
  | firstNote v =>
    obtain ⟨h1, h2⟩ := handleFirstNote_config env cueList m v
    exact keep _ h1 h2
  | secondNote v =>
    obtain ⟨h1, h2⟩ := handleSecondNote_config env cueList m v
    exact keep _ h1 h2
  | changeTimerTimeout =>
    cases hd : m.changeTimer.deadline with
    | none =>
      rw [handle_changeTimer_inactive env cueList m hd]
      exact h
    | some d =>
      by_cases hle : d ≤ env.now
      · rw [handle_changeTimerTimeout_due env cueList m d hd hle]
        have hf := executeStepChange_frame env cueList
          { m with changeTimer := m.changeTimer.stop }
        exact keep _ hf.2.2.1 hf.2.2.2.1
      · simp only [MidiStepController.handle, hd, hle, if_false]
        exact h
  | twoNoteTimerTimeout =>
    cases hd : m.twoNoteTimer.deadline with
    | none =>
      rw [handle_twoNoteTimer_inactive env cueList m hd]
      exact h
    | some d =>
      by_cases hle : d ≤ env.now
      · simp only [MidiStepController.handle, hd, hle, if_true]
        obtain ⟨h1, h2⟩ := handleTwoNoteTimeout_config env cueList
          { m with twoNoteTimer := m.twoNoteTimer.stop }
        exact keep _ h1 h2
      · simp only [MidiStepController.handle, hd, hle, if_false]
        exact h

theorem reachable_bounds (m : MidiStepController) (hr : Reachable m) :
    100 ≤ m.timeout ∧ 10 ≤ m.debounceInterval ∧ m.debounceInterval ≤ 1000 := by
  induction hr with
  | init => decide
  | step m env cueList e _ ih => exact handle_bounds env cueList m e ih

/-- C11: for every integer `t`, `setTimeout t` stores `max 100 t`; for every
integer `i`, `setDebounceInterval i` stores `min 1000 (max 10 i)`; in every
decoder state reachable from the constructor (defaults 500 and 100) the
timeout is at least 100 and the debounce interval lies in `[10, 1000]`. -/
theorem configuration_clamping :
    (∀ (m : MidiStepController) (now t : Int), (m.setTimeout now t).timeout = max 100 t) ∧
    (∀ (m : MidiStepController) (now i : Int),
      (m.setDebounceInterval now i).debounceInterval = min 1000 (max 10 i)) ∧
    MidiStepController.init.timeout = 500 ∧ MidiStepController.init.debounceInterval = 100 ∧
    (∀ m : MidiStepController, Reachable m →
      100 ≤ m.timeout ∧ 10 ≤ m.debounceInterval ∧ m.debounceInterval ≤ 1000) :=
  ⟨fun m now t => (setTimeout_value m now t).1,
    fun m now i => (setDebounceInterval_value m now i).1, rfl, rfl, reachable_bounds⟩


/-! ## Concrete cue lists -/

theorem cueSteps_eq :
    cueSteps = { cueOne with slidersMode := FaderMode.Steps, sideFaderLevel := 255 } := by
  decide

theorem cueStepsOff_eq : cueStepsOff = { cueOne with sideFaderLevel := 255 } := by
  decide

theorem cuePlaying_eq :
    cuePlaying = { cueOne with playbackIndex := 0, nextStepIndex := 1, lastChangeTime := some 0 } := by
  decide

theorem cueCrossfade_eq :
    cueCrossfade = { cuePlaying with slidersMode := FaderMode.Crossfade } := by
  decide

theorem chaser_fourRunning (cl : VCCueList) (h : cl.chaserID = 1) :
    cl.chaser envFourRunning = some fourRunning := by
  simp [VCCueList.chaser, h, invalidId, Env.function, envFourRunning, docFourRunning,
    fourRunning]

/-- C11 witness: a timeout of 50 ms is stored as 100 ms, and the decoder at the
end of `busyRun` is within the bounds. -/
theorem configuration_clamping_witness :
    (midiOn.setTimeout 0 50).timeout = max 100 50 ∧
      (100 ≤ midiBusy.timeout ∧ 10 ≤ midiBusy.debounceInterval ∧
        midiBusy.debounceInterval ≤ 1000) :=
  ⟨configuration_clamping.1 midiOn 0 50,
    configuration_clamping.2.2.2.2 midiBusy (reachable_run busyRun _ Reachable.init)⟩

/-! ## Steps mode: target range, monotonicity, top index -/

theorem stepIndices_steps (fid : Nat) (i v : Int) (id : Nat) :
    stepIndices [ Command.setAction fid
        { action := ChaserActionType.ChaserSetStepIndex, stepIndex := some i } ] = [i] ∧
      stepIndices [ Command.setAction fid
        { action := ChaserActionType.ChaserSetStepIndex, stepIndex := some i },
        Command.sendFeedback v id ] = [i] := by
  constructor <;> simp [stepIndices, Command.stepIndex?]

/-- C12: in Steps mode with a sequence that is not stopped and has at least one
step, moving the fader to a new level in 0..255 sends exactly one target index,
the one computed from the inverted level `255 - level`; under every sound
rounding it lies in `[0, stepCount - 1]`, and so does the target the
specification words in exact arithmetic, which is the code's target without
rounding. -/
theorem steps_target_range (cl : VCCueList) (env : Env) (ch : DocFunction) (level : Int)
    (hs : env.arith.Sound) (hmode : cl.sideFaderMode = FaderMode.Steps)
    (hch : cl.chaser env = some ch) (hrun : ch.stopped = false) (hn : 1 ≤ ch.stepsCount)
    (h0 : 0 ≤ level) (h255 : level ≤ 255) (hnew : level ≠ cl.sideFaderLevel) :
    stepIndices (cl.setSideFaderLevel env level).2 =
        [stepsTarget env.arith ch.stepsCount (255 - level)] ∧
      0 ≤ stepsTarget env.arith ch.stepsCount (255 - level) ∧
      stepsTarget env.arith ch.stepsCount (255 - level) ≤ (ch.stepsCount : Int) - 1 ∧
      stepsTargetExact ch.stepsCount (255 - level) =
        stepsTarget exactArith ch.stepsCount (255 - level) ∧
      0 ≤ stepsTargetExact ch.stepsCount (255 - level) ∧
      stepsTargetExact ch.stepsCount (255 - level) ≤ (ch.stepsCount : Int) - 1 := by
  have hr := stepsTarget_range env.arith hs ch.stepsCount hn (255 - level) (by omega) (by omega)
  have he := stepsTargetExact_eq ch.stepsCount hn (255 - level)
  have hx := stepsTarget_range exactArith exactArith_sound ch.stepsCount hn (255 - level)
    (by omega) (by omega)
  refine ⟨?_, hr.1, hr.2, he, ?_, ?_⟩
  · rw [setSideFaderLevel_steps cl env ch level hmode hch hrun hnew]
    by_cases hc : stepsTarget env.arith ch.stepsCount (255 - level) = ch.currentStepIndex
    · simp only [hc, if_true]
      exact (stepIndices_steps ch.id _ level INPUT_SIDE_FADER_ID).1
    · simp only [hc, if_false]
      exact (stepIndices_steps ch.id _ level INPUT_SIDE_FADER_ID).2
  · rw [he]
    exact hx.1
  · rw [he]
    exact hx.2

/-- C12 witness: the cue list `cueSteps` (fader at 255) with the running
four-step sequence, fader moved to 100. -/
theorem steps_target_range_witness :
    stepIndices (cueSteps.setSideFaderLevel envFourRunning 100).2 =
        [stepsTarget envFourRunning.arith 4 (255 - 100)] ∧
      0 ≤ stepsTarget envFourRunning.arith 4 (255 - 100) ∧
      stepsTarget envFourRunning.arith 4 (255 - 100) ≤ ((4 : Nat) : Int) - 1 ∧
      stepsTargetExact 4 (255 - 100) = stepsTarget exactArith 4 (255 - 100) ∧
      0 ≤ stepsTargetExact 4 (255 - 100) ∧
      stepsTargetExact 4 (255 - 100) ≤ ((4 : Nat) : Int) - 1 :=
  steps_target_range cueSteps envFourRunning fourRunning 100 exactArith_sound (by decide) (chaser_fourRunning cueSteps (by decide)) rfl (by decide)
    (by decide) (by decide) (by decide)

theorem stepsTarget_four_samples (ar : FloatArith) (hs : ar.Sound) :
    List.map (stepsTarget ar 4) [0, 64, 128, 192, 254] = [0, 1, 2, 3, 3] := by
  simp only [List.map]
  rw [stepsTarget_four ar hs 0 (by norm_num) (by norm_num),
    stepsTarget_four ar hs 64 (by norm_num) (by norm_num),
    stepsTarget_four ar hs 128 (by norm_num) (by norm_num),
    stepsTarget_four ar hs 192 (by norm_num) (by norm_num),
    stepsTarget_four ar hs 254 (by norm_num) (by norm_num)]
  decide

/-- C13: under every sound rounding and for every sequence of at least one
step, the Steps-mode target does not decrease when the inverted level grows
within 0..255; with four steps the inverted levels 0, 64, 128, 192 and 254
select the steps 0, 1, 2, 3 and 3. -/
theorem steps_target_monotone (ar : FloatArith) (hs : ar.Sound) (n : Nat) (hn : 1 ≤ n)
    (l1 l2 : Int) (h0 : 0 ≤ l1) (h12 : l1 ≤ l2) (h255 : l2 ≤ 255) :
    stepsTarget ar n l1 ≤ stepsTarget ar n l2 ∧
      List.map (stepsTarget ar 4) [0, 64, 128, 192, 254] = [0, 1, 2, 3, 3] :=
  ⟨stepsTarget_mono ar hs n hn l1 l2 h0 h12 h255, stepsTarget_four_samples ar hs⟩

/-- C13 witness: four steps in exact arithmetic, inverted levels 64 and 128. -/
theorem steps_target_monotone_witness :
    stepsTarget exactArith 4 64 ≤ stepsTarget exactArith 4 128 ∧
      List.map (stepsTarget exactArith 4) [0, 64, 128, 192, 254] = [0, 1, 2, 3, 3] :=
  steps_target_monotone exactArith exactArith_sound 4 (by decide) 64 128 (by decide) (by decide)
    (by decide)

/-- C14 counterexample: with four steps the inverted levels 192 and 254, both
below the extreme 255, select the top step 3; the cue list `cueSteps` sends
step 3 to the running sequence when its fader moves to 63. -/
theorem top_index_below_extreme :
    stepsTarget exactArith 4 192 = 3 ∧ stepsTarget exactArith 4 254 = 3 ∧
      stepIndices (cueSteps.setSideFaderLevel envFourRunning 63).2 = [3] ∧
      ¬ (∀ l : Int, 0 ≤ l → l ≤ 254 → stepsTarget exactArith 4 l < 3) := by
  have h192 : stepsTarget exactArith 4 192 = 3 := by
    rw [stepsTarget_four exactArith exactArith_sound 192 (by norm_num) (by norm_num)]
    decide
  have h254 : stepsTarget exactArith 4 254 = 3 := by
    rw [stepsTarget_four exactArith exactArith_sound 254 (by norm_num) (by norm_num)]
    decide
  refine ⟨h192, h254, ?_, ?_⟩
  · rw [setSideFaderLevel_steps cueSteps envFourRunning fourRunning 63 (by decide)
      (chaser_fourRunning cueSteps (by decide)) rfl (by decide)]
    have e : stepsTarget envFourRunning.arith fourRunning.stepsCount (255 - 63) = 3 := h192
    rw [e]
    decide
  · intro h
    have := h 192 (by norm_num) (by norm_num)
    rw [h192] at this
    exact absurd this (by decide)

/-- C14: with four steps, under every sound rounding, an inverted level in
0..255 selects the top step 3 exactly when it is at least 192; every inverted
level in 0..191 selects the step `4 * level / 255`, which is below 3. -/
theorem steps_top_index (ar : FloatArith) (hs : ar.Sound) (l : Int) (h0 : 0 ≤ l)
    (h255 : l ≤ 255) :
    (stepsTarget ar 4 l = 3 ↔ 192 ≤ l) ∧
      (l ≤ 191 → stepsTarget ar 4 l = 4 * l / 255 ∧ stepsTarget ar 4 l < 3) := by
  rw [stepsTarget_four ar hs l h0 h255]
  by_cases hl : 192 ≤ l
  · simp only [hl, if_true, true_iff]
    exact ⟨trivial, fun h => by omega⟩
  · simp only [hl, if_false, iff_false]
    refine ⟨by omega, fun _ => ⟨trivial, by omega⟩⟩

/-- C14 witness: exact arithmetic, inverted level 191. -/
theorem steps_top_index_witness :
    (stepsTarget exactArith 4 191 = 3 ↔ (192 : Int) ≤ 191) ∧
      ((191 : Int) ≤ 191 →
        stepsTarget exactArith 4 191 = 4 * 191 / 255 ∧ stepsTarget exactArith 4 191 < 3) :=
  steps_top_index exactArith exactArith_sound 191 (by decide) (by decide)

/-- C15: the cue list `cueSteps` (Steps mode, fader at 255) with the running
four-step sequence at its step 0: moving the fader to 254 computes the target
0, the current step, and the `SetStepIndex` action is sent all the same. -/
theorem steps_equal_target_still_sent :
    cueSteps.sideFaderMode = FaderMode.Steps ∧
      cueSteps.chaser envFourRunning = some fourRunning ∧
      fourRunning.stopped = false ∧
      stepsTarget envFourRunning.arith fourRunning.stepsCount (255 - 254) =
        fourRunning.currentStepIndex ∧
      cueSteps.setSideFaderLevel envFourRunning 254 =
        ({ cueSteps with sideFaderLevel := 254 },
         [ Command.setAction 1
             { action := ChaserActionType.ChaserSetStepIndex, stepIndex := some 0 } ]) := by
  have ht : stepsTarget envFourRunning.arith fourRunning.stepsCount (255 - 254) = 0 := by
    have h := stepsTarget_four exactArith exactArith_sound 1 (by norm_num) (by norm_num)
    have e : (if (192 : Int) ≤ 1 then (3 : Int) else 4 * 1 / 255) = 0 := by decide
    rw [e] at h
    exact h
  refine ⟨by decide, chaser_fourRunning cueSteps (by decide), rfl, ht, ?_⟩
  rw [setSideFaderLevel_steps cueSteps envFourRunning fourRunning 254 (by decide)
    (chaser_fourRunning cueSteps (by decide)) rfl (by decide), ht]
  rfl


/-! ## Crossfade mode: intensities and the auto-stop rule -/

theorem stopStepIfNeeded_other (cl : VCCueList) (ch : DocFunction)
    (h : ch.runningStepsNumber ≠ 2) : cl.stopStepIfNeeded ch = (cl, []) := by
  simp only [VCCueList.stopStepIfNeeded, h, ne_eq, not_false_eq_true, if_true]

theorem stopStepIfNeeded_primary (cl : VCCueList) (ch : DocFunction)
    (h : ch.runningStepsNumber = 2)
    (hp : (if cl.primaryTop then cl.sideFaderLevel else 100 - cl.sideFaderLevel) = 0) :
    cl.stopStepIfNeeded ch =
      ({ cl with primaryTop := !cl.primaryTop },
       [ Command.setAction ch.id
           { action := ChaserActionType.ChaserStopStep, stepIndex := some cl.playbackIndex } ]) := by
  unfold VCCueList.stopStepIfNeeded
  rw [if_neg (by simp [h])]
  dsimp only
  rw [if_pos hp]

theorem stopStepIfNeeded_secondary (cl : VCCueList) (ch : DocFunction)
    (h : ch.runningStepsNumber = 2)
    (hp : (if cl.primaryTop then cl.sideFaderLevel else 100 - cl.sideFaderLevel) ≠ 0)
    (hs : (if cl.primaryTop then 100 - cl.sideFaderLevel else cl.sideFaderLevel) = 0) :
    cl.stopStepIfNeeded ch =
      (cl,
       [ Command.setAction ch.id
           { action := ChaserActionType.ChaserStopStep, stepIndex := some cl.nextStepIndex } ]) := by
  unfold VCCueList.stopStepIfNeeded
  rw [if_neg (by simp [h])]
  dsimp only
  rw [if_neg hp, if_pos hs]

theorem stopStepIfNeeded_between (cl : VCCueList) (ch : DocFunction)
    (hp : (if cl.primaryTop then cl.sideFaderLevel else 100 - cl.sideFaderLevel) ≠ 0)
    (hs : (if cl.primaryTop then 100 - cl.sideFaderLevel else cl.sideFaderLevel) ≠ 0) :
    cl.stopStepIfNeeded ch = (cl, []) := by
  unfold VCCueList.stopStepIfNeeded
  dsimp only
  rw [if_neg hp, if_neg hs]
  split <;> rfl

/-- The commands of the auto-stop are `ChaserAction`s only. -/
theorem stopStepIfNeeded_intensities (cl : VCCueList) (ch : DocFunction) :
    stepIntensities (cl.stopStepIfNeeded ch).2 = [] := by
  unfold VCCueList.stopStepIfNeeded
  dsimp only
  split_ifs <;> rfl

theorem stepIntensities_blend (fid : Nat) (p s : ℚ) (i j : Int) (fm : FadeControlMode)
    (mid : List Command) (hmid : stepIntensities mid = []) (v : Int) (id : Nat) :
    stepIntensities
        ([Command.adjustStepIntensity fid p i fm, Command.adjustStepIntensity fid s j fm] ++
          mid ++ [Command.sendFeedback v id]) = [(i, p), (j, s)] := by
  unfold stepIntensities at hmid ⊢
  rw [List.filterMap_append, List.filterMap_append, hmid]
  rfl

theorem chaserActions_blend (fid : Nat) (p s : ℚ) (i j : Int) (fm : FadeControlMode)
    (mid : List Command) (v : Int) (id : Nat) :
    chaserActions
        ([Command.adjustStepIntensity fid p i fm, Command.adjustStepIntensity fid s j fm] ++
          mid ++ [Command.sendFeedback v id]) = chaserActions mid := by
  unfold chaserActions
  rw [List.filterMap_append, List.filterMap_append]
  simp [Command.action?]

theorem getPrimaryIntensity_congr (a b : VCCueList) (h1 : a.slidersMode = b.slidersMode)
    (h2 : a.primaryTop = b.primaryTop) (h3 : a.sideFaderLevel = b.sideFaderLevel) :
    a.getPrimaryIntensity = b.getPrimaryIntensity := by
  unfold VCCueList.getPrimaryIntensity VCCueList.sideFaderMode
  rw [h1, h2, h3]

theorem getPrimaryIntensity_crossfade (cl : VCCueList)
    (h : cl.slidersMode = FaderMode.Crossfade) :
    cl.getPrimaryIntensity =
      if cl.primaryTop then (cl.sideFaderLevel : ℚ) / 100
      else ((100 - cl.sideFaderLevel : Int) : ℚ) / 100 := by
  unfold VCCueList.getPrimaryIntensity VCCueList.sideFaderMode
  rw [h]
  simp

theorem blend_pairs (b : Bool) (i j : Int) (x y : ℚ) :
    [((if b then i else j), x), ((if b then j else i), y)] =
      if b then [(i, if b then x else y), (j, if b then y else x)]
      else [(j, if b then y else x), (i, if b then x else y)] := by
  cases b <;> simp

/-- C16: in Crossfade mode with a sequence that is not stopped, a new fader
level `L` in 0..100 assigns exactly two step intensities: the primary step
(`playbackIndex`) gets `p = L/100` if `primaryTop` and `(100 - L)/100`
otherwise, the secondary step (`nextStepIndex`) gets the complement `s`; the
two are non-negative and sum to 1 (intensities are exact rationals), and `p` is
the value of `getPrimaryIntensity` at the level `L`, also on the resulting
state whenever the auto-stop did not flip `primaryTop`. -/
theorem crossfade_intensities (cl : VCCueList) (env : Env) (ch : DocFunction) (L : Int)
    (hmode : cl.sideFaderMode = FaderMode.Crossfade) (hch : cl.chaser env = some ch)
    (hrun : ch.stopped = false) (h0 : 0 ≤ L) (h100 : L ≤ 100)
    (hnew : L ≠ cl.sideFaderLevel) :
    ∃ p s : ℚ,
      p = (if cl.primaryTop then (L : ℚ) / 100 else ((100 - L : Int) : ℚ) / 100) ∧
      s = (if cl.primaryTop then ((100 - L : Int) : ℚ) / 100 else (L : ℚ) / 100) ∧
      stepIntensities (cl.setSideFaderLevel env L).2 =
        (if cl.primaryTop then [(cl.playbackIndex, p), (cl.nextStepIndex, s)]
         else [(cl.nextStepIndex, s), (cl.playbackIndex, p)]) ∧
      p + s = 1 ∧ 0 ≤ p ∧ 0 ≤ s ∧
      p = ({ cl with sideFaderLevel := L } : VCCueList).getPrimaryIntensity ∧
      ((cl.setSideFaderLevel env L).1.primaryTop = cl.primaryTop →
        p = (cl.setSideFaderLevel env L).1.getPrimaryIntensity) := by
  have hm : cl.slidersMode = FaderMode.Crossfade := hmode
  have hns : cl.slidersMode ≠ FaderMode.Steps := by rw [hm]; decide
  have hL0 : (0 : ℚ) ≤ (L : ℚ) := by exact_mod_cast h0
  have hL1 : (L : ℚ) ≤ 100 := by exact_mod_cast h100
  have hL2 : (0 : ℚ) ≤ ((100 - L : Int) : ℚ) := by
    push_cast
    linarith
  have hfr := stopStepIfNeeded_frame ({ cl with sideFaderLevel := L } : VCCueList) ch
  have hr := setSideFaderLevel_blend cl env ch L hns hch hrun hnew
  have hr1 : (cl.setSideFaderLevel env L).1 =
      (({ cl with sideFaderLevel := L } : VCCueList).stopStepIfNeeded ch).1 := by rw [hr]
  have hr2 : stepIntensities (cl.setSideFaderLevel env L).2 =
      [((if cl.primaryTop then cl.playbackIndex else cl.nextStepIndex), (L : ℚ) / 100),
       ((if cl.primaryTop then cl.nextStepIndex else cl.playbackIndex),
        ((100 - L : Int) : ℚ) / 100)] := by
    rw [hr]
    exact stepIntensities_blend ch.id _ _ _ _ _ _
      (stopStepIfNeeded_intensities ({ cl with sideFaderLevel := L } : VCCueList) ch) _ _
  have hp : (if cl.primaryTop then (L : ℚ) / 100 else ((100 - L : Int) : ℚ) / 100) =
      ({ cl with sideFaderLevel := L } : VCCueList).getPrimaryIntensity :=
    (getPrimaryIntensity_crossfade ({ cl with sideFaderLevel := L } : VCCueList) hm).symm
  refine ⟨_, _, rfl, rfl, ?_, ?_, ?_, ?_, hp, ?_⟩
  · rw [hr2]
    exact blend_pairs cl.primaryTop cl.playbackIndex cl.nextStepIndex _ _
  · split_ifs <;> push_cast <;> ring
  · split_ifs
    · exact div_nonneg hL0 (by norm_num)
    · exact div_nonneg hL2 (by norm_num)
  · split_ifs
    · exact div_nonneg hL2 (by norm_num)
    · exact div_nonneg hL0 (by norm_num)
  · intro hkeep
    rw [hp, hr1]
    rw [hr1] at hkeep
    exact (getPrimaryIntensity_congr _ _ hfr.2.2.2.1 hkeep hfr.1).symm

/-- C16 witness: the cue list `cueCrossfade` (fader at 100, primary on top)
with the running four-step sequence, fader moved to 30. -/
theorem crossfade_intensities_witness :
    ∃ p s : ℚ,
      p = (if cueCrossfade.primaryTop then ((30 : Int) : ℚ) / 100
        else ((100 - 30 : Int) : ℚ) / 100) ∧
      s = (if cueCrossfade.primaryTop then ((100 - 30 : Int) : ℚ) / 100
        else ((30 : Int) : ℚ) / 100) ∧
      stepIntensities (cueCrossfade.setSideFaderLevel envFourRunning 30).2 =
        (if cueCrossfade.primaryTop then
          [(cueCrossfade.playbackIndex, p), (cueCrossfade.nextStepIndex, s)]
         else [(cueCrossfade.nextStepIndex, s), (cueCrossfade.playbackIndex, p)]) ∧
      p + s = 1 ∧ 0 ≤ p ∧ 0 ≤ s ∧
      p = ({ cueCrossfade with sideFaderLevel := 30 } : VCCueList).getPrimaryIntensity ∧
      ((cueCrossfade.setSideFaderLevel envFourRunning 30).1.primaryTop =
          cueCrossfade.primaryTop →
        p = (cueCrossfade.setSideFaderLevel envFourRunning 30).1.getPrimaryIntensity) :=
  crossfade_intensities cueCrossfade envFourRunning fourRunning 30 (by decide)
    (chaser_fourRunning cueCrossfade (by decide)) rfl (by decide) (by decide) (by decide)

theorem chaserActions_stop (fid : Nat) (i : Int) :
    chaserActions
        [ Command.setAction fid
            { action := ChaserActionType.ChaserStopStep, stepIndex := some i } ] =
      [{ action := ChaserActionType.ChaserStopStep, stepIndex := some i }] := rfl

/-- C17: after a crossfade adjustment at a new level `L` on a sequence that is
not stopped, with `primaryValue = L` if `primaryTop` and `100 - L` otherwise:
with two running steps and `primaryValue = 0` the only action sent is one
`StopStep` for `playbackIndex`, the step just given intensity 0, and
`primaryTop` is negated; with two running steps and `primaryValue = 100` it is
one `StopStep` for `nextStepIndex`, the step just given intensity 0, and
`primaryTop` is kept; otherwise (the running steps are not two, or
`primaryValue` is neither 0 nor 100, as for `0 < L < 100`) no action is sent
and `primaryTop` is kept. `playbackIndex` and `nextStepIndex` never change. -/
theorem auto_stop_rule (cl : VCCueList) (env : Env) (ch : DocFunction) (L : Int)
    (hmode : cl.sideFaderMode = FaderMode.Crossfade) (hch : cl.chaser env = some ch)
    (hrun : ch.stopped = false) (hnew : L ≠ cl.sideFaderLevel) :
    (ch.runningStepsNumber = 2 → (if cl.primaryTop then L else 100 - L) = 0 →
        chaserActions (cl.setSideFaderLevel env L).2 =
          [{ action := ChaserActionType.ChaserStopStep, stepIndex := some cl.playbackIndex }] ∧
        (cl.setSideFaderLevel env L).1.primaryTop = !cl.primaryTop ∧
        (cl.playbackIndex, (0 : ℚ)) ∈ stepIntensities (cl.setSideFaderLevel env L).2) ∧
      (ch.runningStepsNumber = 2 → (if cl.primaryTop then L else 100 - L) = 100 →
        chaserActions (cl.setSideFaderLevel env L).2 =
          [{ action := ChaserActionType.ChaserStopStep, stepIndex := some cl.nextStepIndex }] ∧
        (cl.setSideFaderLevel env L).1.primaryTop = cl.primaryTop ∧
        (cl.nextStepIndex, (0 : ℚ)) ∈ stepIntensities (cl.setSideFaderLevel env L).2) ∧
      (ch.runningStepsNumber ≠ 2 ∨
          ((if cl.primaryTop then L else 100 - L) ≠ 0 ∧
            (if cl.primaryTop then L else 100 - L) ≠ 100) →
        chaserActions (cl.setSideFaderLevel env L).2 = [] ∧
        (cl.setSideFaderLevel env L).1.primaryTop = cl.primaryTop) ∧
      ((0 < L ∧ L < 100) →
        (if cl.primaryTop then L else 100 - L) ≠ 0 ∧
          (if cl.primaryTop then L else 100 - L) ≠ 100) ∧
      (cl.setSideFaderLevel env L).1.playbackIndex = cl.playbackIndex ∧
      (cl.setSideFaderLevel env L).1.nextStepIndex = cl.nextStepIndex := by
  have hm : cl.slidersMode = FaderMode.Crossfade := hmode
  have hns : cl.slidersMode ≠ FaderMode.Steps := by rw [hm]; decide
  have hfr := stopStepIfNeeded_frame ({ cl with sideFaderLevel := L } : VCCueList) ch
  have hr := setSideFaderLevel_blend cl env ch L hns hch hrun hnew
  have hr1 : (cl.setSideFaderLevel env L).1 =
      (({ cl with sideFaderLevel := L } : VCCueList).stopStepIfNeeded ch).1 := by rw [hr]
  have hr2 : chaserActions (cl.setSideFaderLevel env L).2 =
      chaserActions (({ cl with sideFaderLevel := L } : VCCueList).stopStepIfNeeded ch).2 := by
    rw [hr]
    exact chaserActions_blend ch.id _ _ _ _ _ _ _ _
  have hr3 : stepIntensities (cl.setSideFaderLevel env L).2 =
      [((if cl.primaryTop then cl.playbackIndex else cl.nextStepIndex), (L : ℚ) / 100),
       ((if cl.primaryTop then cl.nextStepIndex else cl.playbackIndex),
        ((100 - L : Int) : ℚ) / 100)] := by
    rw [hr]
    exact stepIntensities_blend ch.id _ _ _ _ _ _
      (stopStepIfNeeded_intensities ({ cl with sideFaderLevel := L } : VCCueList) ch) _ _
  refine ⟨?_, ?_, ?_, ?_, ?_, ?_⟩
  · intro h2 hp
    have hs := stopStepIfNeeded_primary ({ cl with sideFaderLevel := L } : VCCueList) ch h2 hp
    refine ⟨?_, ?_, ?_⟩
    · rw [hr2, hs]
      rfl
    · rw [hr1, hs]
    · rw [hr3]
      by_cases hpt : cl.primaryTop = true
      · rw [if_pos hpt] at hp
        rw [if_pos hpt, hp]
        simp
      · rw [if_neg hpt] at hp
        rw [if_neg hpt, if_neg hpt, hp]
        simp
  · intro h2 hp
    have hp0 : (if ({ cl with sideFaderLevel := L } : VCCueList).primaryTop then
        ({ cl with sideFaderLevel := L } : VCCueList).sideFaderLevel
        else 100 - ({ cl with sideFaderLevel := L } : VCCueList).sideFaderLevel) ≠ 0 := by
      dsimp only
      rw [hp]
      decide
    have hs0 : (if ({ cl with sideFaderLevel := L } : VCCueList).primaryTop then
        100 - ({ cl with sideFaderLevel := L } : VCCueList).sideFaderLevel
        else ({ cl with sideFaderLevel := L } : VCCueList).sideFaderLevel) = 0 := by
      dsimp only
      by_cases hpt : cl.primaryTop = true
      · rw [if_pos hpt] at hp
        rw [if_pos hpt, hp]
        rfl
      · rw [if_neg hpt] at hp
        rw [if_neg hpt]
        omega
    have hs := stopStepIfNeeded_secondary ({ cl with sideFaderLevel := L } : VCCueList) ch h2
      hp0 hs0
    refine ⟨?_, ?_, ?_⟩
    · rw [hr2, hs]
      rfl
    · rw [hr1, hs]
    · rw [hr3]
      by_cases hpt : cl.primaryTop = true
      · rw [if_pos hpt] at hp
        rw [if_pos hpt, if_pos hpt, hp]
        simp
      · rw [if_neg hpt] at hp
        have hL : L = 0 := by omega
        rw [if_neg hpt, hL]
        simp
  · intro h
    rcases h with h2 | ⟨hp, hq⟩
    · have hs := stopStepIfNeeded_other ({ cl with sideFaderLevel := L } : VCCueList) ch h2
      refine ⟨?_, ?_⟩
      · rw [hr2, hs]
        rfl
      · rw [hr1, hs]
    · have hs0 : (if ({ cl with sideFaderLevel := L } : VCCueList).primaryTop then
          100 - ({ cl with sideFaderLevel := L } : VCCueList).sideFaderLevel
          else ({ cl with sideFaderLevel := L } : VCCueList).sideFaderLevel) ≠ 0 := by
        dsimp only
        by_cases hpt : cl.primaryTop = true
        · rw [if_pos hpt] at hq
          rw [if_pos hpt]
          omega
        · rw [if_neg hpt] at hq
          rw [if_neg hpt]
          omega
      have hs := stopStepIfNeeded_between ({ cl with sideFaderLevel := L } : VCCueList) ch hp
        hs0
      refine ⟨?_, ?_⟩
      · rw [hr2, hs]
        rfl
      · rw [hr1, hs]
  · intro hL
    split_ifs <;> constructor <;> omega
  · rw [hr1]
    exact hfr.2.1
  · rw [hr1]
    exact hfr.2.2.1

/-- C17 witness: the cue list `cueCrossfade` (fader at 100, primary on top)
with the running four-step sequence, two steps running, fader moved to 0. -/
theorem auto_stop_rule_witness :
    fourRunning.runningStepsNumber = 2 ∧
      (if cueCrossfade.primaryTop then (0 : Int) else 100 - 0) = 0 ∧
      chaserActions (cueCrossfade.setSideFaderLevel envFourRunning 0).2 =
        [{ action := ChaserActionType.ChaserStopStep,
           stepIndex := some cueCrossfade.playbackIndex }] ∧
      (cueCrossfade.setSideFaderLevel envFourRunning 0).1.primaryTop =
        !cueCrossfade.primaryTop ∧
      (cueCrossfade.playbackIndex, (0 : ℚ)) ∈
        stepIntensities (cueCrossfade.setSideFaderLevel envFourRunning 0).2 :=
  ⟨rfl, by decide,
    (auto_stop_rule cueCrossfade envFourRunning fourRunning 0 (by decide)
      (chaser_fourRunning cueCrossfade (by decide)) rfl (by decide)).1 rfl (by decide)⟩

/-! ## None mode, fade-mode selection, populated actions -/

/-- C18: the cue list `cuePlaying` is in fader mode `None` with the fader at
100 and follows the running four-step sequence (two steps running). The fader
input 0, through `slotInputValueChanged` as through `setSideFaderLevel`,
adjusts the intensity of both steps, stops step 0 and flips `primaryTop`. -/
theorem none_mode_fader_acts :
    cuePlaying.sideFaderMode = FaderMode.None ∧
      cuePlaying.slotInputValueChanged envFourRunning INPUT_SIDE_FADER_ID 0 =
        cuePlaying.setSideFaderLevel envFourRunning 0 ∧
      cuePlaying.setSideFaderLevel envFourRunning 0 =
        ({ cuePlaying with sideFaderLevel := 0, primaryTop := false },
         [ Command.adjustStepIntensity 1 0 0 FadeControlMode.Blended,
           Command.adjustStepIntensity 1 1 1 FadeControlMode.Blended,
           Command.setAction 1
             { action := ChaserActionType.ChaserStopStep, stepIndex := some 0 },
           Command.sendFeedback 0 INPUT_SIDE_FADER_ID ]) := by
  refine ⟨by decide, rfl, ?_⟩
  rw [setSideFaderLevel_blend cuePlaying envFourRunning fourRunning 0 (by decide)
    (chaser_fourRunning cuePlaying (by decide)) rfl (by decide),
    stopStepIfNeeded_primary _ fourRunning rfl (by decide)]
  have e1 : (((0 : Int) : ℚ)) / 100 = 0 := by norm_num
  have e2 : (((100 - 0 : Int) : Int) : ℚ) / 100 = 1 := by norm_num
  rw [e1, e2]
  decide

/-- C19 counterexample: after the Steps mode was selected and switched off
again the fader mode is `None` and the level is 255, which is not strictly
between 0 and 100; the fade-control mode is `BlendedCrossfade`. -/
theorem fade_mode_out_of_range :
    cueStepsOff.sideFaderMode = FaderMode.None ∧ cueStepsOff.sideFaderLevel = 255 ∧
      ¬ (0 < cueStepsOff.sideFaderLevel ∧ cueStepsOff.sideFaderLevel < 100) ∧
      cueStepsOff.getFadeMode = FadeControlMode.BlendedCrossfade := by
  decide

/-- C19: the fade-control mode is `FromFunction` exactly in Steps mode,
`BlendedCrossfade` exactly when the mode is not Steps and the level is neither
0 nor 100, and `Blended` exactly when the mode is not Steps and the level is 0
or 100; for a level in 0..100, being neither 0 nor 100 is being strictly
between 0 and 100. -/
theorem fade_mode_selection (cl : VCCueList) :
    (cl.getFadeMode = FadeControlMode.FromFunction ↔ cl.sideFaderMode = FaderMode.Steps) ∧
      (cl.getFadeMode = FadeControlMode.BlendedCrossfade ↔
        cl.sideFaderMode ≠ FaderMode.Steps ∧ cl.sideFaderLevel ≠ 0 ∧ cl.sideFaderLevel ≠ 100) ∧
      (cl.getFadeMode = FadeControlMode.Blended ↔
        cl.sideFaderMode ≠ FaderMode.Steps ∧
          (cl.sideFaderLevel = 0 ∨ cl.sideFaderLevel = 100)) ∧
      (0 ≤ cl.sideFaderLevel → cl.sideFaderLevel ≤ 100 →
        ((cl.sideFaderLevel ≠ 0 ∧ cl.sideFaderLevel ≠ 100) ↔
          (0 < cl.sideFaderLevel ∧ cl.sideFaderLevel < 100))) := by
  unfold VCCueList.getFadeMode
  by_cases hm : cl.sideFaderMode = FaderMode.Steps
  · rw [if_pos hm]
    refine ⟨by simp [hm], by simp [hm], by simp [hm], fun _ _ => by omega⟩
  · rw [if_neg hm]
    by_cases hl : cl.sideFaderLevel ≠ 0 ∧ cl.sideFaderLevel ≠ 100
    · rw [if_pos hl]
      refine ⟨by simp [hm], by simp [hm, hl], ?_, fun _ _ => by omega⟩
      simp only [false_iff, reduceCtorEq]
      intro h
      rcases h.2 with h0 | h0
      · exact hl.1 h0
      · exact hl.2 h0
    · rw [if_neg hl]
      refine ⟨by simp [hm], ?_, ?_, fun _ _ => by omega⟩
      · simp only [false_iff, reduceCtorEq]
        intro h
        exact hl h.2
      · simp only [true_iff]
        refine ⟨hm, ?_⟩
        by_cases h0 : cl.sideFaderLevel = 0
        · exact Or.inl h0
        · right
          by_contra h1
          exact hl ⟨h0, h1⟩

/-- C19 witness: the cue list `cueCrossfade`, in Crossfade mode at level 100,
has the fade-control mode `Blended`. -/
theorem fade_mode_selection_witness :
    cueCrossfade.getFadeMode = FadeControlMode.Blended ∧
      ((cueCrossfade.sideFaderLevel ≠ 0 ∧ cueCrossfade.sideFaderLevel ≠ 100) ↔
        (0 < cueCrossfade.sideFaderLevel ∧ cueCrossfade.sideFaderLevel < 100)) :=
  ⟨(fade_mode_selection cueCrossfade).2.2.1.2 (by decide),
    (fade_mode_selection cueCrossfade).2.2.2 (by decide) (by decide)⟩

theorem allPopulated_nil (cl : VCCueList) : AllPopulated cl [] := by
  intro a ha
  cases ha

theorem decoderPopulated_nil (env : Env) (cl : VCCueList) : DecoderPopulated env cl [] := by
  intro a ha
  cases ha

theorem chaserActions_startChaser (env : Env) (cl : VCCueList) (ch : DocFunction) (i : Int)
    (hch : cl.chaser env = some ch) :
    chaserActions (cl.startChaser env i) =
      [{ action := ChaserActionType.ChaserSetStepIndex
         stepIndex := some i
         masterIntensity := some cl.intensity
         stepIntensity := some cl.getPrimaryIntensity
         fadeMode := some cl.getFadeMode }] := by
  simp only [VCCueList.startChaser, hch]
  rfl

theorem allPopulated_startChaser (env : Env) (cl : VCCueList) (i : Int) :
    AllPopulated cl (cl.startChaser env i) := by
  cases hch : cl.chaser env with
  | none =>
    simp only [VCCueList.startChaser, hch]
    exact allPopulated_nil cl
  | some ch =>
    intro a ha
    rw [chaserActions_startChaser env cl ch i hch, List.mem_singleton] at ha
    subst ha
    exact ⟨rfl, rfl, rfl⟩

theorem allPopulated_stopChaser (env : Env) (cl : VCCueList) :
    AllPopulated cl (cl.stopChaser env) := by
  cases hch : cl.chaser env with
  | none =>
    simp only [VCCueList.stopChaser, hch]
    exact allPopulated_nil cl
  | some ch =>
    simp only [VCCueList.stopChaser, hch]
    intro a ha
    simp [chaserActions, Command.action?] at ha

theorem allPopulated_playClicked (env : Env) (cl : VCCueList) :
    AllPopulated cl (cl.playClicked env).2 := by
  unfold VCCueList.playClicked
  cases hch : cl.chaser env with
  | none => exact allPopulated_nil cl
  | some ch =>
    dsimp only
    cases hr : ch.running with
    | true =>
      simp only [if_true]
      cases hl : cl.playbackLayout with
      | PlayPauseStop =>
        intro a ha
        simp only [chaserActions, List.filterMap_cons, Command.action?, List.filterMap_nil,
          List.mem_singleton] at ha
        subst ha
        exact ⟨rfl, rfl, rfl⟩
      | PlayStopPause => exact allPopulated_stopChaser env cl
    | false =>
      simp only [Bool.false_eq_true, if_false]
      exact allPopulated_startChaser env cl _

theorem allPopulated_nextClicked (env : Env) (cl : VCCueList) :
    AllPopulated cl (cl.nextClicked env).2 := by
  unfold VCCueList.nextClicked
  cases hch : cl.chaser env with
  | none => exact allPopulated_nil cl
  | some ch =>
    dsimp only
    cases hr : ch.running with
    | true =>
      simp only [if_true]
      cases hpa : ch.paused with
      | true => exact allPopulated_nil cl
      | false =>
        simp only [Bool.false_eq_true, if_false]
        intro a ha
        simp only [chaserActions, List.filterMap_cons, Command.action?, List.filterMap_nil,
          List.mem_singleton] at ha
        subst ha
        exact ⟨rfl, rfl, rfl⟩
    | false =>
      simp only [Bool.false_eq_true, if_false]
      cases hb : cl.nextPrevBehavior with
      | DefaultRunFirst => exact allPopulated_startChaser env cl _
      | RunNext => exact allPopulated_startChaser env cl _
      | Select => exact allPopulated_nil cl
      | Nothing => exact allPopulated_nil cl

theorem allPopulated_previousClicked (env : Env) (cl : VCCueList) :
    AllPopulated cl (cl.previousClicked env).2 := by
  unfold VCCueList.previousClicked
  cases hch : cl.chaser env with
  | none => exact allPopulated_nil cl
  | some ch =>
    dsimp only
    cases hr : ch.running with
    | true =>
      simp only [if_true]
      cases hpa : ch.paused with
      | true => exact allPopulated_nil cl
      | false =>
        simp only [Bool.false_eq_true, if_false]
        intro a ha
        simp only [chaserActions, List.filterMap_cons, Command.action?, List.filterMap_nil,
          List.mem_singleton] at ha
        subst ha
        exact ⟨rfl, rfl, rfl⟩
    | false =>
      simp only [Bool.false_eq_true, if_false]
      cases hb : cl.nextPrevBehavior with
      | DefaultRunFirst => exact allPopulated_startChaser env cl _
      | RunNext => exact allPopulated_startChaser env cl _
      | Select => exact allPopulated_nil cl
      | Nothing => exact allPopulated_nil cl

theorem executeStepChange_populated (env : Env) (cl : VCCueList) (m : MidiStepController) :
    DecoderPopulated env cl (executeStepChange env (some cl) m).2 := by
  cases h1 : m.enabled with
  | false =>
    rw [executeStepChange_skip env cl m (Or.inl h1)]
    exact decoderPopulated_nil env cl
  | true =>
    cases h2 : m.hasPendingChange with
    | false =>
      rw [executeStepChange_skip env cl m (Or.inr h2)]
      exact decoderPopulated_nil env cl
    | true =>
      cases h3 : isValidStep (some cl) env m.pendingStep with
      | false =>
        rw [executeStepChange_invalid env cl m h1 h2 h3]
        exact decoderPopulated_nil env cl
      | true =>
        obtain ⟨ch, hch, _, _⟩ := (isValidStep_iff cl env _).1 h3
        rw [executeStepChange_dispatch env cl m ch h1 h2 h3 hch]
        cases hr : ch.running with
        | false =>
          simp only [Bool.false_eq_true, if_false]
          intro a ha
          rw [chaserActions_startChaser env cl ch _ hch, List.mem_singleton] at ha
          subst ha
          exact ⟨rfl, rfl, ch, hch, by simp [hr]⟩
        | true =>
          simp only [if_true]
          intro a ha
          simp only [chaserActions, List.filterMap_cons, Command.action?, List.filterMap_nil,
            List.mem_singleton] at ha
          subst ha
          exact ⟨rfl, rfl, ch, hch, by simp [hr]⟩

theorem queueStepChange_populated (env : Env) (cl : VCCueList) (m : MidiStepController)
    (i : Int) : DecoderPopulated env cl (queueStepChange env (some cl) m i).2 := by
  cases h1 : m.enabled with
  | false =>
    rw [queueStepChange_drop env (some cl) m i (Or.inl h1)]
    exact decoderPopulated_nil env cl
  | true =>
    cases h2 : isValidStep (some cl) env i with
    | false =>
      rw [queueStepChange_drop env (some cl) m i (Or.inr h2)]
      exact decoderPopulated_nil env cl
    | true =>
      cases h3 : rateLimited env m with
      | false =>
        rw [queueStepChange_immediate env cl m i h1 h2 h3]
        exact executeStepChange_populated env cl _
      | true =>
        obtain ⟨t, ht, hlt⟩ := (rateLimited_iff env m).1 h3
        rw [queueStepChange_limited env cl m i t h1 h2 ht hlt]
        exact decoderPopulated_nil env cl

theorem handle_populated (env : Env) (cl : VCCueList) (m : MidiStepController)
    (e : MidiEvent) : DecoderPopulated env cl (m.handle env (some cl) e).2 := by
  cases e with
  | setEnabled b => exact decoderPopulated_nil env cl
  | setTwoNoteMode b => exact decoderPopulated_nil env cl
  | setTimeout t => exact decoderPopulated_nil env cl
  | setDebounceInterval i => exact decoderPopulated_nil env cl
  | firstNote v =>
    rcases handleFirstNote_cases env (some cl) m v with h | ⟨i, h⟩
    · simp only [MidiStepController.handle, h]
      exact decoderPopulated_nil env cl
    · simp only [MidiStepController.handle, h]
      exact queueStepChange_populated env cl _ i
  | secondNote v =>
    rcases handleSecondNote_cases env (some cl) m v with h | ⟨i, h⟩
    · simp only [MidiStepController.handle, h]
      exact decoderPopulated_nil env cl
    · simp only [MidiStepController.handle, h]
      exact queueStepChange_populated env cl _ i
  | changeTimerTimeout =>
    cases hd : m.changeTimer.deadline with
    | none =>
      simp only [MidiStepController.handle, hd]
      exact decoderPopulated_nil env cl
    | some d =>
      by_cases hle : d ≤ env.now
      · rw [handle_changeTimerTimeout_due env (some cl) m d hd hle]
        exact executeStepChange_populated env cl _
      · simp only [MidiStepController.handle, hd, hle, if_false]
        exact decoderPopulated_nil env cl
  | twoNoteTimerTimeout =>
    cases hd : m.twoNoteTimer.deadline with
    | none =>
      simp only [MidiStepController.handle, hd]
      exact decoderPopulated_nil env cl
    | some d =>
      by_cases hle : d ≤ env.now
      · simp only [MidiStepController.handle, hd, hle, if_true]
        rcases handleTwoNoteTimeout_cases env (some cl)
          { m with twoNoteTimer := m.twoNoteTimer.stop } with h | ⟨i, h⟩
        · rw [h]
          exact decoderPopulated_nil env cl
        · rw [h]
          exact queueStepChange_populated env cl _ i
      · simp only [MidiStepController.handle, hd, hle, if_false]
        exact decoderPopulated_nil env cl

/-- C20 counterexample: the cue list `cueMidi` (fader mode `None`, level 100,
fade-control mode `Blended`) with the running five-step sequence: the MIDI
velocity 2 sends a `SetStepIndex` action whose fade-control mode is
`FromFunction`. -/
theorem midi_action_forced_fade_mode :
    (cueMidi.decoderEvent { now := 0, doc := docFiveRunning } (MidiEvent.firstNote 2)).2 =
        [ Command.setAction 1
            { action := ChaserActionType.ChaserSetStepIndex
              stepIndex := some 1
              masterIntensity := some 1
              stepIntensity := some 1
              fadeMode := some FadeControlMode.FromFunction } ] ∧
      cueMidi.getFadeMode = FadeControlMode.Blended ∧
      ¬ AllPopulated cueMidi
        (cueMidi.decoderEvent { now := 0, doc := docFiveRunning } (MidiEvent.firstNote 2)).2 := by
  have h1 : (cueMidi.decoderEvent { now := 0, doc := docFiveRunning }
      (MidiEvent.firstNote 2)).2 =
        [ Command.setAction 1
            { action := ChaserActionType.ChaserSetStepIndex
              stepIndex := some 1
              masterIntensity := some 1
              stepIntensity := some 1
              fadeMode := some FadeControlMode.FromFunction } ] := by decide
  have h2 : cueMidi.getFadeMode = FadeControlMode.Blended := by decide
  refine ⟨h1, h2, ?_⟩
  intro h
  have h3 := (h _ (by rw [h1]; exact List.mem_singleton.2 rfl)).2.2
  rw [h2] at h3
  exact absurd h3 (by decide)

/-- C20: every action sent by play, next, previous and by starting the
sequence carries the cue list's master intensity, the primary step intensity
of `getPrimaryIntensity` and the fade-control mode of `getFadeMode`; every
action sent by the MIDI decoder (notes and timer expiries) carries the master
intensity and the primary step intensity, with the fade-control mode
`FromFunction` when the sequence is running and that of `getFadeMode` when the
decoder starts it. -/
theorem dispatched_actions_populated (cl : VCCueList) (env : Env) :
    AllPopulated cl (cl.playClicked env).2 ∧ AllPopulated cl (cl.nextClicked env).2 ∧
      AllPopulated cl (cl.previousClicked env).2 ∧
      (∀ i : Int, AllPopulated cl (cl.startChaser env i)) ∧
      (∀ e : MidiEvent, DecoderPopulated env cl (cl.decoderEvent env e).2) :=
  ⟨allPopulated_playClicked env cl, allPopulated_nextClicked env cl,
    allPopulated_previousClicked env cl, fun i => allPopulated_startChaser env cl i,
    fun e => handle_populated env cl cl.midiStepController e⟩

/-- C20 witness: the cue list `cuePlaying` with the running four-step
sequence sends one action on next, and it is populated. -/
theorem dispatched_actions_populated_witness :
    chaserActions (cuePlaying.nextClicked envFourRunning).2 ≠ [] ∧
      AllPopulated cuePlaying (cuePlaying.nextClicked envFourRunning).2 :=
  ⟨by decide, (dispatched_actions_populated cuePlaying envFourRunning).2.1⟩


/-! ## Navigation: idle policies, direction, play and stop -/

theorem chaser_envOf (cl : VCCueList) (now : Int) (f : DocFunction) (hid : cl.chaserID = f.id)
    (hne : f.id ≠ invalidId) (hc : f.isChaser = true) :
    cl.chaser (envOf now f) = some f := by
  simp [VCCueList.chaser, hid, hne, Env.function, envOf, hc]

theorem nextClicked_idle (cl : VCCueList) (env : Env) (ch : DocFunction)
    (hch : cl.chaser env = some ch) (hidle : ch.running = false) :
    cl.nextClicked env =
      match cl.nextPrevBehavior with
      | NextPrevBehavior.DefaultRunFirst => (cl, cl.startChaser env (cl.getFirstIndex env))
      | NextPrevBehavior.RunNext => (cl, cl.startChaser env (cl.getNextIndex env))
      | NextPrevBehavior.Select => (cl.setPlaybackIndex env (cl.getNextIndex env), [])
      | NextPrevBehavior.Nothing => (cl, []) := by
  unfold VCCueList.nextClicked
  rw [hch]
  dsimp only
  rw [hidle]
  simp only [Bool.false_eq_true, if_false]

theorem previousClicked_idle (cl : VCCueList) (env : Env) (ch : DocFunction)
    (hch : cl.chaser env = some ch) (hidle : ch.running = false) :
    cl.previousClicked env =
      match cl.nextPrevBehavior with
      | NextPrevBehavior.DefaultRunFirst => (cl, cl.startChaser env (cl.getLastIndex env))
      | NextPrevBehavior.RunNext => (cl, cl.startChaser env (cl.getPrevIndex env))
      | NextPrevBehavior.Select => (cl.setPlaybackIndex env (cl.getPrevIndex env), [])
      | NextPrevBehavior.Nothing => (cl, []) := by
  unfold VCCueList.previousClicked
  rw [hch]
  dsimp only
  rw [hidle]
  simp only [Bool.false_eq_true, if_false]

theorem nextClicked_running (cl : VCCueList) (env : Env) (ch : DocFunction)
    (hch : cl.chaser env = some ch) (hrun : ch.running = true) :
    cl.nextClicked env =
      if ch.paused then (cl.setPlaybackIndex env (cl.getNextIndex env), [])
      else
        (cl,
         [ Command.setAction ch.id
             { action := ChaserActionType.ChaserNextStep
               masterIntensity := some cl.intensity
               stepIntensity := some cl.getPrimaryIntensity
               fadeMode := some cl.getFadeMode } ]) := by
  unfold VCCueList.nextClicked
  rw [hch]
  dsimp only
  rw [hrun]
  simp only [if_true]

theorem previousClicked_running (cl : VCCueList) (env : Env) (ch : DocFunction)
    (hch : cl.chaser env = some ch) (hrun : ch.running = true) :
    cl.previousClicked env =
      if ch.paused then (cl.setPlaybackIndex env (cl.getPrevIndex env), [])
      else
        (cl,
         [ Command.setAction ch.id
             { action := ChaserActionType.ChaserPreviousStep
               masterIntensity := some cl.intensity
               stepIntensity := some cl.getPrimaryIntensity
               fadeMode := some cl.getFadeMode } ]) := by
  unfold VCCueList.previousClicked
  rw [hch]
  dsimp only
  rw [hrun]
  simp only [if_true]

theorem startChaser_attached (cl : VCCueList) (env : Env) (ch : DocFunction) (i : Int)
    (hch : cl.chaser env = some ch) :
    cl.startChaser env i =
      [ Command.adjustFunctionIntensity ch.id cl.intensity,
        Command.setAction ch.id
          { action := ChaserActionType.ChaserSetStepIndex
            stepIndex := some i
            masterIntensity := some cl.intensity
            stepIntensity := some cl.getPrimaryIntensity
            fadeMode := some cl.getFadeMode },
        Command.start ch.id ] := by
  simp only [VCCueList.startChaser, hch]

theorem neighbours_attached (cl : VCCueList) (env : Env) (ch : DocFunction)
    (hch : cl.chaser env = some ch) :
    cl.getNextIndex env =
        (if ch.direction = Direction.Forward then
          (if cl.playbackIndex + 1 = (ch.stepsCount : Int) then 0 else cl.playbackIndex + 1)
         else (if cl.playbackIndex = 0 then (ch.stepsCount : Int) - 1
          else cl.playbackIndex - 1)) ∧
      cl.getPrevIndex env =
        (if ch.direction = Direction.Forward then
          (if cl.playbackIndex = 0 then (ch.stepsCount : Int) - 1 else cl.playbackIndex - 1)
         else (if cl.playbackIndex + 1 = (ch.stepsCount : Int) then 0
          else cl.playbackIndex + 1)) ∧
      cl.getFirstIndex env =
        (if ch.direction = Direction.Forward then 0 else (ch.stepsCount : Int) - 1) ∧
      cl.getLastIndex env =
        (if ch.direction = Direction.Forward then (ch.stepsCount : Int) - 1 else 0) := by
  simp only [VCCueList.getNextIndex, VCCueList.getPrevIndex, VCCueList.getFirstIndex,
    VCCueList.getLastIndex, hch, and_self]

/-- C21: on an idle attached sequence of `n ≥ 1` steps under the
`DefaultRunFirst` policy, Next leaves the cue list as it is and starts the
sequence (intensity, `SetStepIndex` action, start) at index 0 when the
direction is Forward and at `n - 1` otherwise; Previous starts it at `n - 1`
when the direction is Forward and at 0 otherwise. Both indices are steps of
the sequence and neither depends on the cached playback index. -/
theorem run_first_on_idle (cl : VCCueList) (env : Env) (ch : DocFunction)
    (hch : cl.chaser env = some ch) (hidle : ch.running = false) (hn : 1 ≤ ch.stepsCount)
    (hpol : cl.nextPrevBehavior = NextPrevBehavior.DefaultRunFirst) :
    ∃ first last : Int,
      first = (if ch.direction = Direction.Forward then 0 else (ch.stepsCount : Int) - 1) ∧
      last = (if ch.direction = Direction.Forward then (ch.stepsCount : Int) - 1 else 0) ∧
      0 ≤ first ∧ first < (ch.stepsCount : Int) ∧ 0 ≤ last ∧ last < (ch.stepsCount : Int) ∧
      cl.nextClicked env =
        (cl,
         [ Command.adjustFunctionIntensity ch.id cl.intensity,
           Command.setAction ch.id
             { action := ChaserActionType.ChaserSetStepIndex
               stepIndex := some first
               masterIntensity := some cl.intensity
               stepIntensity := some cl.getPrimaryIntensity
               fadeMode := some cl.getFadeMode },
           Command.start ch.id ]) ∧
      cl.previousClicked env =
        (cl,
         [ Command.adjustFunctionIntensity ch.id cl.intensity,
           Command.setAction ch.id
             { action := ChaserActionType.ChaserSetStepIndex
               stepIndex := some last
               masterIntensity := some cl.intensity
               stepIntensity := some cl.getPrimaryIntensity
               fadeMode := some cl.getFadeMode },
           Command.start ch.id ]) := by
  obtain ⟨_, _, hf, hl⟩ := neighbours_attached cl env ch hch
  refine ⟨_, _, rfl, rfl, ?_, ?_, ?_, ?_, ?_, ?_⟩
  · split_ifs <;> omega
  · split_ifs <;> omega
  · split_ifs <;> omega
  · split_ifs <;> omega
  · rw [nextClicked_idle cl env ch hch hidle, hpol]
    dsimp only
    rw [startChaser_attached cl env ch _ hch, hf]
  · rw [previousClicked_idle cl env ch hch hidle, hpol]
    dsimp only
    rw [startChaser_attached cl env ch _ hch, hl]

/-- C21 witness: the idle five-step sequence, playing forward, under the
default policy of the cue list `cueOne`: Next starts at 0, Previous at 4. -/
theorem run_first_on_idle_witness :
    stepIndices (cueOne.nextClicked (envOf 0 fiveIdle)).2 = [0] ∧
      stepIndices (cueOne.previousClicked (envOf 0 fiveIdle)).2 = [4] := by
  obtain ⟨first, last, h1, h2, _, _, _, _, h3, h4⟩ :=
    run_first_on_idle cueOne (envOf 0 fiveIdle) fiveIdle
      (chaser_envOf cueOne 0 fiveIdle rfl (by decide) rfl) rfl (by decide) rfl
  have e1 : first = 0 := by rw [h1]; decide
  have e2 : last = 4 := by rw [h2]; decide
  subst e1 e2
  rw [h3, h4]
  exact ⟨by simp [stepIndices, Command.stepIndex?], by simp [stepIndices, Command.stepIndex?]⟩

/-! ## The playback index and its throttle -/

theorem setPlaybackIndex_foreign (cl : VCCueList) (env : Env) (i : Int)
    (h : env.owningThread = false) : cl.setPlaybackIndex env i = cl := by
  simp only [VCCueList.setPlaybackIndex, h, if_true]

theorem setPlaybackIndex_throttled (cl : VCCueList) (env : Env) (i t : Int)
    (ht : cl.lastChangeTime = some t) (hlt : env.now - t < env.minChangeIntervalMs) :
    cl.setPlaybackIndex env i = cl := by
  unfold VCCueList.setPlaybackIndex
  split
  · rfl
  · rw [ht]
    simp only [hlt, decide_True, if_true]

theorem setPlaybackIndex_accepted (cl : VCCueList) (env : Env) (i : Int)
    (ho : env.owningThread = true)
    (hacc : ∀ t, cl.lastChangeTime = some t → env.minChangeIntervalMs ≤ env.now - t) :
    cl.setPlaybackIndex env i =
      if cl.playbackIndex = i then { cl with lastChangeTime := some env.now }
      else
        match cl.chaser env with
        | none => { cl with lastChangeTime := some env.now, playbackIndex := i }
        | some ch =>
          { cl with
            lastChangeTime := some env.now
            playbackIndex := i
            nextStepIndex := if i ≥ 0 then env.computeNextStep ch.id i else -1 } := by
  obtain ⟨npb, pl, mode, lev, nsi, pt, cid, pi, lct, inten, midi⟩ := cl
  have hch : VCCueList.chaser ⟨npb, pl, mode, lev, nsi, pt, cid, i, some env.now, inten, midi⟩ env =
      VCCueList.chaser ⟨npb, pl, mode, lev, nsi, pt, cid, pi, lct, inten, midi⟩ env := rfl
  cases lct with
  | none =>
    simp only [VCCueList.setPlaybackIndex, ho, Bool.true_eq_false, if_false, hch]
    by_cases hp : pi = i
    · simp only [hp, if_true, Bool.false_eq_true, if_false]
    · simp only [hp, if_false, Bool.false_eq_true]
  | some t0 =>
    have hn : ¬ (env.now - t0 < env.minChangeIntervalMs) := not_lt.2 (hacc t0 rfl)
    simp only [VCCueList.setPlaybackIndex, ho, Bool.true_eq_false, if_false, hn, decide_False,
      hch]
    by_cases hp : pi = i
    · simp only [hp, if_true, Bool.false_eq_true, if_false]
    · simp only [hp, if_false, Bool.false_eq_true]

/-- A call of `setPlaybackIndex` either changes nothing, or is accepted: it
was made on the owning thread, not earlier than the minimum interval after
the last accepted call, and it records the time of the call. -/
theorem setPlaybackIndex_cases (cl : VCCueList) (env : Env) (i : Int) :
    cl.setPlaybackIndex env i = cl ∨
      ((∀ t, cl.lastChangeTime = some t → env.minChangeIntervalMs ≤ env.now - t) ∧
        env.owningThread = true ∧
        (cl.setPlaybackIndex env i).lastChangeTime = some env.now ∧
        (cl.setPlaybackIndex env i).chaserID = cl.chaserID ∧
        ((cl.setPlaybackIndex env i).playbackIndex = cl.playbackIndex ∧
            (cl.setPlaybackIndex env i).nextStepIndex = cl.nextStepIndex ∨
          (cl.setPlaybackIndex env i).playbackIndex = i ∧ i ≠ cl.playbackIndex ∧
            (cl.chaser env = none ∧
                (cl.setPlaybackIndex env i).nextStepIndex = cl.nextStepIndex ∨
              ∃ ch, cl.chaser env = some ch ∧
                (cl.setPlaybackIndex env i).nextStepIndex =
                  if i ≥ 0 then env.computeNextStep ch.id i else -1))) := by
  cases ho : env.owningThread with
  | false => exact Or.inl (setPlaybackIndex_foreign cl env i ho)
  | true =>
    by_cases hacc : ∀ t, cl.lastChangeTime = some t → env.minChangeIntervalMs ≤ env.now - t
    · right
      rw [setPlaybackIndex_accepted cl env i ho hacc]
      refine ⟨hacc, rfl, ?_⟩
      by_cases hp : cl.playbackIndex = i
      · rw [if_pos hp]
        exact ⟨rfl, rfl, Or.inl ⟨rfl, rfl⟩⟩
      · rw [if_neg hp]
        cases hch : cl.chaser env with
        | none => exact ⟨rfl, rfl, Or.inr ⟨rfl, fun h => hp h.symm, Or.inl ⟨rfl, rfl⟩⟩⟩
        | some ch =>
          exact ⟨rfl, rfl, Or.inr ⟨rfl, fun h => hp h.symm, Or.inr ⟨ch, rfl, rfl⟩⟩⟩
    · left
      push_neg at hacc
      obtain ⟨t, ht, hlt⟩ := hacc
      exact setPlaybackIndex_throttled cl env i t ht hlt

/-- C22: on an idle attached sequence, Next (Previous) under `RunNext`
leaves the cue list as it is and starts the sequence at `getNextIndex`
(`getPrevIndex`), the direction-aware neighbour of the cached playback index;
under `Select` it sends nothing and its whole effect is the call
`setPlaybackIndex` of that neighbour, which stores the neighbour when the call
is accepted; under `Nothing` it sends nothing and changes nothing. -/
theorem other_idle_policies (cl : VCCueList) (env : Env) (ch : DocFunction)
    (hch : cl.chaser env = some ch) (hidle : ch.running = false) :
    (cl.nextPrevBehavior = NextPrevBehavior.RunNext →
        cl.nextClicked env =
          (cl,
           [ Command.adjustFunctionIntensity ch.id cl.intensity,
             Command.setAction ch.id
               { action := ChaserActionType.ChaserSetStepIndex
                 stepIndex := some (cl.getNextIndex env)
                 masterIntensity := some cl.intensity
                 stepIntensity := some cl.getPrimaryIntensity
                 fadeMode := some cl.getFadeMode },
             Command.start ch.id ]) ∧
        cl.previousClicked env =
          (cl,
           [ Command.adjustFunctionIntensity ch.id cl.intensity,
             Command.setAction ch.id
               { action := ChaserActionType.ChaserSetStepIndex
                 stepIndex := some (cl.getPrevIndex env)
                 masterIntensity := some cl.intensity
                 stepIntensity := some cl.getPrimaryIntensity
                 fadeMode := some cl.getFadeMode },
             Command.start ch.id ])) ∧
      (cl.nextPrevBehavior = NextPrevBehavior.Select →
        cl.nextClicked env = (cl.setPlaybackIndex env (cl.getNextIndex env), []) ∧
        cl.previousClicked env = (cl.setPlaybackIndex env (cl.getPrevIndex env), [])) ∧
      (cl.nextPrevBehavior = NextPrevBehavior.Nothing →
        cl.nextClicked env = (cl, []) ∧ cl.previousClicked env = (cl, [])) ∧
      cl.getNextIndex env =
        (if ch.direction = Direction.Forward then
          (if cl.playbackIndex + 1 = (ch.stepsCount : Int) then 0 else cl.playbackIndex + 1)
         else (if cl.playbackIndex = 0 then (ch.stepsCount : Int) - 1
          else cl.playbackIndex - 1)) ∧
      cl.getPrevIndex env =
        (if ch.direction = Direction.Forward then
          (if cl.playbackIndex = 0 then (ch.stepsCount : Int) - 1 else cl.playbackIndex - 1)
         else (if cl.playbackIndex + 1 = (ch.stepsCount : Int) then 0
          else cl.playbackIndex + 1)) ∧
      (∀ i : Int, env.owningThread = true →
        (∀ t, cl.lastChangeTime = some t → env.minChangeIntervalMs ≤ env.now - t) →
        (cl.setPlaybackIndex env i).playbackIndex = i) := by
  obtain ⟨hnx, hpv, _, _⟩ := neighbours_attached cl env ch hch
  refine ⟨?_, ?_, ?_, hnx, hpv, ?_⟩
  · intro hpol
    rw [nextClicked_idle cl env ch hch hidle, previousClicked_idle cl env ch hch hidle, hpol]
    dsimp only
    rw [startChaser_attached cl env ch _ hch, startChaser_attached cl env ch _ hch]
    exact ⟨rfl, rfl⟩
  · intro hpol
    rw [nextClicked_idle cl env ch hch hidle, previousClicked_idle cl env ch hch hidle, hpol]
    exact ⟨rfl, rfl⟩
  · intro hpol
    rw [nextClicked_idle cl env ch hch hidle, previousClicked_idle cl env ch hch hidle, hpol]
    exact ⟨rfl, rfl⟩
  · intro i ho hacc
    rw [setPlaybackIndex_accepted cl env i ho hacc]
    by_cases hp : cl.playbackIndex = i
    · rw [if_pos hp]
      exact hp
    · rw [if_neg hp, hch]

/-- C22 witness: the cue list `cueAtLast` (policy `RunNext`, playback index
4) with the idle five-step sequence: Next starts the sequence at
`getNextIndex`, Previous at `getPrevIndex`. -/
theorem other_idle_policies_witness :
    cueAtLast.nextClicked (envOf 0 fiveIdle) =
        (cueAtLast,
         [ Command.adjustFunctionIntensity fiveIdle.id cueAtLast.intensity,
           Command.setAction fiveIdle.id
             { action := ChaserActionType.ChaserSetStepIndex
               stepIndex := some (cueAtLast.getNextIndex (envOf 0 fiveIdle))
               masterIntensity := some cueAtLast.intensity
               stepIntensity := some cueAtLast.getPrimaryIntensity
               fadeMode := some cueAtLast.getFadeMode },
           Command.start fiveIdle.id ]) ∧
      cueAtLast.previousClicked (envOf 0 fiveIdle) =
        (cueAtLast,
         [ Command.adjustFunctionIntensity fiveIdle.id cueAtLast.intensity,
           Command.setAction fiveIdle.id
             { action := ChaserActionType.ChaserSetStepIndex
               stepIndex := some (cueAtLast.getPrevIndex (envOf 0 fiveIdle))
               masterIntensity := some cueAtLast.intensity
               stepIntensity := some cueAtLast.getPrimaryIntensity
               fadeMode := some cueAtLast.getFadeMode },
           Command.start fiveIdle.id ]) :=
  (other_idle_policies cueAtLast (envOf 0 fiveIdle) fiveIdle
    (chaser_envOf cueAtLast 0 fiveIdle (by decide) (by decide) rfl) rfl).1 (by decide)

/-- C23: for one cue list seen with a sequence that plays forward and with a
sequence of the same step count that plays backward, `getNextIndex` backward
is `getPrevIndex` forward, `getPrevIndex` backward is `getNextIndex` forward,
and `getFirstIndex` and `getLastIndex` swap. -/
theorem direction_inversion (cl : VCCueList) (envF envB : Env) (chF chB : DocFunction)
    (hF : cl.chaser envF = some chF) (hB : cl.chaser envB = some chB)
    (hdF : chF.direction = Direction.Forward) (hdB : chB.direction = Direction.Backward)
    (hn : chF.stepsCount = chB.stepsCount) :
    cl.getNextIndex envB = cl.getPrevIndex envF ∧ cl.getPrevIndex envB = cl.getNextIndex envF ∧
      cl.getFirstIndex envB = cl.getLastIndex envF ∧
      cl.getLastIndex envB = cl.getFirstIndex envF := by
  obtain ⟨a1, a2, a3, a4⟩ := neighbours_attached cl envF chF hF
  obtain ⟨b1, b2, b3, b4⟩ := neighbours_attached cl envB chB hB
  have hne : ¬ Direction.Backward = Direction.Forward := by decide
  rw [a1, a2, a3, a4, b1, b2, b3, b4, hdF, hdB, hn]
  simp only [if_true, hne, if_false, and_self]

/-- C23 witness: the cue list `cueAtLast` with the five-step sequence playing
forward and playing backward. -/
theorem direction_inversion_witness :
    cueAtLast.getNextIndex (envOf 0 fiveBackward) = cueAtLast.getPrevIndex (envOf 0 fiveIdle) ∧
      cueAtLast.getPrevIndex (envOf 0 fiveBackward) =
        cueAtLast.getNextIndex (envOf 0 fiveIdle) ∧
      cueAtLast.getFirstIndex (envOf 0 fiveBackward) =
        cueAtLast.getLastIndex (envOf 0 fiveIdle) ∧
      cueAtLast.getLastIndex (envOf 0 fiveBackward) =
        cueAtLast.getFirstIndex (envOf 0 fiveIdle) :=
  direction_inversion cueAtLast (envOf 0 fiveIdle) (envOf 0 fiveBackward) fiveIdle fiveBackward
    (chaser_envOf cueAtLast 0 fiveIdle (by decide) (by decide) rfl)
    (chaser_envOf cueAtLast 0 fiveBackward (by decide) (by decide) rfl) rfl rfl rfl

/-- C24: with a sequence attached. Running, layout Play/Pause/Stop: Play
sends a `SetStepIndex` action for the cached playback index with the live
intensities and fade mode, then toggles pause; Stop stops the sequence.
Running, layout Play/Stop/Pause: Play stops the sequence; Stop toggles pause.
Idle: Play starts the sequence at the cached playback index, or at step 0 if
that index is -1; Stop does nothing. The cue list itself never changes. -/
theorem play_stop_gestures (cl : VCCueList) (env : Env) (ch : DocFunction)
    (hch : cl.chaser env = some ch) :
    (ch.running = true → cl.playbackLayout = PlaybackLayout.PlayPauseStop →
        cl.playClicked env =
          (cl,
           [ Command.setAction ch.id
               { action := ChaserActionType.ChaserSetStepIndex
                 stepIndex := some cl.playbackIndex
                 masterIntensity := some cl.intensity
                 stepIntensity := some cl.getPrimaryIntensity
                 fadeMode := some cl.getFadeMode },
             Command.setPause ch.id (!ch.paused) ]) ∧
        cl.stopClicked env =
          (cl, [Command.stop ch.id, Command.resetIntensityOverrideAttribute])) ∧
      (ch.running = true → cl.playbackLayout = PlaybackLayout.PlayStopPause →
        cl.playClicked env =
          (cl, [Command.stop ch.id, Command.resetIntensityOverrideAttribute]) ∧
        cl.stopClicked env = (cl, [Command.setPause ch.id (!ch.paused)])) ∧
      (ch.running = false →
        cl.playClicked env =
          (cl,
           [ Command.adjustFunctionIntensity ch.id cl.intensity,
             Command.setAction ch.id
               { action := ChaserActionType.ChaserSetStepIndex
                 stepIndex := some (if cl.playbackIndex = -1 then 0 else cl.playbackIndex)
                 masterIntensity := some cl.intensity
                 stepIntensity := some cl.getPrimaryIntensity
                 fadeMode := some cl.getFadeMode },
             Command.start ch.id ]) ∧
        cl.stopClicked env = (cl, [])) := by
  refine ⟨?_, ?_, ?_⟩
  · intro hrun hlay
    constructor
    · unfold VCCueList.playClicked
      rw [hch]
      dsimp only
      rw [hrun, hlay]
      rfl
    · unfold VCCueList.stopClicked
      rw [hch]
      dsimp only
      rw [hrun, hlay]
      simp only [if_true, VCCueList.stopChaser, hch]
  · intro hrun hlay
    constructor
    · unfold VCCueList.playClicked
      rw [hch]
      dsimp only
      rw [hrun, hlay]
      simp only [if_true, VCCueList.stopChaser, hch]
    · unfold VCCueList.stopClicked
      rw [hch]
      dsimp only
      rw [hrun, hlay]
      rfl
  · intro hidle
    constructor
    · unfold VCCueList.playClicked
      rw [hch]
      dsimp only
      rw [hidle]
      simp only [Bool.false_eq_true, if_false]
      rw [startChaser_attached cl env ch _ hch]
    · unfold VCCueList.stopClicked
      rw [hch]
      dsimp only
      rw [hidle]
      rfl

/-- C24 witness: the cue list `cueOne` (layout Play/Pause/Stop, playback index
-1) with the running five-step sequence and with the idle one. -/
theorem play_stop_gestures_witness :
    (cueOne.playClicked (envOf 0 fiveRunning) =
        (cueOne,
         [ Command.setAction fiveRunning.id
             { action := ChaserActionType.ChaserSetStepIndex
               stepIndex := some cueOne.playbackIndex
               masterIntensity := some cueOne.intensity
               stepIntensity := some cueOne.getPrimaryIntensity
               fadeMode := some cueOne.getFadeMode },
           Command.setPause fiveRunning.id (!fiveRunning.paused) ]) ∧
      cueOne.stopClicked (envOf 0 fiveRunning) =
        (cueOne, [Command.stop fiveRunning.id, Command.resetIntensityOverrideAttribute])) ∧
      stepIndices (cueOne.playClicked (envOf 0 fiveIdle)).2 = [0] := by
  refine ⟨(play_stop_gestures cueOne (envOf 0 fiveRunning) fiveRunning
    (chaser_envOf cueOne 0 fiveRunning rfl (by decide) rfl)).1 rfl rfl, ?_⟩
  rw [((play_stop_gestures cueOne (envOf 0 fiveIdle) fiveIdle
    (chaser_envOf cueOne 0 fiveIdle rfl (by decide) rfl)).2.2 rfl).1]
  decide

/-- C25: with a running sequence. Not paused: Next (Previous) sends exactly
one `NextStep` (`PreviousStep`) action carrying the master intensity, the
primary step intensity and the fade mode, and leaves the cue list, its cached
playback index included, as it is. Paused: it sends nothing and its whole
effect is the call `setPlaybackIndex` of `getNextIndex` (`getPrevIndex`), the
direction-aware neighbour of the cached playback index. -/
theorem next_previous_running (cl : VCCueList) (env : Env) (ch : DocFunction)
    (hch : cl.chaser env = some ch) (hrun : ch.running = true) :
    (ch.paused = false →
        cl.nextClicked env =
          (cl,
           [ Command.setAction ch.id
               { action := ChaserActionType.ChaserNextStep
                 masterIntensity := some cl.intensity
                 stepIntensity := some cl.getPrimaryIntensity
                 fadeMode := some cl.getFadeMode } ]) ∧
        cl.previousClicked env =
          (cl,
           [ Command.setAction ch.id
               { action := ChaserActionType.ChaserPreviousStep
                 masterIntensity := some cl.intensity
                 stepIntensity := some cl.getPrimaryIntensity
                 fadeMode := some cl.getFadeMode } ])) ∧
      (ch.paused = true →
        cl.nextClicked env = (cl.setPlaybackIndex env (cl.getNextIndex env), []) ∧
        cl.previousClicked env = (cl.setPlaybackIndex env (cl.getPrevIndex env), [])) ∧
      cl.getNextIndex env =
        (if ch.direction = Direction.Forward then
          (if cl.playbackIndex + 1 = (ch.stepsCount : Int) then 0 else cl.playbackIndex + 1)
         else (if cl.playbackIndex = 0 then (ch.stepsCount : Int) - 1
          else cl.playbackIndex - 1)) ∧
      cl.getPrevIndex env =
        (if ch.direction = Direction.Forward then
          (if cl.playbackIndex = 0 then (ch.stepsCount : Int) - 1 else cl.playbackIndex - 1)
         else (if cl.playbackIndex + 1 = (ch.stepsCount : Int) then 0
          else cl.playbackIndex + 1)) := by
  obtain ⟨hnx, hpv, _, _⟩ := neighbours_attached cl env ch hch
  refine ⟨?_, ?_, hnx, hpv⟩
  · intro hp
    rw [nextClicked_running cl env ch hch hrun, previousClicked_running cl env ch hch hrun, hp]
    exact ⟨rfl, rfl⟩
  · intro hp
    rw [nextClicked_running cl env ch hch hrun, previousClicked_running cl env ch hch hrun, hp]
    exact ⟨rfl, rfl⟩

/-- C25 witness: the cue list `cueAtLast` (playback index 4) with the running
five-step sequence, not paused: one relative action each. -/
theorem next_previous_running_witness :
    cueAtLast.nextClicked (envOf 0 fiveRunning) =
        (cueAtLast,
         [ Command.setAction fiveRunning.id
             { action := ChaserActionType.ChaserNextStep
               masterIntensity := some cueAtLast.intensity
               stepIntensity := some cueAtLast.getPrimaryIntensity
               fadeMode := some cueAtLast.getFadeMode } ]) ∧
      cueAtLast.previousClicked (envOf 0 fiveRunning) =
        (cueAtLast,
         [ Command.setAction fiveRunning.id
             { action := ChaserActionType.ChaserPreviousStep
               masterIntensity := some cueAtLast.intensity
               stepIntensity := some cueAtLast.getPrimaryIntensity
               fadeMode := some cueAtLast.getFadeMode } ]) :=
  (next_previous_running cueAtLast (envOf 0 fiveRunning) fiveRunning
    (chaser_envOf cueAtLast 0 fiveRunning (by decide) (by decide) rfl) rfl).1 rfl


theorem setSideFaderLevel_halted (cl : VCCueList) (env : Env) (ch : DocFunction) (level : Int)
    (hch : cl.chaser env = some ch) (hrun : ch.stopped = true)
    (hnew : level ≠ cl.sideFaderLevel) :
    cl.setSideFaderLevel env level =
      ({ cl with sideFaderLevel := level },
       if cl.slidersMode = FaderMode.Steps then []
       else [Command.sendFeedback level INPUT_SIDE_FADER_ID]) := by
  obtain ⟨npb, pl, mode, lev, nsi, pt, cid, pi, lct, inten, midi⟩ := cl
  simp only at hnew
  have hch1 : VCCueList.chaser
      ⟨npb, pl, mode, level, nsi, pt, cid, pi, lct, inten, midi⟩ env = some ch := hch
  by_cases hmode : mode = FaderMode.Steps
  · subst hmode
    simp only [VCCueList.setSideFaderLevel, hnew, if_false, VCCueList.sideFaderMode,
      if_true, hch1, hrun]
  · simp only [VCCueList.setSideFaderLevel, hnew, if_false, VCCueList.sideFaderMode, hmode,
      hch1, hrun, if_true]

/-! ## Which events write the playback index -/

theorem setChaserID_playback (cl : VCCueList) (env : Env) (fid : Nat) :
    (cl.setChaserID env fid).1.playbackIndex = cl.playbackIndex ∧
      (cl.setChaserID env fid).1.lastChangeTime = cl.lastChangeTime ∧
      (cl.setChaserID env fid).1.nextStepIndex = cl.nextStepIndex := by
  unfold VCCueList.setChaserID
  split
  · exact ⟨rfl, rfl, rfl⟩
  · dsimp only
    split <;> exact ⟨rfl, rfl, rfl⟩

theorem slotFunctionRemoved_playback (cl : VCCueList) (fid : Nat) :
    (cl.slotFunctionRemoved fid).1.playbackIndex = cl.playbackIndex ∧
      (cl.slotFunctionRemoved fid).1.lastChangeTime = cl.lastChangeTime ∧
      (cl.slotFunctionRemoved fid).1.nextStepIndex = cl.nextStepIndex := by
  unfold VCCueList.slotFunctionRemoved
  split <;> exact ⟨rfl, rfl, rfl⟩

theorem stopStepIfNeeded_playback (cl : VCCueList) (ch : DocFunction) :
    (cl.stopStepIfNeeded ch).1.playbackIndex = cl.playbackIndex ∧
      (cl.stopStepIfNeeded ch).1.lastChangeTime = cl.lastChangeTime ∧
      (cl.stopStepIfNeeded ch).1.nextStepIndex = cl.nextStepIndex := by
  unfold VCCueList.stopStepIfNeeded
  dsimp only
  split_ifs <;> exact ⟨rfl, rfl, rfl⟩

theorem setSideFaderLevel_playback (cl : VCCueList) (env : Env) (level : Int) :
    (cl.setSideFaderLevel env level).1.playbackIndex = cl.playbackIndex ∧
      (cl.setSideFaderLevel env level).1.lastChangeTime = cl.lastChangeTime ∧
      (cl.setSideFaderLevel env level).1.nextStepIndex = cl.nextStepIndex := by
  by_cases hnew : level = cl.sideFaderLevel
  · rw [hnew, setSideFaderLevel_same]
    exact ⟨rfl, rfl, rfl⟩
  · cases hch : cl.chaser env with
    | none =>
      rw [setSideFaderLevel_detached cl env level hch hnew]
      exact ⟨rfl, rfl, rfl⟩
    | some ch =>
      cases hrun : ch.stopped with
      | true =>
        rw [setSideFaderLevel_halted cl env ch level hch hrun hnew]
        exact ⟨rfl, rfl, rfl⟩
      | false =>
        by_cases hmode : cl.slidersMode = FaderMode.Steps
        · rw [setSideFaderLevel_steps cl env ch level hmode hch hrun hnew]
          exact ⟨rfl, rfl, rfl⟩
        · rw [setSideFaderLevel_blend cl env ch level hmode hch hrun hnew]
          exact stopStepIfNeeded_playback _ ch

theorem setSideFaderMode_playback (cl : VCCueList) (env : Env) (mode : FaderMode) :
    (cl.setSideFaderMode env mode).1.playbackIndex = cl.playbackIndex ∧
      (cl.setSideFaderMode env mode).1.lastChangeTime = cl.lastChangeTime ∧
      (cl.setSideFaderMode env mode).1.nextStepIndex = cl.nextStepIndex := by
  unfold VCCueList.setSideFaderMode
  split
  · exact ⟨rfl, rfl, rfl⟩
  · cases mode with
    | None => exact ⟨rfl, rfl, rfl⟩
    | Crossfade => exact setSideFaderLevel_playback _ env 100
    | Steps => exact setSideFaderLevel_playback _ env 255

theorem playClicked_state (cl : VCCueList) (env : Env) : (cl.playClicked env).1 = cl := by
  unfold VCCueList.playClicked
  split
  · rfl
  · split
    · split <;> rfl
    · rfl

theorem stopClicked_state (cl : VCCueList) (env : Env) : (cl.stopClicked env).1 = cl := by
  unfold VCCueList.stopClicked
  split
  · rfl
  · split
    · split <;> rfl
    · rfl

theorem playCurrentStep_state (cl : VCCueList) (env : Env) :
    (cl.playCurrentStep env).1 = cl := by
  unfold VCCueList.playCurrentStep
  split
  · rfl
  · split <;> rfl

theorem nextClicked_state (cl : VCCueList) (env : Env) :
    (cl.nextClicked env).1 = cl ∨ ∃ i, (cl.nextClicked env).1 = cl.setPlaybackIndex env i := by
  cases hch : cl.chaser env with
  | none =>
    left
    unfold VCCueList.nextClicked
    rw [hch]
  | some ch =>
    cases hrun : ch.running with
    | true =>
      rw [nextClicked_running cl env ch hch hrun]
      cases ch.paused with
      | true => exact Or.inr ⟨_, rfl⟩
      | false => exact Or.inl rfl
    | false =>
      rw [nextClicked_idle cl env ch hch hrun]
      cases cl.nextPrevBehavior with
      | DefaultRunFirst => exact Or.inl rfl
      | RunNext => exact Or.inl rfl
      | Select => exact Or.inr ⟨_, rfl⟩
      | Nothing => exact Or.inl rfl

theorem previousClicked_state (cl : VCCueList) (env : Env) :
    (cl.previousClicked env).1 = cl ∨
      ∃ i, (cl.previousClicked env).1 = cl.setPlaybackIndex env i := by
  cases hch : cl.chaser env with
  | none =>
    left
    unfold VCCueList.previousClicked
    rw [hch]
  | some ch =>
    cases hrun : ch.running with
    | true =>
      rw [previousClicked_running cl env ch hch hrun]
      cases ch.paused with
      | true => exact Or.inr ⟨_, rfl⟩
      | false => exact Or.inl rfl
    | false =>
      rw [previousClicked_idle cl env ch hch hrun]
      cases cl.nextPrevBehavior with
      | DefaultRunFirst => exact Or.inl rfl
      | RunNext => exact Or.inl rfl
      | Select => exact Or.inr ⟨_, rfl⟩
      | Nothing => exact Or.inl rfl

theorem jumpToStep_state (cl : VCCueList) (env : Env) (i : Int) :
    (cl.jumpToStep env i).1 = cl ∨ (cl.jumpToStep env i).1 = cl.setPlaybackIndex env i := by
  unfold VCCueList.jumpToStep
  split
  · exact Or.inl rfl
  · split
    · exact Or.inl rfl
    · exact Or.inr rfl

theorem slotFunctionStopped_state (cl : VCCueList) (env : Env) (fid : Nat) :
    (cl.slotFunctionStopped env fid).1 = cl ∨
      (cl.slotFunctionStopped env fid).1 = cl.setPlaybackIndex env (-1) := by
  unfold VCCueList.slotFunctionStopped
  split
  · exact Or.inr rfl
  · exact Or.inl rfl

/-- What an event does to the cached playback index: it leaves the index, the
time of the last accepted change and the next-step index as they are, or its
whole effect on the cue list is one call of `setPlaybackIndex`. -/
theorem step_playback (cl : VCCueList) (env : Env) (e : CueEvent) :
    ((cl.step env e).1.playbackIndex = cl.playbackIndex ∧
        (cl.step env e).1.lastChangeTime = cl.lastChangeTime ∧
        (cl.step env e).1.nextStepIndex = cl.nextStepIndex) ∨
      ∃ i, (cl.step env e).1 = cl.setPlaybackIndex env i := by
  have same : ∀ s : VCCueList, s = cl →
      (s.playbackIndex = cl.playbackIndex ∧ s.lastChangeTime = cl.lastChangeTime ∧
        s.nextStepIndex = cl.nextStepIndex) := by
    intro s hs
    rw [hs]
    exact ⟨rfl, rfl, rfl⟩
  cases e with
  | setChaserID fid => exact Or.inl (setChaserID_playback cl env fid)
  | functionRemoved fid => exact Or.inl (slotFunctionRemoved_playback cl fid)
  | functionRunning fid =>
    left
    apply same
    simp only [VCCueList.step, VCCueList.slotFunctionRunning]
    split <;> rfl
  | functionStopped fid =>
    rcases slotFunctionStopped_state cl env fid with h | h
    · exact Or.inl (same _ h)
    · exact Or.inr ⟨_, h⟩
  | currentStepChanged stepNumber => exact Or.inr ⟨stepNumber, rfl⟩
  | setPlaybackIndex playbackIndex => exact Or.inr ⟨playbackIndex, rfl⟩
  | setNextPrevBehavior nextPrev =>
    left
    simp only [VCCueList.step, VCCueList.setNextPrevBehavior]
    split <;> exact ⟨rfl, rfl, rfl⟩
  | setPlaybackLayout layout =>
    left
    simp only [VCCueList.step, VCCueList.setPlaybackLayout]
    split <;> exact ⟨rfl, rfl, rfl⟩
  | setSideFaderMode mode => exact Or.inl (setSideFaderMode_playback cl env mode)
  | setSideFaderLevel level => exact Or.inl (setSideFaderLevel_playback cl env level)
  | inputValueChanged id value =>
    simp only [VCCueList.step, VCCueList.slotInputValueChanged]
    split_ifs
    · exact Or.inl ⟨rfl, rfl, rfl⟩
    · rcases nextClicked_state cl env with h | ⟨i, h⟩
      · exact Or.inl (same _ h)
      · exact Or.inr ⟨i, h⟩
    · exact Or.inl ⟨rfl, rfl, rfl⟩
    · rcases previousClicked_state cl env with h | ⟨i, h⟩
      · exact Or.inl (same _ h)
      · exact Or.inr ⟨i, h⟩
    · exact Or.inl ⟨rfl, rfl, rfl⟩
    · exact Or.inl (same _ (playClicked_state cl env))
    · exact Or.inl ⟨rfl, rfl, rfl⟩
    · exact Or.inl (same _ (stopClicked_state cl env))
    · exact Or.inl (setSideFaderLevel_playback cl env _)
    · exact Or.inl (setSideFaderLevel_playback cl env _)
    · exact Or.inl ⟨rfl, rfl, rfl⟩
    · exact Or.inl ⟨rfl, rfl, rfl⟩
    · exact Or.inl ⟨rfl, rfl, rfl⟩
  | playClicked => exact Or.inl (same _ (playClicked_state cl env))
  | stopClicked => exact Or.inl (same _ (stopClicked_state cl env))
  | previousClicked =>
    rcases previousClicked_state cl env with h | ⟨i, h⟩
    · exact Or.inl (same _ h)
    · exact Or.inr ⟨i, h⟩
  | nextClicked =>
    rcases nextClicked_state cl env with h | ⟨i, h⟩
    · exact Or.inl (same _ h)
    · exact Or.inr ⟨i, h⟩
  | playCurrentStep => exact Or.inl (same _ (playCurrentStep_state cl env))
  | jumpToStep stepIndex =>
    rcases jumpToStep_state cl env stepIndex with h | h
    · exact Or.inl (same _ h)
    · exact Or.inr ⟨_, h⟩
  | setMidiStepSelectionEnabled enabled =>
    left
    simp only [VCCueList.step, VCCueList.setMidiStepSelectionEnabled]
    split <;> exact ⟨rfl, rfl, rfl⟩
  | setMidiTwoNoteMode enabled =>
    left
    simp only [VCCueList.step, VCCueList.setMidiTwoNoteMode]
    split <;> exact ⟨rfl, rfl, rfl⟩
  | setMidiTimeout timeoutMs =>
    left
    simp only [VCCueList.step, VCCueList.setMidiTimeout]
    split <;> exact ⟨rfl, rfl, rfl⟩
  | setMidiDebounceInterval intervalMs =>
    left
    simp only [VCCueList.step, VCCueList.setMidiDebounceInterval]
    split <;> exact ⟨rfl, rfl, rfl⟩
  | decoder ev => exact Or.inl ⟨rfl, rfl, rfl⟩

/-- Every event either keeps the playback index, the time of the last accepted
change and the next-step index, or is an accepted `setPlaybackIndex` call: made
at least the minimum interval after the last accepted one, recording its time,
and writing the next-step index only when it changes the playback index with a
sequence attached. -/
theorem step_index_cases (cl : VCCueList) (env : Env) (e : CueEvent) :
    ((cl.step env e).1.playbackIndex = cl.playbackIndex ∧
        (cl.step env e).1.lastChangeTime = cl.lastChangeTime ∧
        (cl.step env e).1.nextStepIndex = cl.nextStepIndex) ∨
      ((∀ t, cl.lastChangeTime = some t → env.minChangeIntervalMs ≤ env.now - t) ∧
        (cl.step env e).1.lastChangeTime = some env.now ∧
        ((cl.step env e).1.playbackIndex = cl.playbackIndex ∧
            (cl.step env e).1.nextStepIndex = cl.nextStepIndex ∨
          (cl.step env e).1.playbackIndex ≠ cl.playbackIndex ∧
            (cl.chaser env = none ∧ (cl.step env e).1.nextStepIndex = cl.nextStepIndex ∨
              ∃ ch, cl.chaser env = some ch ∧
                (cl.step env e).1.nextStepIndex =
                  if (cl.step env e).1.playbackIndex ≥ 0 then
                    env.computeNextStep ch.id (cl.step env e).1.playbackIndex
                  else -1))) := by
  rcases step_playback cl env e with h | ⟨i, h⟩
  · exact Or.inl h
  · rw [h]
    rcases setPlaybackIndex_cases cl env i with h0 | ⟨hacc, _, hl, _, hrest⟩
    · rw [h0]
      exact Or.inl ⟨rfl, rfl, rfl⟩
    · right
      refine ⟨hacc, hl, ?_⟩
      rcases hrest with ⟨hp, hn⟩ | ⟨hp, hne, hrest⟩
      · exact Or.inl ⟨hp, hn⟩
      · right
        refine ⟨by rw [hp]; exact hne, ?_⟩
        rcases hrest with ⟨hd, hn⟩ | ⟨ch, hch, hn⟩
        · exact Or.inl ⟨hd, hn⟩
        · exact Or.inr ⟨ch, hch, by rw [hp]; exact hn⟩

theorem spacedBy_cons (gap a : Int) (l : List Int) (hl : spacedBy gap l)
    (hh : ∀ c, l.head? = some c → a + gap ≤ c) : spacedBy gap (a :: l) := by
  cases l with
  | nil => trivial
  | cons b rest => exact ⟨hh b rfl, hl⟩

/-- Under a clock that never goes back, the changes of the playback index of a
run are spaced by the minimum interval, and the first of them comes no earlier
than that interval after any time `b` not later than the last accepted call. -/
theorem runCue_spaced (M : Int) (run : List (Env × CueEvent)) :
    ∀ (cl : VCCueList) (start : Int), clockMonotone start run →
      (∀ x ∈ run, x.1.minChangeIntervalMs = M) →
      (∀ t, cl.lastChangeTime = some t → t ≤ start) →
      spacedBy M (runCue cl run).2 ∧
        ∀ b t c, cl.lastChangeTime = some t → b ≤ t →
          (runCue cl run).2.head? = some c → b + M ≤ c := by
  induction run with
  | nil =>
    intro cl start _ _ _
    exact ⟨trivial, fun b t c _ _ hc => by simp [runCue] at hc⟩
  | cons x xs ih =>
    intro cl start hmono hM hlast
    obtain ⟨hstart, hmono'⟩ := hmono
    have hMx : x.1.minChangeIntervalMs = M := hM x (List.mem_cons_self _ _)
    have hM' : ∀ y ∈ xs, y.1.minChangeIntervalMs = M :=
      fun y hy => hM y (List.mem_cons_of_mem _ hy)
    have hunf : (runCue cl (x :: xs)).2 =
        (if (cl.step x.1 x.2).1.playbackIndex = cl.playbackIndex then [] else [x.1.now]) ++
          (runCue (cl.step x.1 x.2).1 xs).2 := rfl
    rw [hunf]
    rcases step_index_cases cl x.1 x.2 with ⟨hp, hl, _⟩ | ⟨hacc, hl, hrest⟩
    · have hlast' : ∀ t, (cl.step x.1 x.2).1.lastChangeTime = some t → t ≤ x.1.now := by
        intro t ht
        rw [hl] at ht
        exact le_trans (hlast t ht) hstart
      obtain ⟨ih1, ih2⟩ := ih (cl.step x.1 x.2).1 x.1.now hmono' hM' hlast'
      rw [if_pos hp, List.nil_append]
      refine ⟨ih1, ?_⟩
      intro b t c ht hb hc
      exact ih2 b t c (by rw [hl]; exact ht) hb hc
    · have hlast' : ∀ t, (cl.step x.1 x.2).1.lastChangeTime = some t → t ≤ x.1.now := by
        intro t ht
        rw [hl] at ht
        exact le_of_eq (Option.some.inj ht).symm
      obtain ⟨ih1, ih2⟩ := ih (cl.step x.1 x.2).1 x.1.now hmono' hM' hlast'
      rcases hrest with ⟨hp, _⟩ | ⟨hp, _⟩
      · rw [if_pos hp, List.nil_append]
        refine ⟨ih1, ?_⟩
        intro b t c ht hb hc
        have h1 : b ≤ x.1.now := le_trans hb (le_trans (hlast t ht) hstart)
        exact ih2 b x.1.now c hl h1 hc
      · rw [if_neg hp, List.singleton_append]
        refine ⟨spacedBy_cons M x.1.now _ ih1 (fun c hc => ih2 x.1.now x.1.now c hl le_rfl hc),
          ?_⟩
        intro b t c ht hb hc
        have h1 := hacc t ht
        rw [hMx] at h1
        simp only [List.head?_cons, Option.some.injEq] at hc
        omega

/-- C26: a `setPlaybackIndex` call made less than the minimum interval after
the last accepted call changes nothing at all (it is dropped, not queued); an
accepted call records its time as the time of the last accepted call; hence in
every run of cue-list events under a clock that never goes back, successive
changes of the playback index are at least the minimum interval apart. -/
theorem playback_index_throttle :
    (∀ (cl : VCCueList) (env : Env) (i t : Int), cl.lastChangeTime = some t →
        env.now - t < env.minChangeIntervalMs → cl.setPlaybackIndex env i = cl) ∧
      (∀ (cl : VCCueList) (env : Env) (i : Int), env.owningThread = true →
        (∀ t, cl.lastChangeTime = some t → env.minChangeIntervalMs ≤ env.now - t) →
        (cl.setPlaybackIndex env i).lastChangeTime = some env.now ∧
          (cl.setPlaybackIndex env i).playbackIndex = i) ∧
      (∀ (M : Int) (run : List (Env × CueEvent)) (cl : VCCueList) (start : Int),
        clockMonotone start run → (∀ x ∈ run, x.1.minChangeIntervalMs = M) →
        (∀ t, cl.lastChangeTime = some t → t ≤ start) → spacedBy M (runCue cl run).2) := by
  refine ⟨setPlaybackIndex_throttled, ?_, ?_⟩
  · intro cl env i ho hacc
    rw [setPlaybackIndex_accepted cl env i ho hacc]
    by_cases hp : cl.playbackIndex = i
    · rw [if_pos hp]
      exact ⟨rfl, hp⟩
    · rw [if_neg hp]
      cases cl.chaser env <;> exact ⟨rfl, rfl⟩
  · intro M run cl start h1 h2 h3
    exact (runCue_spaced M run cl start h1 h2 h3).1

/-- C26 witness: the cue list `cueOne` with the running five-step sequence and
a minimum interval of 50 ms: index 1 at 0 ms is stored, index 2 at 10 ms is
dropped, index 3 at 60 ms is stored. -/
theorem playback_index_throttle_witness :
    (runCue cueOne
        [ (envOf 0 fiveRunning, CueEvent.currentStepChanged 1),
          (envOf 10 fiveRunning, CueEvent.currentStepChanged 2),
          (envOf 60 fiveRunning, CueEvent.currentStepChanged 3) ]).2 = [0, 60] ∧
      spacedBy 50
        (runCue cueOne
          [ (envOf 0 fiveRunning, CueEvent.currentStepChanged 1),
            (envOf 10 fiveRunning, CueEvent.currentStepChanged 2),
            (envOf 60 fiveRunning, CueEvent.currentStepChanged 3) ]).2 :=
  ⟨by decide,
    playback_index_throttle.2.2 50 _ cueOne 0
      ⟨by decide, by decide, by decide, trivial⟩
      (by
        intro x hx
        simp only [List.mem_cons, List.mem_singleton, List.not_mem_nil, or_false] at hx
        rcases hx with rfl | rfl | rfl <;> rfl)
      (by
        intro t ht
        have h : cueOne.lastChangeTime = none := rfl
        rw [h] at ht
        cases ht)⟩


/-! ## The next-step index -/

theorem cuePlaying_reachable : CueReachable cuePlaying := by
  have h1 := CueReachable.step _ envFour (CueEvent.setChaserID 1) (CueReachable.init 1)
  have h2 := CueReachable.step _ envFourRunning (CueEvent.setPlaybackIndex 0) h1
  have e : (((VCCueList.init 1).step envFour (CueEvent.setChaserID 1)).1.step envFourRunning
      (CueEvent.setPlaybackIndex 0)).1 = cuePlaying := by decide
  rw [e] at h2
  exact h2

/-- C27 counterexample: the cue list `cueDetached` is reachable (attach
sequence 1, follow it to step 0 where the engine names step 1 as the next one,
then the sequence is removed from the document); no sequence is attached, yet
the next-step index is 1, not -1. -/
theorem next_step_stale_after_removal :
    CueReachable cueDetached ∧ (∀ env : Env, cueDetached.chaser env = none) ∧
      cueDetached.playbackIndex = 0 ∧ cueDetached.nextStepIndex = 1 ∧
      cueDetached.nextStepIndex ≠ -1 := by
  refine ⟨?_, ?_, by decide, by decide, by decide⟩
  · have h := CueReachable.step cuePlaying envFour (CueEvent.functionRemoved 1)
      cuePlaying_reachable
    exact h
  · intro env
    have h : cueDetached.chaserID = invalidId := by decide
    simp only [VCCueList.chaser, h, if_true]

/-- C27: the next-step index is -1 after construction. An event either leaves
it as it is, or it is a `setPlaybackIndex` call that changes the playback
index while a sequence is attached, and then the next-step index is the
sequence's `computeNextStep` of the new playback index, or -1 if that index is
negative. Such a call, made on the owning thread outside the throttle, does
write it. Detaching or replacing the sequence does not touch it. -/
theorem next_step_written (cl : VCCueList) (env : Env) :
    (∀ intensity : ℚ, (VCCueList.init intensity).nextStepIndex = -1 ∧
        (VCCueList.init intensity).playbackIndex = -1) ∧
      (∀ e : CueEvent,
        (cl.step env e).1.nextStepIndex = cl.nextStepIndex ∨
          ∃ ch, cl.chaser env = some ch ∧
            (cl.step env e).1.playbackIndex ≠ cl.playbackIndex ∧
            (cl.step env e).1.nextStepIndex =
              if (cl.step env e).1.playbackIndex ≥ 0 then
                env.computeNextStep ch.id (cl.step env e).1.playbackIndex
              else -1) ∧
      (∀ (i : Int) (ch : DocFunction), cl.chaser env = some ch → env.owningThread = true →
        (∀ t, cl.lastChangeTime = some t → env.minChangeIntervalMs ≤ env.now - t) →
        i ≠ cl.playbackIndex →
        (cl.setPlaybackIndex env i).playbackIndex = i ∧
          (cl.setPlaybackIndex env i).nextStepIndex =
            if i ≥ 0 then env.computeNextStep ch.id i else -1) ∧
      (∀ fid : Nat,
        (cl.setChaserID env fid).1.nextStepIndex = cl.nextStepIndex ∧
          (cl.slotFunctionRemoved fid).1.nextStepIndex = cl.nextStepIndex) := by
  refine ⟨fun _ => ⟨rfl, rfl⟩, ?_, ?_, ?_⟩
  · intro e
    rcases step_index_cases cl env e with ⟨_, _, h⟩ | ⟨_, _, hrest⟩
    · exact Or.inl h
    · rcases hrest with ⟨_, h⟩ | ⟨hp, hrest⟩
      · exact Or.inl h
      · rcases hrest with ⟨_, h⟩ | ⟨ch, hch, h⟩
        · exact Or.inl h
        · exact Or.inr ⟨ch, hch, hp, h⟩
  · intro i ch hch ho hacc hne
    rw [setPlaybackIndex_accepted cl env i ho hacc, if_neg (fun h => hne h.symm), hch]
    exact ⟨rfl, rfl⟩
  · intro fid
    exact ⟨(setChaserID_playback cl env fid).2.2, (slotFunctionRemoved_playback cl fid).2.2⟩

/-- C27 witness: the cue list `cueOne` follows the running four-step sequence
to step 0 and caches step 1 as the next one. -/
theorem next_step_written_witness :
    (cueOne.setPlaybackIndex envFourRunning 0).playbackIndex = 0 ∧
      (cueOne.setPlaybackIndex envFourRunning 0).nextStepIndex =
        if (0 : Int) ≥ 0 then envFourRunning.computeNextStep fourRunning.id 0 else -1 :=
  (next_step_written cueOne envFourRunning).2.2.1 0 fourRunning
    (chaser_fourRunning cueOne (by decide)) rfl
    (by
      intro t ht
      have h : cueOne.lastChangeTime = none := rfl
      rw [h] at ht
      cases ht)
    (by decide)

/-! ## Decoder invariants: first-note range, reset on toggle -/

/-- What an event does to the buffered first note: it keeps the buffer, or it
clears it, or it is a first note whose value it buffers. -/
theorem handle_buffer (env : Env) (cueList : Option VCCueList) (m : MidiStepController)
    (e : MidiEvent) :
    ((m.handle env cueList e).1.waitingForSecondNote = m.waitingForSecondNote ∧
        (m.handle env cueList e).1.firstNoteValue = m.firstNoteValue) ∨
      ((m.handle env cueList e).1.waitingForSecondNote = false ∧
        (m.handle env cueList e).1.firstNoteValue = -1) ∨
      ∃ v : Nat, e = MidiEvent.firstNote v ∧
        (m.handle env cueList e).1.waitingForSecondNote = true ∧
        (m.handle env cueList e).1.firstNoteValue = (v : Int) := by
  cases e with
  | setEnabled b =>
    simp only [MidiStepController.handle, MidiStepController.setEnabled]
    split
    · exact Or.inl ⟨rfl, rfl⟩
    · split
      · exact Or.inr (Or.inl ⟨rfl, rfl⟩)
      · exact Or.inl ⟨rfl, rfl⟩
  | setTwoNoteMode b =>
    simp only [MidiStepController.handle, MidiStepController.setTwoNoteMode]
    split
    · exact Or.inl ⟨rfl, rfl⟩
    · exact Or.inr (Or.inl ⟨rfl, rfl⟩)
  | setTimeout t => exact Or.inl ⟨rfl, rfl⟩
  | setDebounceInterval i => exact Or.inl ⟨rfl, rfl⟩
  | firstNote v =>
    cases cueList with
    | none => exact Or.inl ⟨rfl, rfl⟩
    | some cl =>
      by_cases h1 : m.enabled = false
      · left
        simp [MidiStepController.handle, handleFirstNote, h1]
      · by_cases h2 : m.twoNoteMode = true
        · right
          right
          exact ⟨v, rfl, by simp [MidiStepController.handle, handleFirstNote, h1, h2],
            by simp [MidiStepController.handle, handleFirstNote, h1, h2]⟩
        · by_cases h3 : v = 0
          · left
            simp [MidiStepController.handle, handleFirstNote, h1, h2, h3]
          · left
            have h := queueStepChange_frame env (some cl) m ((v : Int) - 1)
            have hw := h.2.2.2.2.2.2
            have hf := h.2.2.2.2.2.1
            constructor
            · simpa [MidiStepController.handle, handleFirstNote, h1, h2, h3] using hw
            · simpa [MidiStepController.handle, handleFirstNote, h1, h2, h3] using hf
  | secondNote v =>
    cases cueList with
    | none => exact Or.inl ⟨rfl, rfl⟩
    | some cl =>
      by_cases h1 : m.enabled = false ∨ m.twoNoteMode = false ∨ m.waitingForSecondNote = false
      · left
        simp [MidiStepController.handle, handleSecondNote, h1]
      · right
        left
        by_cases h2 : (if m.firstNoteValue * 128 + (v : Int) = 0 then (-1 : Int)
            else m.firstNoteValue * 128 + (v : Int) - 1) < 0
        · simp only [MidiStepController.handle, handleSecondNote, h1, h2, if_true, if_false,
            and_self]
        · simp only [MidiStepController.handle, handleSecondNote, h1, h2, if_false]
          have hf := queueStepChange_frame env (some cl)
            { m with
              twoNoteTimer := m.twoNoteTimer.stop
              waitingForSecondNote := false
              firstNoteValue := -1 }
            (if m.firstNoteValue * 128 + (v : Int) = 0 then (-1 : Int)
              else m.firstNoteValue * 128 + (v : Int) - 1)
          exact ⟨hf.2.2.2.2.2.2, hf.2.2.2.2.2.1⟩
  | changeTimerTimeout =>
    left
    cases hd : m.changeTimer.deadline with
    | none =>
      rw [handle_changeTimer_inactive env cueList m hd]
      exact ⟨rfl, rfl⟩
    | some d =>
      by_cases hle : d ≤ env.now
      · rw [handle_changeTimerTimeout_due env cueList m d hd hle]
        have hf := executeStepChange_frame env cueList
          { m with changeTimer := m.changeTimer.stop }
        exact ⟨hf.2.2.2.2.2.2.1, hf.2.2.2.2.2.1⟩
      · simp only [MidiStepController.handle, hd, hle, if_false, and_self]
  | twoNoteTimerTimeout =>
    cases hd : m.twoNoteTimer.deadline with
    | none =>
      rw [handle_twoNoteTimer_inactive env cueList m hd]
      exact Or.inl ⟨rfl, rfl⟩
    | some d =>
      by_cases hle : d ≤ env.now
      · simp only [MidiStepController.handle, hd, hle, if_true]
        by_cases h1 : m.waitingForSecondNote = false
        · left
          simp [handleTwoNoteTimeout, h1]
        · right
          left
          by_cases h2 : m.firstNoteValue = 0
          · simp [handleTwoNoteTimeout, h1, h2]
          · simp only [handleTwoNoteTimeout, h1, h2, if_false]
            have hf := queueStepChange_frame env cueList
              { m with
                twoNoteTimer := m.twoNoteTimer.stop
                waitingForSecondNote := false
                firstNoteValue := -1 }
              (m.firstNoteValue - 1)
            exact ⟨hf.2.2.2.2.2.2, hf.2.2.2.2.2.1⟩
      · simp only [MidiStepController.handle, hd, hle, if_false, and_self, true_or]

theorem midiWide_reachable : ReachableAtMost 255 midiWide := by
  have h1 := ReachableAtMost.step MidiStepController.init { now := 0, doc := docFive }
    (some cueOne) (MidiEvent.setEnabled true) trivial (ReachableAtMost.init : ReachableAtMost 255 _)
  have h2 := ReachableAtMost.step _ { now := 0, doc := docFive } (some cueOne)
    (MidiEvent.setTwoNoteMode true) trivial h1
  have h3 := ReachableAtMost.step _ { now := 0, doc := docFive } (some cueOne)
    (MidiEvent.firstNote 200) (show (200 : Nat) ≤ 255 by decide) h2
  have e : (((MidiStepController.init.handle { now := 0, doc := docFive } (some cueOne)
      (MidiEvent.setEnabled true)).1.handle { now := 0, doc := docFive } (some cueOne)
      (MidiEvent.setTwoNoteMode true)).1.handle { now := 0, doc := docFive } (some cueOne)
      (MidiEvent.firstNote 200)).1 = midiWide := by decide
  rw [e] at h3
  exact h3

/-- C28 counterexample: the decoder `midiWide` is reachable with 8-bit input
values (enable, two-note mode, first note 200); it waits for the second note
and its first-note value is 200, above 127. -/
theorem first_note_above_127 :
    ReachableAtMost 255 midiWide ∧ midiWide.waitingForSecondNote = true ∧
      midiWide.firstNoteValue = 200 ∧
      ¬ (0 ≤ midiWide.firstNoteValue ∧ midiWide.firstNoteValue ≤ 127) :=
  ⟨midiWide_reachable, by decide, by decide, by decide⟩

/-- C28: in every decoder state reachable through its entry points and timer
expiries with input values of at most `top`, a pending second note implies
`0 ≤ firstNoteValue ≤ top`: the range is 0..255 for the 8-bit values the
inputs deliver and 0..127 when every value is a 7-bit MIDI value. -/
theorem first_note_range (top : Nat) (m : MidiStepController)
    (hr : ReachableAtMost top m) (hw : m.waitingForSecondNote = true) :
    0 ≤ m.firstNoteValue ∧ m.firstNoteValue ≤ (top : Int) := by
  induction hr with
  | init => exact absurd hw (by decide)
  | step m env cueList e he _ ih =>
    rcases handle_buffer env cueList m e with ⟨h1, h2⟩ | ⟨h, _⟩ | ⟨v, hv, _, h⟩
    · rw [h2]
      exact ih (by rw [← h1]; exact hw)
    · rw [h] at hw
      exact absurd hw (by decide)
    · subst hv
      rw [h]
      have hle : v ≤ top := he
      exact ⟨Int.natCast_nonneg v, by exact_mod_cast hle⟩

/-- C28 witness: the decoder `midiWide`, reached with 8-bit values, holds a
first-note value within 0..255. -/
theorem first_note_range_witness :
    0 ≤ midiWide.firstNoteValue ∧ midiWide.firstNoteValue ≤ ((255 : Nat) : Int) :=
  first_note_range 255 midiWide midiWide_reachable (by decide)

theorem isReset_init : MidiStepController.init.isReset := ⟨rfl, rfl, rfl, rfl, rfl, rfl⟩

/-- A disabled decoder whose transient state is reset keeps it reset under
every event that leaves it disabled. -/
theorem isReset_step (env : Env) (cueList : Option VCCueList) (m : MidiStepController)
    (e : MidiEvent) (hd : m.enabled = false) (h : m.isReset)
    (hne : ∀ b, e ≠ MidiEvent.setEnabled b) : (m.handle env cueList e).1.isReset := by
  obtain ⟨h1, h2, h3, h4, h5, h6⟩ := h
  cases e with
  | setEnabled b => exact absurd rfl (hne b)
  | setTwoNoteMode b =>
    simp only [MidiStepController.handle, MidiStepController.setTwoNoteMode]
    split
    · exact ⟨h1, h2, h3, h4, h5, h6⟩
    · exact ⟨rfl, rfl, h3, h4, h5, rfl⟩
  | setTimeout t =>
    refine ⟨h1, h2, h3, h4, h5, ?_⟩
    simp [MidiStepController.handle, MidiStepController.setTimeout, QTimer.setInterval,
      QTimer.isActive, h6]
  | setDebounceInterval i =>
    refine ⟨h1, h2, h3, h4, ?_, h6⟩
    simp [MidiStepController.handle, MidiStepController.setDebounceInterval,
      QTimer.setInterval, QTimer.isActive, h5]
  | firstNote v =>
    simp only [MidiStepController.handle, handleFirstNote_disabled env cueList m v hd]
    exact ⟨h1, h2, h3, h4, h5, h6⟩
  | secondNote v =>
    simp only [MidiStepController.handle, handleSecondNote_notWaiting env cueList m v h1]
    exact ⟨h1, h2, h3, h4, h5, h6⟩
  | changeTimerTimeout =>
    rw [handle_changeTimer_inactive env cueList m h5]
    exact ⟨h1, h2, h3, h4, h5, h6⟩
  | twoNoteTimerTimeout =>
    rw [handle_twoNoteTimer_inactive env cueList m h6]
    exact ⟨h1, h2, h3, h4, h5, h6⟩

/-- A reachable decoder that is disabled has its transient state reset. -/
theorem reachable_disabled_reset (m : MidiStepController) (hr : Reachable m) :
    m.enabled = false → m.isReset := by
  induction hr with
  | init => exact fun _ => isReset_init
  | step m env cueList e _ ih =>
    intro hd
    by_cases hse : ∃ b, e = MidiEvent.setEnabled b
    · obtain ⟨b, rfl⟩ := hse
      cases hm : m.enabled with
      | false =>
        cases b with
        | false =>
          have e1 : (m.handle env cueList (MidiEvent.setEnabled false)).1 = m := by
            simp [MidiStepController.handle, MidiStepController.setEnabled, hm]
          rw [e1]
          exact ih hm
        | true =>
          simp [MidiStepController.handle, MidiStepController.setEnabled, hm] at hd
      | true =>
        cases b with
        | false =>
          simp only [MidiStepController.handle, MidiStepController.setEnabled, hm,
            Bool.true_eq_false, if_false, if_true]
          exact ⟨rfl, rfl, rfl, rfl, rfl, rfl⟩
        | true =>
          simp [MidiStepController.handle, MidiStepController.setEnabled, hm] at hd
    · have hne : ∀ b, e ≠ MidiEvent.setEnabled b := fun b hb => hse ⟨b, hb⟩
      have hen := handle_enabled env cueList m e hne
      rw [hen] at hd
      exact isReset_step env cueList m e hd (ih hd) hne

theorem midiQueued_reachable : Reachable midiQueued :=
  reachable_run (busyRun.take 3) _ Reachable.init

/-- C29 counterexample: the reachable decoder `midiQueued` is in single-note
mode with step 1 queued behind the delayed-dispatch timer; switching the
two-note mode on changes the flag and leaves the queued step and the armed
timer in place. -/
theorem mode_toggle_keeps_pending :
    Reachable midiQueued ∧ midiQueued.twoNoteMode = false ∧
      (midiQueued.setTwoNoteMode true).twoNoteMode = true ∧
      (midiQueued.setTwoNoteMode true).hasPendingChange = true ∧
      (midiQueued.setTwoNoteMode true).pendingStep = 1 ∧
      (midiQueued.setTwoNoteMode true).changeTimer.deadline = some 100 ∧
      ¬ (midiQueued.setTwoNoteMode true).isReset := by
  refine ⟨midiQueued_reachable, by decide, by decide, by decide, by decide, by decide, ?_⟩
  intro h
  exact absurd h.2.2.1 (by decide)

/-- C29: whenever `setEnabled` changes the enabled flag of a reachable decoder
the whole transient state is reset afterwards (no pending second note, first
value -1, no queued step, pending index -1, both timers stopped); whenever
`setTwoNoteMode` changes the two-note flag the two-note state is reset (no
pending second note, first value -1, two-note timer stopped) while the queued
step, its index and the delayed-dispatch timer are left as they were. -/
theorem reset_on_toggle :
    (∀ m : MidiStepController, Reachable m → ∀ b : Bool,
        (m.setEnabled b).enabled ≠ m.enabled → (m.setEnabled b).isReset) ∧
      (∀ (m : MidiStepController) (b : Bool),
        (m.setTwoNoteMode b).twoNoteMode ≠ m.twoNoteMode →
        (m.setTwoNoteMode b).waitingForSecondNote = false ∧
          (m.setTwoNoteMode b).firstNoteValue = -1 ∧
          (m.setTwoNoteMode b).twoNoteTimer.deadline = none ∧
          (m.setTwoNoteMode b).hasPendingChange = m.hasPendingChange ∧
          (m.setTwoNoteMode b).pendingStep = m.pendingStep ∧
          (m.setTwoNoteMode b).changeTimer = m.changeTimer) := by
  constructor
  · intro m hr b hne
    cases hm : m.enabled with
    | false =>
      cases b with
      | false =>
        exfalso
        apply hne
        simp [MidiStepController.setEnabled, hm]
      | true =>
        obtain ⟨h1, h2, h3, h4, h5, h6⟩ := reachable_disabled_reset m hr hm
        simp only [MidiStepController.setEnabled, hm, Bool.false_eq_true, if_false]
        exact ⟨h1, h2, h3, h4, h5, h6⟩
    | true =>
      cases b with
      | false =>
        simp only [MidiStepController.setEnabled, hm, Bool.true_eq_false, if_false, if_true]
        exact ⟨rfl, rfl, rfl, rfl, rfl, rfl⟩
      | true =>
        exfalso
        apply hne
        simp [MidiStepController.setEnabled, hm]
  · intro m b hne
    by_cases he : m.twoNoteMode = b
    · exfalso
      apply hne
      simp [MidiStepController.setTwoNoteMode, he]
    · refine ⟨?_, ?_, ?_, ?_, ?_, ?_⟩ <;>
        simp [MidiStepController.setTwoNoteMode, he, QTimer.stop]

/-- C29 witness: disabling the reachable decoder `midiBusy` (queued step,
buffered first note, both timers armed) resets its whole transient state. -/
theorem reset_on_toggle_witness :
    (midiBusy.setEnabled false).enabled ≠ midiBusy.enabled ∧
      (midiBusy.setEnabled false).isReset :=
  ⟨by decide,
    reset_on_toggle.1 midiBusy (reachable_run busyRun _ Reachable.init) false (by decide)⟩


/-! ## No sequence attached -/

theorem isValidStep_detached (cl : VCCueList) (env : Env) (i : Int)
    (hch : cl.chaser env = none) : isValidStep (some cl) env i = false := by
  simp [isValidStep, getChaser, hch]

theorem queueStepChange_detached (cl : VCCueList) (env : Env) (m : MidiStepController)
    (i : Int) (hch : cl.chaser env = none) : queueStepChange env (some cl) m i = (m, []) :=
  queueStepChange_drop env (some cl) m i (Or.inr (isValidStep_detached cl env i hch))

theorem handleFirstNote_detached (cl : VCCueList) (env : Env) (m : MidiStepController)
    (v : Nat) (hch : cl.chaser env = none) :
    handleFirstNote env (some cl) m v =
      (if m.enabled = true ∧ m.twoNoteMode = true then
        { m with
          firstNoteValue := (v : Int)
          waitingForSecondNote := true
          twoNoteTimer := m.twoNoteTimer.start env.now m.timeout }
       else m, []) := by
  by_cases h1 : m.enabled = false
  · simp [handleFirstNote, h1]
  · by_cases h2 : m.twoNoteMode = true
    · simp [handleFirstNote, h1, h2]
    · by_cases h3 : v = 0
      · simp [handleFirstNote, h1, h2, h3]
      · have h := queueStepChange_detached cl env m ((v : Int) - 1) hch
        simp [handleFirstNote, h1, h2, h3, h]

theorem handleSecondNote_detached (cl : VCCueList) (env : Env) (m : MidiStepController)
    (v : Nat) (hch : cl.chaser env = none) :
    handleSecondNote env (some cl) m v =
      (if m.enabled = true ∧ m.twoNoteMode = true ∧ m.waitingForSecondNote = true then
        { m with
          twoNoteTimer := m.twoNoteTimer.stop
          waitingForSecondNote := false
          firstNoteValue := -1 }
       else m, []) := by
  by_cases h1 : m.enabled = false ∨ m.twoNoteMode = false ∨ m.waitingForSecondNote = false
  · have h1' : ¬ (m.enabled = true ∧ m.twoNoteMode = true ∧ m.waitingForSecondNote = true) := by
      intro h
      rcases h1 with h0 | h0 | h0
      · rw [h.1] at h0
        cases h0
      · rw [h.2.1] at h0
        cases h0
      · rw [h.2.2] at h0
        cases h0
    simp only [handleSecondNote, h1, if_true, h1', if_false]
  · have h1' : m.enabled = true ∧ m.twoNoteMode = true ∧ m.waitingForSecondNote = true := by
      simp only [not_or, Bool.not_eq_false] at h1
      exact h1
    rw [if_pos h1']
    by_cases h2 : (if m.firstNoteValue * 128 + (v : Int) = 0 then (-1 : Int)
        else m.firstNoteValue * 128 + (v : Int) - 1) < 0
    · simp only [handleSecondNote, h1, h2, if_true, if_false]
    · simp only [handleSecondNote, h1, h2, if_false]
      exact queueStepChange_detached cl env _ _ hch

/-- C30 counterexample: the cue list `cueAlone` has no sequence attached and
its decoder is enabled in two-note mode. Moving the fader to 50 stores the
level 50; a first MIDI note 5 is buffered and the decoder waits for the second
note. Neither call leaves the state as it was. -/
theorem detached_state_changes :
    (∀ env : Env, cueAlone.chaser env = none) ∧
      (cueAlone.setSideFaderLevel { now := 0, doc := [] } 50).1.sideFaderLevel = 50 ∧
      (cueAlone.setSideFaderLevel { now := 0, doc := [] } 50).1 ≠ cueAlone ∧
      (cueAlone.decoderEvent { now := 0, doc := [] }
        (MidiEvent.firstNote 5)).1.midiStepController.waitingForSecondNote = true ∧
      (cueAlone.decoderEvent { now := 0, doc := [] } (MidiEvent.firstNote 5)).1 ≠ cueAlone := by
  refine ⟨?_, by decide, by decide, by decide, by decide⟩
  intro env
  have h : cueAlone.chaserID = invalidId := by decide
  simp only [VCCueList.chaser, h, if_true]

/-- C30: with no sequence attached, Next, Previous, Play and Stop send nothing
and change nothing; a fader level change sends nothing to the sequence engine
(outside Steps mode it sends the feedback of the new level to the input
devices) and stores the new level, leaving everything else as it was; a first
MIDI note sends nothing and changes nothing unless the decoder is enabled in
two-note mode, where it buffers the value, waits for the second note and arms
the two-note timer; a second MIDI note sends nothing and changes nothing
unless the decoder is enabled in two-note mode waiting for it, where it clears
the buffered first note and stops the timer. -/
theorem missing_collaborator (cl : VCCueList) (env : Env) (hch : cl.chaser env = none) :
    cl.nextClicked env = (cl, []) ∧ cl.previousClicked env = (cl, []) ∧
      cl.playClicked env = (cl, []) ∧ cl.stopClicked env = (cl, []) ∧
      (∀ level : Int,
        (cl.setSideFaderLevel env level).1 = { cl with sideFaderLevel := level } ∧
          chaserActions (cl.setSideFaderLevel env level).2 = [] ∧
          stepIntensities (cl.setSideFaderLevel env level).2 = [] ∧
          ∀ c ∈ (cl.setSideFaderLevel env level).2,
            c = Command.sendFeedback level INPUT_SIDE_FADER_ID) ∧
      (∀ v : Nat,
        cl.decoderEvent env (MidiEvent.firstNote v) =
          ({ cl with
             midiStepController :=
               if cl.midiStepController.enabled = true ∧
                   cl.midiStepController.twoNoteMode = true then
                 { cl.midiStepController with
                   firstNoteValue := (v : Int)
                   waitingForSecondNote := true
                   twoNoteTimer :=
                     cl.midiStepController.twoNoteTimer.start env.now
                       cl.midiStepController.timeout }
               else cl.midiStepController }, [])) ∧
      (∀ v : Nat,
        cl.decoderEvent env (MidiEvent.secondNote v) =
          ({ cl with
             midiStepController :=
               if cl.midiStepController.enabled = true ∧
                   cl.midiStepController.twoNoteMode = true ∧
                   cl.midiStepController.waitingForSecondNote = true then
                 { cl.midiStepController with
                   twoNoteTimer := cl.midiStepController.twoNoteTimer.stop
                   waitingForSecondNote := false
                   firstNoteValue := -1 }
               else cl.midiStepController }, [])) := by
  refine ⟨?_, ?_, ?_, ?_, ?_, ?_, ?_⟩
  · unfold VCCueList.nextClicked
    rw [hch]
  · unfold VCCueList.previousClicked
    rw [hch]
  · unfold VCCueList.playClicked
    rw [hch]
  · unfold VCCueList.stopClicked
    rw [hch]
  · intro level
    by_cases hnew : level = cl.sideFaderLevel
    · rw [hnew, setSideFaderLevel_same]
      exact ⟨rfl, rfl, rfl, fun c hc => by cases hc⟩
    · rw [setSideFaderLevel_detached cl env level hch hnew]
      refine ⟨rfl, ?_, ?_, ?_⟩
      · split_ifs <;> rfl
      · split_ifs <;> rfl
      · intro c hc
        split_ifs at hc
        · cases hc
        · exact List.mem_singleton.1 hc
  · intro v
    simp only [VCCueList.decoderEvent, MidiStepController.handle,
      handleFirstNote_detached cl env cl.midiStepController v hch]
  · intro v
    simp only [VCCueList.decoderEvent, MidiStepController.handle,
      handleSecondNote_detached cl env cl.midiStepController v hch]

/-- C30 witness: the cue list `cueDetached`, whose sequence was removed, does
nothing on Next and stores the fader level 50. -/
theorem missing_collaborator_witness :
    cueDetached.nextClicked envFour = (cueDetached, []) ∧
      (cueDetached.setSideFaderLevel envFour 50).1 = { cueDetached with sideFaderLevel := 50 } :=
  ⟨(missing_collaborator cueDetached envFour (by decide)).1,
    ((missing_collaborator cueDetached envFour (by decide)).2.2.2.2.1 50).1⟩


/-! ## Two-note decoding: the documented mapping, velocity 0, bijection -/

theorem handleSecondNote_target (env : Env) (cl : VCCueList) (m : MidiStepController)
    (v : Nat) (h1 : m.enabled = true) (h2 : m.twoNoteMode = true)
    (h3 : m.waitingForSecondNote = true) :
    handleSecondNote env (some cl) m v =
      if twoNoteTarget m.firstNoteValue (v : Int) < 0 then
        ({ m with
           twoNoteTimer := m.twoNoteTimer.stop
           waitingForSecondNote := false
           firstNoteValue := -1 }, [])
      else
        queueStepChange env (some cl)
          { m with
            twoNoteTimer := m.twoNoteTimer.stop
            waitingForSecondNote := false
            firstNoteValue := -1 }
          (twoNoteTarget m.firstNoteValue (v : Int)) := by
  have hg : ¬ (m.enabled = false ∨ m.twoNoteMode = false ∨ m.waitingForSecondNote = false) := by
    rw [h1, h2, h3]
    decide
  unfold handleSecondNote twoNoteTarget
  dsimp only
  rw [if_neg hg]

theorem twoNoteTarget_range (a b : Int) (ha0 : 0 ≤ a) (ha : a ≤ 127) (hb0 : 0 ≤ b)
    (hb : b ≤ 127) (hne : ¬ (a = 0 ∧ b = 0)) :
    twoNoteTarget a b = a * 128 + b - 1 ∧ 0 ≤ twoNoteTarget a b ∧ twoNoteTarget a b ≤ 16382 := by
  have h : ¬ (a * 128 + b = 0) := by
    intro h0
    apply hne
    constructor <;> omega
  simp only [twoNoteTarget, h, if_false]
  refine ⟨trivial, ?_, ?_⟩ <;> omega

/-- C31: the decoder `midiFirstOne` is enabled in two-velocity mode and holds
the first value 1; with the 300-step sequence attached the second value 1
selects the internal index 128, which is Step 129, where the class
documentation and the comment at the computation promise Step 1 (index 0).
The pair (127,127) does select index 16382. -/
theorem pair_one_one_selects_step_129 :
    midiFirstOne.enabled = true ∧ midiFirstOne.twoNoteMode = true ∧
      midiFirstOne.waitingForSecondNote = true ∧ midiFirstOne.firstNoteValue = 1 ∧
      stepIndices
          (midiFirstOne.handle { now := 10, doc := docLong } (some cueOne)
            (MidiEvent.secondNote 1)).2 = [128] ∧
      twoNoteTarget 1 1 = 128 ∧ twoNoteTarget 127 127 = 16382 := by
  decide

/-- C32: failing input. The class documentation says that velocity 0 is
reserved and ignored in both modes. In two-velocity mode the enabled decoder
`midiTwo` buffers a first value 0: its state changes, it waits for the second
note with its timer armed. With the 300-step sequence attached the pair (0,5)
then selects index 4, and the pair (1,0) selects index 127. The sibling paths
do ignore the value: the single-velocity decoder `midiOn` is left unchanged by
a first value 0 and sends nothing, and the timeout of a buffered 0 selects
nothing. -/
theorem zero_velocity_is_used :
    (midiTwo.handle { now := 0, doc := docLong } (some cueOne) (MidiEvent.firstNote 0)).1 ≠
        midiTwo ∧
      midiFirstZero.waitingForSecondNote = true ∧ midiFirstZero.firstNoteValue = 0 ∧
      midiFirstZero.twoNoteTimer.deadline = some 500 ∧
      stepIndices
          (midiFirstZero.handle { now := 10, doc := docLong } (some cueOne)
            (MidiEvent.secondNote 5)).2 = [4] ∧
      stepIndices
          (midiFirstOne.handle { now := 10, doc := docLong } (some cueOne)
            (MidiEvent.secondNote 0)).2 = [127] ∧
      handleFirstNote { now := 0, doc := docLong } (some cueOne) midiOn 0 = (midiOn, []) ∧
      (handleTwoNoteTimeout { now := 500, doc := docLong } (some cueOne) midiFirstZero).2 = [] := by
  decide

/-- The value 0 at the enabled decoder with its cue list, as the code treats
it. In single-velocity mode a first value 0 changes nothing and sends
nothing. In two-velocity mode a first value 0 sends nothing and is buffered
like any other value; while it is buffered, the timeout and the second value
0 clear the buffer and select
nothing, and a second value `b ≥ 1` hands the index `b - 1` to the rate
limiter. After a first value `a ≥ 1` the second value 0 hands the index
`a * 128 - 1` to the rate limiter. -/
theorem velocity_zero_rule (env : Env) (cl : VCCueList) (m : MidiStepController)
    (hen : m.enabled = true) :
    (m.twoNoteMode = false → handleFirstNote env (some cl) m 0 = (m, [])) ∧
      (m.twoNoteMode = true →
        handleFirstNote env (some cl) m 0 =
          ({ m with
             firstNoteValue := 0
             waitingForSecondNote := true
             twoNoteTimer := m.twoNoteTimer.start env.now m.timeout }, [])) ∧
      (m.twoNoteMode = true → m.waitingForSecondNote = true → m.firstNoteValue = 0 →
        handleTwoNoteTimeout env (some cl) m =
            ({ m with waitingForSecondNote := false, firstNoteValue := -1 }, []) ∧
          handleSecondNote env (some cl) m 0 =
            ({ m with
               twoNoteTimer := m.twoNoteTimer.stop
               waitingForSecondNote := false
               firstNoteValue := -1 }, []) ∧
          ∀ b : Nat, 1 ≤ b →
            handleSecondNote env (some cl) m b =
              queueStepChange env (some cl)
                { m with
                  twoNoteTimer := m.twoNoteTimer.stop
                  waitingForSecondNote := false
                  firstNoteValue := -1 }
                ((b : Int) - 1)) ∧
      (m.twoNoteMode = true → m.waitingForSecondNote = true → 1 ≤ m.firstNoteValue →
        handleSecondNote env (some cl) m 0 =
          queueStepChange env (some cl)
            { m with
              twoNoteTimer := m.twoNoteTimer.stop
              waitingForSecondNote := false
              firstNoteValue := -1 }
            (m.firstNoteValue * 128 - 1)) := by
  have hne : ¬ (m.enabled = false) := by rw [hen]; decide
  refine ⟨?_, ?_, ?_, ?_⟩
  · intro h2
    have h2' : ¬ (m.twoNoteMode = true) := by rw [h2]; decide
    unfold handleFirstNote
    dsimp only
    rw [if_neg hne, if_neg h2', if_pos rfl]
  · intro h2
    unfold handleFirstNote
    dsimp only
    rw [if_neg hne, if_pos h2]
    rfl
  · intro h2 h3 h4
    have h3' : ¬ (m.waitingForSecondNote = false) := by rw [h3]; decide
    refine ⟨?_, ?_, ?_⟩
    · unfold handleTwoNoteTimeout
      rw [if_neg h3', if_pos h4]
    · rw [handleSecondNote_target env cl m 0 hen h2 h3, h4]
      have e : twoNoteTarget 0 ((0 : Nat) : Int) = -1 := by decide
      rw [e]
      rfl
    · intro b hb
      rw [handleSecondNote_target env cl m b hen h2 h3, h4]
      have hb' : (1 : Int) ≤ (b : Int) := by exact_mod_cast hb
      have e : twoNoteTarget 0 (b : Int) = (b : Int) - 1 := by
        have hz : ¬ ((0 : Int) * 128 + (b : Int) = 0) := by omega
        simp only [twoNoteTarget, hz, if_false]
        omega
      rw [e, if_neg (by omega)]
  · intro h2 h3 h4
    rw [handleSecondNote_target env cl m 0 hen h2 h3]
    have e : twoNoteTarget m.firstNoteValue ((0 : Nat) : Int) = m.firstNoteValue * 128 - 1 := by
      have hz : ¬ (m.firstNoteValue * 128 + ((0 : Nat) : Int) = 0) := by
        simp only [Nat.cast_zero]
        omega
      simp only [twoNoteTarget, hz, if_false, Nat.cast_zero]
      omega
    rw [e, if_neg (by omega)]

/-- The rule for the value 0 at concrete decoders: the single-velocity decoder
`midiOn` ignores it, and the two-velocity decoder `midiFirstZero`, which holds
a buffered 0, hands index 4 to the rate limiter on the second value 5. -/
theorem velocity_zero_rule_witness :
    handleFirstNote { now := 0, doc := docFive } (some cueOne) midiOn 0 = (midiOn, []) ∧
      handleSecondNote { now := 10, doc := docLong } (some cueOne) midiFirstZero 5 =
        queueStepChange { now := 10, doc := docLong } (some cueOne)
          { midiFirstZero with
            twoNoteTimer := midiFirstZero.twoNoteTimer.stop
            waitingForSecondNote := false
            firstNoteValue := -1 }
          (((5 : Nat) : Int) - 1) :=
  ⟨(velocity_zero_rule { now := 0, doc := docFive } cueOne midiOn rfl).1 rfl,
    ((velocity_zero_rule { now := 10, doc := docLong } cueOne midiFirstZero rfl).2.2.1 rfl rfl
      rfl).2.2 5 (by decide)⟩

/-- C36: for the enabled two-note decoder waiting for the second note,
`handleSecondNote` hands `twoNoteTarget a b = a * 128 + b - 1` to the rate
limiter, for every pair of the first value `a` and the second value `b` other
than (0,0). On the pairs of 0..127 other than (0,0) this map is injective, its
values lie in 0..16382, and every index in 0..16382 is the value of such a
pair: 16383 is never produced. -/
theorem two_note_bijection :
    (∀ (env : Env) (cl : VCCueList) (m : MidiStepController) (b : Nat),
        m.enabled = true → m.twoNoteMode = true → m.waitingForSecondNote = true →
        0 ≤ m.firstNoteValue → ¬ (m.firstNoteValue = 0 ∧ b = 0) →
        handleSecondNote env (some cl) m b =
          queueStepChange env (some cl)
            { m with
              twoNoteTimer := m.twoNoteTimer.stop
              waitingForSecondNote := false
              firstNoteValue := -1 }
            (twoNoteTarget m.firstNoteValue (b : Int)) ∧
          twoNoteTarget m.firstNoteValue (b : Int) = m.firstNoteValue * 128 + (b : Int) - 1) ∧
      (∀ a b c d : Int, 0 ≤ a → a ≤ 127 → 0 ≤ b → b ≤ 127 → 0 ≤ c → c ≤ 127 → 0 ≤ d →
        d ≤ 127 → ¬ (a = 0 ∧ b = 0) → ¬ (c = 0 ∧ d = 0) →
        twoNoteTarget a b = twoNoteTarget c d → a = c ∧ b = d) ∧
      (∀ a b : Int, 0 ≤ a → a ≤ 127 → 0 ≤ b → b ≤ 127 → ¬ (a = 0 ∧ b = 0) →
        0 ≤ twoNoteTarget a b ∧ twoNoteTarget a b ≤ 16382) ∧
      (∀ k : Int, 0 ≤ k → k ≤ 16382 →
        ∃ a b : Int, 0 ≤ a ∧ a ≤ 127 ∧ 0 ≤ b ∧ b ≤ 127 ∧ ¬ (a = 0 ∧ b = 0) ∧
          twoNoteTarget a b = k) := by
  refine ⟨?_, ?_, ?_, ?_⟩
  · intro env cl m b h1 h2 h3 h4 h5
    have hz : ¬ (m.firstNoteValue * 128 + (b : Int) = 0) := by
      intro h0
      apply h5
      constructor <;> omega
    have e : twoNoteTarget m.firstNoteValue (b : Int) = m.firstNoteValue * 128 + (b : Int) - 1 := by
      simp only [twoNoteTarget, hz, if_false]
    rw [handleSecondNote_target env cl m b h1 h2 h3, e, if_neg (by omega)]
    exact ⟨rfl, rfl⟩
  · intro a b c d ha0 ha hb0 hb hc0 hc hd0 hd h1 h2 he
    rw [(twoNoteTarget_range a b ha0 ha hb0 hb h1).1,
      (twoNoteTarget_range c d hc0 hc hd0 hd h2).1] at he
    constructor <;> omega
  · intro a b ha0 ha hb0 hb h1
    exact (twoNoteTarget_range a b ha0 ha hb0 hb h1).2
  · intro k hk0 hk
    refine ⟨(k + 1) / 128, (k + 1) % 128, by omega, by omega, by omega, by omega, ?_, ?_⟩
    · intro h
      omega
    · rw [(twoNoteTarget_range ((k + 1) / 128) ((k + 1) % 128) (by omega) (by omega) (by omega)
        (by omega) (by intro h; omega)).1]
      omega

/-- C36 witness: the injectivity clause at the pair (1,0) taken twice, the
range clause at the pair (127,127), a pair for the index 16382, and the decoder
holding the first value 1, which hands `twoNoteTarget 1 1` to the rate limiter
on the second value 1. -/
theorem two_note_bijection_witness :
    ((1 : Int) = 1 ∧ (0 : Int) = 0) ∧
      (0 ≤ twoNoteTarget 127 127 ∧ twoNoteTarget 127 127 ≤ 16382) ∧
      (∃ a b : Int, 0 ≤ a ∧ a ≤ 127 ∧ 0 ≤ b ∧ b ≤ 127 ∧ ¬ (a = 0 ∧ b = 0) ∧
        twoNoteTarget a b = 16382) ∧
      twoNoteTarget midiFirstOne.firstNoteValue ((1 : Nat) : Int) =
        midiFirstOne.firstNoteValue * 128 + ((1 : Nat) : Int) - 1 :=
  ⟨two_note_bijection.2.1 1 0 1 0 (by decide) (by decide) (by decide) (by decide) (by decide)
      (by decide) (by decide) (by decide) (by decide) (by decide) rfl,
    two_note_bijection.2.2.1 127 127 (by decide) (by decide) (by decide) (by decide)
      (by decide),
    two_note_bijection.2.2.2 16382 (by decide) (by decide),
    (two_note_bijection.1 { now := 10, doc := docLong } cueOne midiFirstOne 1 (by decide)
      (by decide) (by decide) (by decide) (by decide)).2⟩

theorem handleFirstNote_shape (env : Env) (cueList : Option VCCueList)
    (m : MidiStepController) (v : Nat) :
    ((handleFirstNote env cueList m v).1.hasPendingChange = m.hasPendingChange ∧
        (handleFirstNote env cueList m v).1.pendingStep = m.pendingStep) ∨
      ∃ i, handleFirstNote env cueList m v = queueStepChange env cueList m i := by
  cases cueList with
  | none => exact Or.inl ⟨rfl, rfl⟩
  | some cl =>
    by_cases h1 : m.enabled = false
    · left; simp [handleFirstNote, h1]
    · by_cases h2 : m.twoNoteMode = true
      · left; simp [handleFirstNote, h1, h2]
      · by_cases h3 : v = 0
        · left; simp [handleFirstNote, h1, h2, h3]
        · right
          exact ⟨(v : Int) - 1, by simp [handleFirstNote, h1, h2, h3]⟩

theorem handleSecondNote_shape (env : Env) (cueList : Option VCCueList)
    (m : MidiStepController) (v : Nat) :
    ((handleSecondNote env cueList m v).1.hasPendingChange = m.hasPendingChange ∧
        (handleSecondNote env cueList m v).1.pendingStep = m.pendingStep) ∨
      ∃ m1 i, handleSecondNote env cueList m v = queueStepChange env cueList m1 i ∧
        (m1.hasPendingChange = m.hasPendingChange ∧ m1.pendingStep = m.pendingStep) := by
  cases cueList with
  | none => exact Or.inl ⟨rfl, rfl⟩
  | some cl =>
    by_cases h1 : m.enabled = false ∨ m.twoNoteMode = false ∨ m.waitingForSecondNote = false
    · left; simp [handleSecondNote, h1]
    · by_cases h2 : (if m.firstNoteValue * 128 + (v : Int) = 0 then (-1 : Int)
          else m.firstNoteValue * 128 + (v : Int) - 1) < 0
      · left; simp only [handleSecondNote, h1, h2, if_true, if_false, and_self]
      · right
        exact ⟨{ m with
            twoNoteTimer := m.twoNoteTimer.stop
            waitingForSecondNote := false
            firstNoteValue := -1 },
          (if m.firstNoteValue * 128 + (v : Int) = 0 then (-1 : Int)
            else m.firstNoteValue * 128 + (v : Int) - 1),
          by simp only [handleSecondNote, h1, h2, if_false], rfl, rfl⟩

/-! ## The queued step: rate-limiter decision and buffer consistency -/

theorem executeStepChange_pending (env : Env) (cueList : Option VCCueList)
    (m : MidiStepController) :
    ((executeStepChange env cueList m).1.hasPendingChange = m.hasPendingChange ∧
        (executeStepChange env cueList m).1.pendingStep = m.pendingStep) ∨
      ((executeStepChange env cueList m).1.hasPendingChange = false ∧
        (executeStepChange env cueList m).1.pendingStep = -1) := by
  cases cueList with
  | none => exact Or.inl ⟨rfl, rfl⟩
  | some cl =>
    cases h1 : m.enabled with
    | false =>
      rw [executeStepChange_skip env cl m (Or.inl h1)]
      exact Or.inl ⟨rfl, rfl⟩
    | true =>
      cases h2 : m.hasPendingChange with
      | false =>
        rw [executeStepChange_skip env cl m (Or.inr h2)]
        exact Or.inl ⟨h2, rfl⟩
      | true =>
        cases h3 : isValidStep (some cl) env m.pendingStep with
        | false =>
          rw [executeStepChange_invalid env cl m h1 h2 h3]
          exact Or.inr ⟨rfl, rfl⟩
        | true =>
          obtain ⟨ch, hch, _, _⟩ := (isValidStep_iff cl env _).1 h3
          rw [executeStepChange_dispatch env cl m ch h1 h2 h3 hch]
          exact Or.inr ⟨rfl, rfl⟩

theorem queueStepChange_pending (env : Env) (cueList : Option VCCueList)
    (m : MidiStepController) (i : Int) :
    ((queueStepChange env cueList m i).1.hasPendingChange = m.hasPendingChange ∧
        (queueStepChange env cueList m i).1.pendingStep = m.pendingStep) ∨
      ((queueStepChange env cueList m i).1.hasPendingChange = false ∧
        (queueStepChange env cueList m i).1.pendingStep = -1) ∨
      ((queueStepChange env cueList m i).1.hasPendingChange = true ∧
        0 ≤ (queueStepChange env cueList m i).1.pendingStep) := by
  cases cueList with
  | none => exact Or.inl ⟨rfl, rfl⟩
  | some cl =>
    cases h1 : m.enabled with
    | false =>
      rw [queueStepChange_drop env (some cl) m i (Or.inl h1)]
      exact Or.inl ⟨rfl, rfl⟩
    | true =>
      cases h2 : isValidStep (some cl) env i with
      | false =>
        rw [queueStepChange_drop env (some cl) m i (Or.inr h2)]
        exact Or.inl ⟨rfl, rfl⟩
      | true =>
        obtain ⟨ch, hch, h0, _⟩ := (isValidStep_iff cl env i).1 h2
        cases h3 : rateLimited env m with
        | false =>
          rw [(queueStepChange_immediate_result env cl m i h1 h2 h3).2]
          exact Or.inr (Or.inl ⟨rfl, rfl⟩)
        | true =>
          obtain ⟨t, ht, hlt⟩ := (rateLimited_iff env m).1 h3
          rw [queueStepChange_limited env cl m i t h1 h2 ht hlt]
          exact Or.inr (Or.inr ⟨rfl, h0⟩)

/-- What an event does to the queued step: it keeps it, or it clears it, or
it queues an index that is not negative. -/
theorem handle_pending (env : Env) (cueList : Option VCCueList) (m : MidiStepController)
    (e : MidiEvent) :
    ((m.handle env cueList e).1.hasPendingChange = m.hasPendingChange ∧
        (m.handle env cueList e).1.pendingStep = m.pendingStep) ∨
      ((m.handle env cueList e).1.hasPendingChange = false ∧
        (m.handle env cueList e).1.pendingStep = -1) ∨
      ((m.handle env cueList e).1.hasPendingChange = true ∧
        0 ≤ (m.handle env cueList e).1.pendingStep) := by
  cases e with
  | setEnabled b =>
    simp only [MidiStepController.handle, MidiStepController.setEnabled]
    split
    · exact Or.inl ⟨rfl, rfl⟩
    · split
      · exact Or.inr (Or.inl ⟨rfl, rfl⟩)
      · exact Or.inl ⟨rfl, rfl⟩
  | setTwoNoteMode b =>
    simp only [MidiStepController.handle, MidiStepController.setTwoNoteMode]
    split <;> exact Or.inl ⟨rfl, rfl⟩
  | setTimeout t => exact Or.inl ⟨rfl, rfl⟩
  | setDebounceInterval i => exact Or.inl ⟨rfl, rfl⟩
  | firstNote v =>
    rcases handleFirstNote_shape env cueList m v with h | ⟨i, h⟩
    · simp only [MidiStepController.handle]
      exact Or.inl h
    · simp only [MidiStepController.handle, h]
      exact queueStepChange_pending env cueList m i
  | secondNote v =>
    rcases handleSecondNote_shape env cueList m v with h | ⟨m1, i, h, hp⟩
    · simp only [MidiStepController.handle]
      exact Or.inl h
    · simp only [MidiStepController.handle, h]
      rcases queueStepChange_pending env cueList m1 i with q | q | q
      · exact Or.inl ⟨q.1.trans hp.1, q.2.trans hp.2⟩
      · exact Or.inr (Or.inl q)
      · exact Or.inr (Or.inr q)
  | changeTimerTimeout =>
    cases hd : m.changeTimer.deadline with
    | none =>
      rw [handle_changeTimer_inactive env cueList m hd]
      exact Or.inl ⟨rfl, rfl⟩
    | some d =>
      by_cases hle : d ≤ env.now
      · rw [handle_changeTimerTimeout_due env cueList m d hd hle]
        rcases executeStepChange_pending env cueList
          { m with changeTimer := m.changeTimer.stop } with q | q
        · exact Or.inl q
        · exact Or.inr (Or.inl q)
      · simp only [MidiStepController.handle, hd, hle, if_false, and_self, true_or]
  | twoNoteTimerTimeout =>
    cases hd : m.twoNoteTimer.deadline with
    | none =>
      rw [handle_twoNoteTimer_inactive env cueList m hd]
      exact Or.inl ⟨rfl, rfl⟩
    | some d =>
      by_cases hle : d ≤ env.now
      · simp only [MidiStepController.handle, hd, hle, if_true]
        by_cases h1 : m.waitingForSecondNote = false
        · left
          simp [handleTwoNoteTimeout, h1]
        · by_cases h2 : m.firstNoteValue = 0
          · left
            simp [handleTwoNoteTimeout, h1, h2]
          · simp only [handleTwoNoteTimeout, h1, h2, if_false]
            exact queueStepChange_pending env cueList
              { m with
                twoNoteTimer := m.twoNoteTimer.stop
                waitingForSecondNote := false
                firstNoteValue := -1 }
              (m.firstNoteValue - 1)
      · simp only [MidiStepController.handle, hd, hle, if_false, and_self, true_or]

theorem reachable_buffers (m : MidiStepController) (hr : Reachable m) :
    (m.waitingForSecondNote = true → 0 ≤ m.firstNoteValue) ∧
      (m.waitingForSecondNote = false → m.firstNoteValue = -1) ∧
      (m.hasPendingChange = true → 0 ≤ m.pendingStep) ∧
      (m.hasPendingChange = false → m.pendingStep = -1) := by
  induction hr with
  | init => exact ⟨fun h => absurd h (by decide), fun _ => rfl, fun h => absurd h (by decide),
      fun _ => rfl⟩
  | step m env cueList e _ ih =>
    obtain ⟨i1, i2, i3, i4⟩ := ih
    refine ⟨?_, ?_, ?_, ?_⟩
    · intro hw
      rcases handle_buffer env cueList m e with ⟨h1, h2⟩ | ⟨h1, _⟩ | ⟨v, _, _, h2⟩
      · rw [h2]
        exact i1 (by rw [← h1]; exact hw)
      · rw [h1] at hw
        exact absurd hw (by decide)
      · rw [h2]
        exact Int.natCast_nonneg v
    · intro hw
      rcases handle_buffer env cueList m e with ⟨h1, h2⟩ | ⟨_, h2⟩ | ⟨v, _, h1, _⟩
      · rw [h2]
        exact i2 (by rw [← h1]; exact hw)
      · exact h2
      · rw [h1] at hw
        exact absurd hw (by decide)
    · intro hp
      rcases handle_pending env cueList m e with ⟨h1, h2⟩ | ⟨h1, _⟩ | ⟨_, h2⟩
      · rw [h2]
        exact i3 (by rw [← h1]; exact hp)
      · rw [h1] at hp
        exact absurd hp (by decide)
      · exact h2
    · intro hp
      rcases handle_pending env cueList m e with ⟨h1, h2⟩ | ⟨_, h2⟩ | ⟨h1, _⟩
      · rw [h2]
        exact i4 (by rw [← h1]; exact hp)
      · exact h2
      · rw [h1] at hp
        exact absurd hp (by decide)

/-- C37: in every reachable decoder state the decoder waits for a second note
exactly when its first-note value is not negative, and that value is -1
otherwise; a step change is pending exactly when the pending step is not
negative, and that step is -1 otherwise; while the decoder is disabled it
neither waits for a second note nor holds a pending change. -/
theorem buffer_consistency (m : MidiStepController) (hr : Reachable m) :
    (m.waitingForSecondNote = true ↔ 0 ≤ m.firstNoteValue) ∧
      (m.waitingForSecondNote = false → m.firstNoteValue = -1) ∧
      (m.hasPendingChange = true ↔ 0 ≤ m.pendingStep) ∧
      (m.hasPendingChange = false → m.pendingStep = -1) ∧
      (m.enabled = false → m.waitingForSecondNote = false ∧ m.hasPendingChange = false) := by
  obtain ⟨i1, i2, i3, i4⟩ := reachable_buffers m hr
  refine ⟨⟨i1, ?_⟩, i2, ⟨i3, ?_⟩, i4, ?_⟩
  · intro h0
    cases hw : m.waitingForSecondNote with
    | true => rfl
    | false =>
      have := i2 hw
      omega
  · intro h0
    cases hp : m.hasPendingChange with
    | true => rfl
    | false =>
      have := i4 hp
      omega
  · intro hd
    have h := reachable_disabled_reset m hr hd
    exact ⟨h.1, h.2.2.1⟩

/-- C37 witness: the decoder `midiBusy` at the end of `busyRun` waits for a
second note with the first value 5 and holds the pending step 1. -/
theorem buffer_consistency_witness :
    (midiBusy.waitingForSecondNote = true ↔ 0 ≤ midiBusy.firstNoteValue) ∧
      (midiBusy.waitingForSecondNote = false → midiBusy.firstNoteValue = -1) ∧
      (midiBusy.hasPendingChange = true ↔ 0 ≤ midiBusy.pendingStep) ∧
      (midiBusy.hasPendingChange = false → midiBusy.pendingStep = -1) ∧
      (midiBusy.enabled = false →
        midiBusy.waitingForSecondNote = false ∧ midiBusy.hasPendingChange = false) :=
  buffer_consistency midiBusy (reachable_run busyRun _ Reachable.init)

/-- C35: a valid candidate index handed to the rate limiter of the enabled
decoder at time `now`. If nothing was dispatched before, or the last dispatch
is at least the debounce interval old, the index is dispatched at once, the
pending slot is cleared and `now` becomes the time of the last dispatch.
Otherwise nothing is sent, the time of the last dispatch is kept, the
candidate replaces the pending index, an armed delayed-dispatch timer is left
as it is, and an idle one is armed for `max 10 (debounce - elapsed)` ms, which
lies within 10 and the debounce interval when the clock did not go back and
the debounce interval is at least 10. -/
theorem rate_limiter_decision (env : Env) (cl : VCCueList) (m : MidiStepController)
    (i : Int) (hen : m.enabled = true) (hv : isValidStep (some cl) env i = true) :
    ((m.lastChangeTime = none ∨
          ∃ t, m.lastChangeTime = some t ∧ m.debounceInterval ≤ env.now - t) →
        stepIndices (queueStepChange env (some cl) m i).2 = [i] ∧
          (queueStepChange env (some cl) m i).1 =
            { m with
              hasPendingChange := false
              pendingStep := -1
              lastChangeTime := some env.now }) ∧
      (∀ t, m.lastChangeTime = some t → env.now - t < m.debounceInterval →
        (queueStepChange env (some cl) m i).2 = [] ∧
          (queueStepChange env (some cl) m i).1.lastChangeTime = m.lastChangeTime ∧
          (queueStepChange env (some cl) m i).1.hasPendingChange = true ∧
          (queueStepChange env (some cl) m i).1.pendingStep = i ∧
          (m.changeTimer.isActive = true →
            (queueStepChange env (some cl) m i).1.changeTimer = m.changeTimer) ∧
          (m.changeTimer.isActive = false →
            (queueStepChange env (some cl) m i).1.changeTimer =
              { interval := max 10 (m.debounceInterval - (env.now - t))
                deadline := some (env.now + max 10 (m.debounceInterval - (env.now - t))) }) ∧
          (t ≤ env.now → 10 ≤ m.debounceInterval →
            10 ≤ max 10 (m.debounceInterval - (env.now - t)) ∧
              max 10 (m.debounceInterval - (env.now - t)) ≤ m.debounceInterval)) := by
  constructor
  · intro h
    have h3 : rateLimited env m = false := by
      rcases h with h | ⟨t, ht, hle⟩
      · simp [rateLimited, h]
      · simp only [rateLimited, ht, decide_eq_false_iff_not, not_lt]
        exact hle
    exact queueStepChange_immediate_result env cl m i hen hv h3
  · intro t ht hlt
    rw [queueStepChange_limited env cl m i t hen hv ht hlt]
    refine ⟨rfl, rfl, rfl, rfl, ?_, ?_, ?_⟩
    · intro ha
      simp only [ha, Bool.true_eq_false, if_false]
    · intro ha
      simp only [ha, if_true, QTimer.start]
    · intro h1 h2
      omega

/-- C35 witness: the decoder `midiDispatched` (last dispatch at 0 ms, debounce
100 ms) receives the valid index 2 at 50 ms: nothing is sent, index 2 is
pending and the timer is armed for 50 ms. -/
theorem rate_limiter_decision_witness :
    (queueStepChange { now := 50, doc := docFiveRunning } (some cueOne) midiDispatched 2).2 = [] ∧
      (queueStepChange { now := 50, doc := docFiveRunning } (some cueOne) midiDispatched
        2).1.pendingStep = 2 ∧
      (queueStepChange { now := 50, doc := docFiveRunning } (some cueOne) midiDispatched
        2).1.changeTimer = { interval := 50, deadline := some 100 } := by
  obtain ⟨h1, _, _, h4, _, h6, _⟩ :=
    (rate_limiter_decision { now := 50, doc := docFiveRunning } cueOne midiDispatched 2
      (by decide) (by decide)).2 0 (by decide) (by decide)
  exact ⟨h1, h4, (h6 (by decide)).trans (by decide)⟩


/-! ## Neighbours, the stop notification, the autosave interval, progress -/

/-- C38: with a sequence of `n ≥ 1` steps attached and a cached playback index
`p` in `[0, n)`, in either direction `getNextIndex` and `getPrevIndex` return
indices in `[0, n)`; forward, the next of `n - 1` is 0 and the previous of 0 is
`n - 1` (backward the two are swapped); and the two are mutually inverse: the
previous of the next of `p` is `p`, and the next of the previous of `p` is
`p`. -/
theorem neighbours_wrap_and_invert (cl : VCCueList) (env : Env) (ch : DocFunction)
    (hch : cl.chaser env = some ch) (hn : 1 ≤ ch.stepsCount) (hp0 : 0 ≤ cl.playbackIndex)
    (hp : cl.playbackIndex < (ch.stepsCount : Int)) :
    (0 ≤ cl.getNextIndex env ∧ cl.getNextIndex env < (ch.stepsCount : Int)) ∧
      (0 ≤ cl.getPrevIndex env ∧ cl.getPrevIndex env < (ch.stepsCount : Int)) ∧
      (ch.direction = Direction.Forward → cl.playbackIndex = (ch.stepsCount : Int) - 1 →
        cl.getNextIndex env = 0) ∧
      (ch.direction = Direction.Forward → cl.playbackIndex = 0 →
        cl.getPrevIndex env = (ch.stepsCount : Int) - 1) ∧
      (ch.direction ≠ Direction.Forward → cl.playbackIndex = 0 →
        cl.getNextIndex env = (ch.stepsCount : Int) - 1) ∧
      (ch.direction ≠ Direction.Forward → cl.playbackIndex = (ch.stepsCount : Int) - 1 →
        cl.getPrevIndex env = 0) ∧
      ({ cl with playbackIndex := cl.getNextIndex env } : VCCueList).getPrevIndex env =
        cl.playbackIndex ∧
      ({ cl with playbackIndex := cl.getPrevIndex env } : VCCueList).getNextIndex env =
        cl.playbackIndex := by
  have hch1 : ∀ q : Int, ({ cl with playbackIndex := q } : VCCueList).chaser env = some ch :=
    fun _ => hch
  obtain ⟨a1, a2, _, _⟩ := neighbours_attached cl env ch hch
  have b1 := (neighbours_attached _ env ch (hch1 (cl.getNextIndex env))).2.1
  have b2 := (neighbours_attached _ env ch (hch1 (cl.getPrevIndex env))).1
  rw [b1, b2]
  dsimp only
  rw [a1, a2]
  by_cases hd : ch.direction = Direction.Forward
  · simp only [hd, if_true, ne_eq, not_true_eq_false, false_implies, true_implies]
    refine ⟨?_, ?_, ?_, ?_, trivial, trivial, ?_, ?_⟩
    · split_ifs <;> omega
    · split_ifs <;> omega
    · intro h
      rw [if_pos (by omega)]
    · intro h
      rw [if_pos h]
    · split_ifs <;> omega
    · split_ifs <;> omega
  · simp only [hd, if_false, ne_eq, not_false_eq_true, false_implies, true_implies]
    refine ⟨?_, ?_, trivial, trivial, ?_, ?_, ?_, ?_⟩
    · split_ifs <;> omega
    · split_ifs <;> omega
    · intro h
      rw [if_pos h]
    · intro h
      rw [if_pos (by omega)]
    · split_ifs <;> omega
    · split_ifs <;> omega

/-- C38 witness: the cue list `cueAtLast` (playback index 4) with the idle
five-step sequence playing forward: the next index wraps to 0. -/
theorem neighbours_wrap_and_invert_witness :
    cueAtLast.getNextIndex (envOf 0 fiveIdle) = 0 ∧
      ({ cueAtLast with playbackIndex := cueAtLast.getNextIndex (envOf 0 fiveIdle) } :
        VCCueList).getPrevIndex (envOf 0 fiveIdle) = cueAtLast.playbackIndex := by
  have h := neighbours_wrap_and_invert cueAtLast (envOf 0 fiveIdle) fiveIdle
    (chaser_envOf cueAtLast 0 fiveIdle (by decide) (by decide) rfl) (by decide) (by decide)
    (by decide)
  exact ⟨h.2.2.1 rfl (by decide), h.2.2.2.2.2.2.1⟩

/-- C39 counterexample: the cue list `cuePlaying` stored the playback index 0
at 0 ms; with a minimum interval of 50 ms the stop notification of its
sequence, delivered on the owning thread at 10 ms, is dropped by the throttle:
the playback index stays 0 and the next-step index stays 1. -/
theorem stop_notification_throttled :
    cuePlaying.chaserID = 1 ∧ (envOf 10 fourRunning).owningThread = true ∧
      (cuePlaying.slotFunctionStopped (envOf 10 fourRunning) 1).1.playbackIndex = 0 ∧
      (cuePlaying.slotFunctionStopped (envOf 10 fourRunning) 1).1.nextStepIndex = 1 := by
  decide

/-- C39: the stop notification for the attached sequence sends only the
feedback 0 of the play button and calls `setPlaybackIndex (-1)`. When that call
is accepted (owning thread, nothing stored before or the last accepted call at
least the minimum interval old) the playback index is -1 afterwards, and the
next-step index is -1 as well if a sequence is attached and the index was not
-1 already; a notification inside the minimum interval changes nothing. -/
theorem stop_notification (cl : VCCueList) (env : Env) :
    cl.slotFunctionStopped env cl.chaserID =
        (cl.setPlaybackIndex env (-1), [Command.sendFeedback 0 INPUT_PLAY_PAUSE_ID]) ∧
      (env.owningThread = true →
        (∀ t, cl.lastChangeTime = some t → env.minChangeIntervalMs ≤ env.now - t) →
        (cl.slotFunctionStopped env cl.chaserID).1.playbackIndex = -1 ∧
          (∀ ch, cl.chaser env = some ch → cl.playbackIndex ≠ -1 →
            (cl.slotFunctionStopped env cl.chaserID).1.nextStepIndex = -1)) ∧
      (∀ t, cl.lastChangeTime = some t → env.now - t < env.minChangeIntervalMs →
        (cl.slotFunctionStopped env cl.chaserID).1 = cl) := by
  have h0 : cl.slotFunctionStopped env cl.chaserID =
      (cl.setPlaybackIndex env (-1), [Command.sendFeedback 0 INPUT_PLAY_PAUSE_ID]) := by
    simp only [VCCueList.slotFunctionStopped, if_true]
  refine ⟨h0, ?_, ?_⟩
  · intro ho hacc
    rw [h0]
    dsimp only
    rw [setPlaybackIndex_accepted cl env (-1) ho hacc]
    by_cases hp : cl.playbackIndex = -1
    · rw [if_pos hp]
      exact ⟨hp, fun _ _ hne => absurd hp hne⟩
    · rw [if_neg hp]
      constructor
      · cases cl.chaser env <;> rfl
      · intro ch hch _
        rw [hch]
        rfl
  · intro t ht hlt
    rw [h0]
    exact setPlaybackIndex_throttled cl env (-1) t ht hlt

/-- C39 witness: the same notification delivered to `cuePlaying` at 60 ms,
outside the minimum interval of 50 ms, resets both indices. -/
theorem stop_notification_witness :
    (cuePlaying.slotFunctionStopped (envOf 60 fourRunning) cuePlaying.chaserID).1.playbackIndex =
        -1 ∧
      (cuePlaying.slotFunctionStopped (envOf 60 fourRunning)
        cuePlaying.chaserID).1.nextStepIndex = -1 := by
  have h := (stop_notification cuePlaying (envOf 60 fourRunning)).2.1 rfl
    (by
      intro t ht
      have e : cuePlaying.lastChangeTime = some 0 := by decide
      rw [e] at ht
      cases ht
      decide)
  exact ⟨h.1, h.2 fourRunning
    (chaser_envOf cuePlaying 60 fourRunning (by decide) (by decide) rfl) (by decide)⟩

/-- C34: whatever the state of the autosave manager, setting the interval to
`m` minutes stores `max 1 m` minutes; from the constructor defaults, setting 0
yields 1 and setting 10 yields 10. -/
theorem autosave_interval_clamp :
    (∀ (a : AutoSaveManager) (m : Int), (a.setIntervalMinutes m).intervalMinutes = max 1 m) ∧
      (AutoSaveManager.init.setIntervalMinutes 0).intervalMinutes = 1 ∧
      (AutoSaveManager.init.setIntervalMinutes 10).intervalMinutes = 10 ∧
      ((AutoSaveManager.init.setIntervalMinutes 10).setIntervalMinutes 0).intervalMinutes = 1 := by
  have key : ∀ (a : AutoSaveManager) (m : Int),
      (a.setIntervalMinutes m).intervalMinutes = max 1 m := by
    intro a m
    have hupd : ∀ b : AutoSaveManager, b.updateTimerInterval.intervalMinutes = b.intervalMinutes := by
      intro b
      unfold AutoSaveManager.updateTimerInterval AutoSaveManager.start
      dsimp only
      split_ifs <;> rfl
    unfold AutoSaveManager.setIntervalMinutes
    dsimp only
    by_cases hm : m < 1
    · rw [if_pos hm]
      split
      · rw [hupd]
        dsimp only
        omega
      · rename_i h
        simp only [ne_eq, not_not] at h
        rw [h]
        omega
    · rw [if_neg hm]
      split
      · rw [hupd]
        dsimp only
        omega
      · rename_i h
        simp only [ne_eq, not_not] at h
        rw [h]
        omega
  exact ⟨key, by decide, by decide, by decide⟩

/-- C34 witness: from the constructor defaults, an interval of -3 minutes is
stored as 1 minute. -/
theorem autosave_interval_clamp_witness :
    (AutoSaveManager.init.setIntervalMinutes (-3)).intervalMinutes = max 1 (-3) :=
  autosave_interval_clamp.1 AutoSaveManager.init (-3)

/-- C33: the cue list `cueOne` with the running sequence `fourHolding`, whose
current step has an infinite duration and is past its fade-in (elapsed 2000 ms,
fade-in 1000 ms): the progress reporter publishes the status `ProgressHold`,
an empty text and the progress value 100, which is not a fraction in [0,1].
With the sequence `fourHalfway` (finite duration 2000 ms, elapsed 1000 ms) the
published value is the fraction `1000 / 2000`. -/
theorem progress_complete_is_100 :
    (envOf 0 fourHolding).infiniteSpeed = fourHolding.currentRunningStep.duration ∧
      fourHolding.currentRunningStep.elapsed ≤ fourHolding.currentRunningStep.duration ∧
      cueOne.slotProgressTimeout (envOf 0 fourHolding) true =
        [ ItemProperty.progressStatus ProgressStatus.ProgressHold,
          ItemProperty.progressValue 100, ItemProperty.progressText none ] ∧
      ¬ ((100 : ℚ) ≤ 1) ∧
      cueOne.slotProgressTimeout (envOf 0 fourHalfway) true =
        [ ItemProperty.progressStatus ProgressStatus.ProgressHold,
          ItemProperty.progressValue ((1000 : ℚ) / 2000),
          ItemProperty.progressText (some 1000) ] := by
  refine ⟨by decide, by decide, ?_, by norm_num, ?_⟩
  · have hch := chaser_envOf cueOne 0 fourHolding rfl (by decide) rfl
    unfold VCCueList.slotProgressTimeout
    rw [hch]
    decide
  · have hch := chaser_envOf cueOne 0 fourHalfway rfl (by decide) rfl
    unfold VCCueList.slotProgressTimeout
    rw [hch]
    simp [fourHalfway, fourRunning, envOf]


/-! ## Steps mode: every step can be selected -/

/-- The rounded step size `toFloat (255 / n)` lies between two neighbours `a`
and `a + 1/65536` of the `float` format that enclose `255 / n`. -/
theorem stepSize_window (ar : FloatArith) (hs : ar.Sound) (n : Nat) (hn1 : 1 ≤ n)
    (hn : n ≤ 255) :
    ∃ a : ℚ, 1 ≤ a ∧ a ≤ ar.toFloat (255 / (n : ℚ)) ∧
      ar.toFloat (255 / (n : ℚ)) ≤ a + 1 / 65536 ∧
      (n : ℚ) * a ≤ 255 ∧ 255 < (n : ℚ) * (a + 1 / 65536) ∧
      255 - (a + 1 / 65536) ≤ ar.toFloat (255 - ar.toFloat (255 / (n : ℚ))) := by
  have hK1 : 65536 ≤ (255 * 65536) / n := by
    rw [Nat.le_div_iff_mul_le (by omega)]
    have : 65536 * n ≤ 65536 * 255 := Nat.mul_le_mul_left _ hn
    omega
  have hK2 : (255 * 65536) / n ≤ 255 * 65536 := Nat.div_le_self _ _
  have hK3 : (255 * 65536) / n * n ≤ 255 * 65536 := Nat.div_mul_le_self _ _
  have hK4 : 255 * 65536 < ((255 * 65536) / n + 1) * n := by
    have := Nat.lt_succ_self ((255 * 65536) / n)
    exact (Nat.div_lt_iff_lt_mul (by omega)).1 this
  generalize (255 * 65536) / n = K at hK1 hK2 hK3 hK4
  have hnq : (0 : ℚ) < (n : ℚ) := by exact_mod_cast hn1
  have hKq1 : (65536 : ℚ) ≤ (K : ℚ) := by exact_mod_cast hK1
  have hKq3 : (K : ℚ) * (n : ℚ) ≤ 255 * 65536 := by exact_mod_cast hK3
  have hKq4 : (255 * 65536 : ℚ) < ((K : ℚ) + 1) * (n : ℚ) := by exact_mod_cast hK4
  have hrepA : Representable 24 (-149) 104 ((K : ℚ) / 65536) := by
    have h := representable_dyadic 24 (-149) 104 (K : Int) 16 (by norm_num) (by norm_num) (by
      rw [abs_of_nonneg (by omega)]
      norm_num
      omega)
    norm_num at h
    exact h
  have hrepU : Representable 24 (-149) 104 (((K : ℚ) + 1) / 65536) := by
    have h := representable_dyadic 24 (-149) 104 ((K : Int) + 1) 16 (by norm_num)
      (by norm_num) (by
        rw [abs_of_nonneg (by omega)]
        norm_num
        omega)
    have e : ((((K : Int) + 1 : Int) : ℚ)) / 2 ^ 16 = ((K : ℚ) + 1) / 65536 := by
      push_cast
      norm_num
    rw [e] at h
    exact h
  have hrepB : Representable 24 (-149) 104 (255 - ((K : ℚ) + 1) / 65536) := by
    have h := representable_dyadic 24 (-149) 104 (255 * 65536 - ((K : Int) + 1)) 16
      (by norm_num) (by norm_num) (by
        rw [abs_lt]
        constructor
        · norm_num
          omega
        · norm_num
          omega)
    have e : (((255 * 65536 - ((K : Int) + 1) : Int) : ℚ)) / 2 ^ 16 =
        255 - ((K : ℚ) + 1) / 65536 := by
      push_cast
      norm_num
      ring
    rw [e] at h
    exact h
  have hlow : (K : ℚ) / 65536 ≤ 255 / (n : ℚ) := by
    rw [div_le_div_iff₀ (by norm_num) hnq]
    linarith
  have hup : 255 / (n : ℚ) ≤ ((K : ℚ) + 1) / 65536 := by
    rw [div_le_div_iff₀ hnq (by norm_num)]
    linarith
  have hsl : (K : ℚ) / 65536 ≤ ar.toFloat (255 / (n : ℚ)) := by
    have h := hs.float_mono _ _ hlow
    rw [hs.float_exact _ hrepA] at h
    exact h
  have hsu : ar.toFloat (255 / (n : ℚ)) ≤ ((K : ℚ) + 1) / 65536 := by
    have h := hs.float_mono _ _ hup
    rw [hs.float_exact _ hrepU] at h
    exact h
  have hadd : (K : ℚ) / 65536 + 1 / 65536 = ((K : ℚ) + 1) / 65536 := by ring
  refine ⟨(K : ℚ) / 65536, ?_, hsl, ?_, ?_, ?_, ?_⟩
  · rw [le_div_iff₀ (by norm_num)]
    linarith
  · rw [hadd]
    exact hsu
  · have e : (n : ℚ) * ((K : ℚ) / 65536) = (K : ℚ) * (n : ℚ) / 65536 := by ring
    rw [e, div_le_iff₀ (by norm_num)]
    linarith
  · rw [hadd]
    have e : (n : ℚ) * (((K : ℚ) + 1) / 65536) = ((K : ℚ) + 1) * (n : ℚ) / 65536 := by ring
    rw [e, lt_div_iff₀ (by norm_num)]
    linarith
  · rw [hadd]
    have h := hs.float_mono (255 - ((K : ℚ) + 1) / 65536) (255 - ar.toFloat (255 / (n : ℚ)))
      (by linarith)
    rw [hs.float_exact _ hrepB] at h
    exact h

theorem stepsTarget_top (ar : FloatArith) (hs : ar.Sound) (n : Nat) (hn1 : 1 ≤ n)
    (hn : n ≤ 255) : stepsTarget ar n 255 = (n : Int) - 1 := by
  obtain ⟨a, ha1, hl, _, _, _, _⟩ := stepSize_window ar hs n hn1 hn
  rw [stepsTarget_small ar n hn1 hn 255]
  have h : ar.toFloat (255 - ar.toFloat (255 / (n : ℚ))) ≤ ar.toFloat (((255 : Int) : ℚ)) := by
    apply hs.float_mono
    push_cast
    linarith
  rw [if_pos h]

/-- The arithmetic behind `stepsTarget_inner`: a level `l` with
`255 k + 1 ≤ l n ≤ 255 k + n` is below the threshold of the top step. -/
theorem inner_below_threshold (n k l a : ℚ) (hn0 : 0 < n) (hn : n ≤ 254)
    (hk : k ≤ n - 2) (hl2 : l * n ≤ 255 * k + n) (hna : n * a ≤ 255) :
    l < 255 - (a + 1 / 65536) := by
  have h1 : n * (l + a + 1 / 65536) < n * 255 := by
    have e : n * (l + a + 1 / 65536) = l * n + n * a + n / 65536 := by ring
    rw [e]
    have h2 : n / 65536 ≤ 254 / 65536 := div_le_div_of_nonneg_right hn (by norm_num)
    norm_num at h2
    linarith
  have h3 : l + a + 1 / 65536 < 255 := lt_of_mul_lt_mul_left h1 hn0.le
  linarith

/-- The arithmetic behind `stepsTarget_inner`: the quotient of the level by
any step size between `a` and `a + 1/65536` is at least `k`. -/
theorem inner_quotient_low (n k l a s : ℚ) (hn0 : 0 < n) (hn : n ≤ 254) (hk0 : 0 ≤ k)
    (hk : k ≤ n - 2) (hl1 : 255 * k + 1 ≤ l * n) (hna : n * a ≤ 255)
    (hs0 : 0 < s) (hu : s ≤ a + 1 / 65536) : k ≤ l / s := by
  rw [le_div_iff₀ hs0]
  have h1 : k * s ≤ k * (a + 1 / 65536) := mul_le_mul_of_nonneg_left hu hk0
  have hkn : k * n ≤ 252 * 254 := by
    have h2 : k * n ≤ (n - 2) * n := mul_le_mul_of_nonneg_right hk hn0.le
    have h3 : (n - 2) * n ≤ 252 * 254 := by nlinarith
    linarith
  have h4 : n * (k * (a + 1 / 65536)) ≤ n * l := by
    have e : n * (k * (a + 1 / 65536)) = k * (n * a) + k * n / 65536 := by ring
    rw [e]
    have h5 : k * (n * a) ≤ k * 255 := mul_le_mul_of_nonneg_left hna hk0
    have h6 : k * n / 65536 ≤ 252 * 254 / 65536 := div_le_div_of_nonneg_right hkn (by norm_num)
    norm_num at h6
    linarith
  have h7 : k * (a + 1 / 65536) ≤ l := le_of_mul_le_mul_left h4 hn0
  linarith

/-- The arithmetic behind `stepsTarget_inner`: the quotient of the level by
any step size between `a` and `a + 1/65536` stays `1/16384` below `k + 1`. -/
theorem inner_quotient_high (n k l a s : ℚ) (hn0 : 0 < n) (hn : n ≤ 254) (hk0 : 0 ≤ k)
    (hk : k ≤ n - 2) (hl2 : l * n ≤ 255 * k + n) (hna2 : 255 < n * (a + 1 / 65536))
    (hs0 : 0 < s) (hl : a ≤ s) : l / s ≤ k + 1 - 1 / 16384 := by
  rw [div_le_iff₀ hs0]
  have hc : (0 : ℚ) ≤ k + 1 - 1 / 16384 := by linarith
  have h1 : (k + 1 - 1 / 16384) * a ≤ (k + 1 - 1 / 16384) * s :=
    mul_le_mul_of_nonneg_left hl hc
  have hkn1 : (k + 1) * n ≤ 253 * 254 := by
    have h2 : (k + 1) * n ≤ (n - 1) * n := mul_le_mul_of_nonneg_right (by linarith) hn0.le
    have h3 : (n - 1) * n ≤ 253 * 254 := by nlinarith
    linarith
  have h3 : 255 - n / 65536 ≤ n * a := by
    have : n * (a + 1 / 65536) = n * a + n / 65536 := by ring
    linarith
  have h4 : (k + 1 - 1 / 16384) * (255 - n / 65536) ≤ (k + 1 - 1 / 16384) * (n * a) :=
    mul_le_mul_of_nonneg_left h3 hc
  have h6 : 255 * k + 254 ≤ (k + 1 - 1 / 16384) * (255 - n / 65536) := by
    have e2 : (k + 1 - 1 / 16384) * (255 - n / 65536) =
        255 * k + 255 - 255 / 16384 - (k + 1) * n / 65536 + n / (16384 * 65536) := by ring
    rw [e2]
    have h7 : (k + 1) * n / 65536 ≤ 253 * 254 / 65536 :=
      div_le_div_of_nonneg_right hkn1 (by norm_num)
    have h8 : (0 : ℚ) ≤ n / (16384 * 65536) := div_nonneg hn0.le (by norm_num)
    norm_num at h7 ⊢
    linarith
  have h2 : n * l ≤ n * ((k + 1 - 1 / 16384) * a) := by
    have e : n * ((k + 1 - 1 / 16384) * a) = (k + 1 - 1 / 16384) * (n * a) := by ring
    rw [e]
    have e3 : n * l = l * n := by ring
    rw [e3]
    linarith
  have h9 : l ≤ (k + 1 - 1 / 16384) * a := le_of_mul_le_mul_left h2 hn0
  linarith

/-- Below the top step, the inverted level `255 * k / n + 1` selects step `k`,
whatever the rounding. -/
theorem stepsTarget_inner (ar : FloatArith) (hs : ar.Sound) (n : Nat) (hn1 : 1 ≤ n)
    (hn : n ≤ 254) (k : Int) (hk0 : 0 ≤ k) (hk : k ≤ (n : Int) - 2) :
    0 ≤ 255 * k / (n : Int) + 1 ∧ 255 * k / (n : Int) + 1 ≤ 255 ∧
      stepsTarget ar n (255 * k / (n : Int) + 1) = k := by
  obtain ⟨a, ha1, hl, hu, hna, hna2, hthr⟩ := stepSize_window ar hs n hn1 (by omega)
  have hnpos : (0 : Int) < (n : Int) := by exact_mod_cast hn1
  have hd1 : 255 * k / (n : Int) * (n : Int) ≤ 255 * k :=
    Int.ediv_mul_le _ (by omega)
  have hd2 : 255 * k < (255 * k / (n : Int) + 1) * (n : Int) :=
    Int.lt_ediv_add_one_mul_self _ hnpos
  have hq0 : 0 ≤ 255 * k / (n : Int) := Int.ediv_nonneg (by omega) (by omega)
  generalize 255 * k / (n : Int) = q at hd1 hd2 hq0
  have hn254 : (n : Int) ≤ 254 := by exact_mod_cast hn
  have hln1 : 255 * k + 1 ≤ (q + 1) * (n : Int) := by omega
  have hln2 : (q + 1) * (n : Int) ≤ 255 * k + (n : Int) := by
    have : (q + 1) * (n : Int) = q * (n : Int) + (n : Int) := by ring
    omega
  have hl255 : q + 1 ≤ 255 := by
    by_contra hc
    have h256 : 256 ≤ q + 1 := by omega
    have : 256 * (n : Int) ≤ (q + 1) * (n : Int) :=
      Int.mul_le_mul_of_nonneg_right h256 (by omega)
    omega
  refine ⟨by omega, hl255, ?_⟩
  have hnq : (0 : ℚ) < (n : ℚ) := by exact_mod_cast hn1
  have hnq254 : (n : ℚ) ≤ 254 := by exact_mod_cast hn
  have hkq0 : (0 : ℚ) ≤ (k : ℚ) := by exact_mod_cast hk0
  have hkq : (k : ℚ) ≤ (n : ℚ) - 2 := by
    have : ((k : Int) : ℚ) ≤ (((n : Int) - 2 : Int) : ℚ) := by exact_mod_cast hk
    push_cast at this
    exact this
  have hlq1 : 255 * (k : ℚ) + 1 ≤ ((q : ℚ) + 1) * (n : ℚ) := by
    have : ((255 * k + 1 : Int) : ℚ) ≤ (((q + 1) * (n : Int) : Int) : ℚ) := by
      exact_mod_cast hln1
    push_cast at this
    exact this
  have hlq2 : ((q : ℚ) + 1) * (n : ℚ) ≤ 255 * (k : ℚ) + (n : ℚ) := by
    have : (((q + 1) * (n : Int) : Int) : ℚ) ≤ ((255 * k + (n : Int) : Int) : ℚ) := by
      exact_mod_cast hln2
    push_cast at this
    exact this
  have hcast : (((q + 1 : Int)) : ℚ) = (q : ℚ) + 1 := by push_cast; ring
  have hspos : 0 < ar.toFloat (255 / (n : ℚ)) := by linarith
  rw [stepsTarget_small ar n hn1 (by omega) (q + 1),
    toFloat_level ar hs (q + 1) (by omega) hl255, hcast]
  have hnot : ¬ ar.toFloat (255 - ar.toFloat (255 / (n : ℚ))) ≤ (q : ℚ) + 1 := by
    intro hc
    have h1 := inner_below_threshold (n : ℚ) (k : ℚ) ((q : ℚ) + 1) a hnq hnq254 hkq hlq2 hna
    linarith
  rw [if_neg hnot, Int.floor_eq_iff]
  have hlow := inner_quotient_low (n : ℚ) (k : ℚ) ((q : ℚ) + 1) a
    (ar.toFloat (255 / (n : ℚ))) hnq hnq254 hkq0 hkq hlq1 hna hspos hu
  have hhigh := inner_quotient_high (n : ℚ) (k : ℚ) ((q : ℚ) + 1) a
    (ar.toFloat (255 / (n : ℚ))) hnq hnq254 hkq0 hkq hlq2 hna2 hspos hl
  have hk252 : k ≤ 252 := by omega
  have hrepLow : Representable 53 (-1074) 971 ((k : Int) : ℚ) :=
    representable_int 53 (-1074) 971 k (by norm_num) (by norm_num) (by
      rw [abs_of_nonneg hk0]
      norm_num
      omega)
  have hrepUp : Representable 53 (-1074) 971 ((k : ℚ) + 1 - 1 / 16384) := by
    have h := representable_dyadic 53 (-1074) 971 (16384 * (k + 1) - 1) 14 (by norm_num)
      (by norm_num) (by
        rw [abs_of_nonneg (by omega)]
        norm_num
        omega)
    have e : (((16384 * (k + 1) - 1 : Int) : ℚ)) / 2 ^ 14 = (k : ℚ) + 1 - 1 / 16384 := by
      push_cast
      norm_num
      ring
    rw [e] at h
    exact h
  constructor
  · have h := hs.double_mono _ _ hlow
    rw [hs.double_exact _ hrepLow] at h
    exact h
  · have h := hs.double_mono _ _ hhigh
    rw [hs.double_exact _ hrepUp] at h
    linarith

theorem stepsTarget_255 (ar : FloatArith) (hs : ar.Sound) (k : Int) (hk0 : 0 ≤ k)
    (hk : k ≤ 253) : stepsTarget ar 255 k = k := by
  have hstep : ar.toFloat (255 / ((255 : Nat) : ℚ)) = 1 := by
    have h := hs.float_exact _ (representable_int 24 (-149) 104 1 (by norm_num) (by norm_num)
      (by norm_num))
    norm_num at h ⊢
    exact h
  have hthr : ar.toFloat (255 - 1) = 254 := by
    have h := hs.float_exact _ (representable_int 24 (-149) 104 254 (by norm_num)
      (by norm_num) (by norm_num))
    norm_num at h ⊢
    exact h
  have hrep : Representable 53 (-1074) 971 ((k : Int) : ℚ) :=
    representable_int 53 (-1074) 971 k (by norm_num) (by norm_num) (by
      rw [abs_of_nonneg hk0]
      norm_num
      omega)
  rw [stepsTarget_small ar 255 (by norm_num) (by norm_num) k, hstep, hthr,
    toFloat_level ar hs k hk0 (by omega)]
  have hq : ¬ (254 : ℚ) ≤ (k : ℚ) := by
    have : (k : ℚ) ≤ 253 := by exact_mod_cast hk
    intro h
    linarith
  rw [if_neg hq, div_one, hs.double_exact _ hrep]
  exact Int.floor_intCast k

/-- C40: under every sound rounding, for a sequence of `n` steps with
`1 ≤ n ≤ 255` every step `k` in `[0, n - 1]` is the Steps-mode target of some
fader level in 0..255, and for `n ≥ 256` the targets of the fader levels in
0..255 are exactly the indices 0..255. -/
theorem steps_mode_onto (ar : FloatArith) (hs : ar.Sound) (n : Nat) :
    (1 ≤ n → n ≤ 255 → ∀ k : Int, 0 ≤ k → k ≤ (n : Int) - 1 →
        ∃ level : Int, 0 ≤ level ∧ level ≤ 255 ∧ stepsTarget ar n (255 - level) = k) ∧
      (256 ≤ n → ∀ k : Int,
        (∃ level : Int, 0 ≤ level ∧ level ≤ 255 ∧ stepsTarget ar n (255 - level) = k) ↔
          (0 ≤ k ∧ k ≤ 255)) := by
  constructor
  · intro hn1 hn k hk0 hk
    by_cases htop : k = (n : Int) - 1
    · refine ⟨0, le_rfl, by norm_num, ?_⟩
      rw [htop]
      exact stepsTarget_top ar hs n hn1 hn
    · have hk2 : k ≤ (n : Int) - 2 := by omega
      by_cases h255 : n = 255
      · subst h255
        refine ⟨255 - k, by omega, by omega, ?_⟩
        have e : 255 - (255 - k) = k := by ring
        rw [e]
        exact stepsTarget_255 ar hs k hk0 (by omega)
      · obtain ⟨h0, h1, h2⟩ := stepsTarget_inner ar hs n hn1 (by omega) k hk0 hk2
        refine ⟨255 - (255 * k / (n : Int) + 1), by omega, by omega, ?_⟩
        have e : 255 - (255 - (255 * k / (n : Int) + 1)) = 255 * k / (n : Int) + 1 := by ring
        rw [e]
        exact h2
  · intro hn k
    constructor
    · rintro ⟨level, h0, h1, h2⟩
      rw [stepsTarget_large ar n hn] at h2
      omega
    · rintro ⟨h0, h1⟩
      refine ⟨255 - k, by omega, by omega, ?_⟩
      rw [stepsTarget_large ar n hn]
      ring

/-- C40 witness: with nine steps in exact arithmetic some fader level selects
step 5, and with 300 steps some fader level selects index 7 exactly because 7
lies in 0..255. -/
theorem steps_mode_onto_witness :
    (∃ level : Int, 0 ≤ level ∧ level ≤ 255 ∧ stepsTarget exactArith 9 (255 - level) = 5) ∧
      ((∃ level : Int, 0 ≤ level ∧ level ≤ 255 ∧
          stepsTarget exactArith 300 (255 - level) = 7) ↔ ((0 : Int) ≤ 7 ∧ (7 : Int) ≤ 255)) :=
  ⟨(steps_mode_onto exactArith exactArith_sound 9).1 (by decide) (by decide) 5 (by decide)
      (by decide),
    (steps_mode_onto exactArith exactArith_sound 300).2 (by decide) 7⟩

end QLC
